import Mathlib

/-!
# FileEncryptorV3 (src/js/encryptor_v3.js): envelope encryption

A shallow embedding of the `FileEncryptorV3` class.  The browser collaborators
(`crypto.getRandomValues`, `crypto.subtle.*`, `console.*`) are made explicit:

* the random source is an entropy stream with a cursor, kept in the `World`;
* `crypto.subtle` is a record of functions (`WebCrypto`) that may throw;
* every call to a collaborator appends an `Event` to the trace of the `World`,
  so that the order of the calls can be stated.

`async`/`await` is sequential inside one invocation, so a promise-returning
method is a `Js` computation: a function from the world to an outcome (a value
or a thrown `JsError`) and the world after the call.

Bytes of a `Uint8Array` are natural numbers; the class only copies bytes and
never computes with them.  A password is a string of Unicode scalar values and
its JavaScript `length` is its number of UTF-16 code units (`jsLength`).
-/

namespace FileEncryptorV3

/-! ## JavaScript values -/

abbrev Byte := Nat

/-- A thrown JavaScript error: `error.name` and `error.message`. -/
structure JsError where
  name : String
  message : String
deriving DecidableEq, Repr

/-- The value of `new Error(message)`. -/
def JsError.mkError (message : String) : JsError := ⟨"Error", message⟩

/-- A `CryptoKey` handle returned by `crypto.subtle.importKey`. -/
structure CryptoKey where
  algorithm : String
  raw : List Byte
  extractable : Bool
  usages : List String
deriving DecidableEq, Repr

/-- One observable call to a collaborator. -/
inductive Event where
  | consoleLog (msg : String)
  | consoleWarn (msg : String)
  | consoleError (msg : String) (err : JsError)
  | getRandomValues (n : Nat)
  | importKey (algorithm : String) (usages : List String)
  | deriveBits (iterations : Nat) (hash : String) (length : Nat)
  | encrypt (tagLength : Nat)
  | decrypt (tagLength : Nat)
deriving DecidableEq, Repr

/-- The state outside the class: the random stream, how much of it has been
drawn, and the calls made so far (oldest first). -/
structure World where
  entropy : Nat → Byte
  cursor : Nat
  trace : List Event

/-- A computation that reads and writes the world and may throw. -/
def Js (α : Type) : Type := World → Except JsError α × World

namespace Js

def ret {α : Type} (a : α) : Js α := fun w => (Except.ok a, w)

def throwErr {α : Type} (e : JsError) : Js α := fun w => (Except.error e, w)

def bnd {α β : Type} (m : Js α) (f : α → Js β) : Js β := fun w =>
  match m w with
  | (Except.ok a, w1) => f a w1
  | (Except.error e, w1) => (Except.error e, w1)

/-- The statement `try { body } catch (error) { handler }`. -/
def tryCatchJs {α : Type} (body : Js α) (handler : JsError → Js α) : Js α := fun w =>
  match body w with
  | (Except.ok a, w1) => (Except.ok a, w1)
  | (Except.error e, w1) => handler e w1

instance : Monad Js where
  pure := ret
  bind := bnd

instance : MonadExcept JsError Js where
  throw := throwErr
  tryCatch := tryCatchJs

/-- Record one call in the trace. -/
def emit (ev : Event) : Js Unit := fun w =>
  (Except.ok (), { w with trace := w.trace ++ [ev] })

/-- The outcome of a collaborator that returns or throws without touching the world. -/
def ofExcept {α : Type} (r : Except JsError α) : Js α := fun w => (r, w)

end Js

/-! ## Platform operations -/

/-- The value of `string.length`: the number of UTF-16 code units. -/
def jsLength (s : String) : Nat :=
  (s.toList.map (fun c => if c.toNat < 65536 then 1 else 2)).sum

/-- The value of `haystack.includes(needle)`. -/
def includes (haystack needle : String) : Bool :=
  decide (needle.toList <:+: haystack.toList)

/-- UTF-8 bytes of one scalar value. -/
def utf8EncodeChar (c : Nat) : List Byte :=
  if c < 128 then [c]
  else if c < 2048 then [192 + c / 64, 128 + c % 64]
  else if c < 65536 then [224 + c / 4096, 128 + (c / 64) % 64, 128 + c % 64]
  else [240 + c / 262144, 128 + (c / 4096) % 64, 128 + (c / 64) % 64, 128 + c % 64]

/-- The value of `new TextEncoder().encode(s)`. -/
def textEncode (s : String) : List Byte :=
  (s.toList.map (fun c => utf8EncodeChar c.toNat)).flatten

/-- The value of `new Uint8Array(n)`: `n` zero bytes. -/
def newUint8Array (n : Nat) : List Byte := List.replicate n 0

/-- The value of `array.slice(start, stop)` for non-negative indices. -/
def slice (xs : List Byte) (start stop : Nat) : List Byte :=
  (xs.drop start).take (stop - start)

/-- The value of `array.slice(start)`. -/
def sliceFrom (xs : List Byte) (start : Nat) : List Byte := xs.drop start

/-- The call `target.set(source, offset)`: throws a `RangeError` when the source
does not fit, else overwrites `source.length` bytes from `offset`. -/
def typedArraySet (target source : List Byte) (offset : Nat) : Except JsError (List Byte) :=
  if offset + source.length > target.length then
    Except.error ⟨"RangeError", "offset is out of bounds"⟩
  else
    Except.ok (target.take offset ++ source ++ target.drop (offset + source.length))

def consoleLog (msg : String) : Js Unit := Js.emit (Event.consoleLog msg)

def consoleWarn (msg : String) : Js Unit := Js.emit (Event.consoleWarn msg)

def consoleError (msg : String) (err : JsError) : Js Unit := Js.emit (Event.consoleError msg err)

/-- The call `crypto.getRandomValues(new Uint8Array(n))`: the next `n` bytes of the
random stream. -/
def getRandomValues (n : Nat) : Js (List Byte) := fun w =>
  (Except.ok ((List.range n).map (fun i => w.entropy (w.cursor + i))),
    { w with cursor := w.cursor + n, trace := w.trace ++ [Event.getRandomValues n] })

/-- The functions of `crypto.subtle` the class calls. -/
structure WebCrypto where
  importKey : (format : String) → (keyData : List Byte) → (algorithm : String) →
    (extractable : Bool) → (usages : List String) → Except JsError CryptoKey
  deriveBits : (salt : List Byte) → (iterations : Nat) → (hash : String) →
    (baseKey : CryptoKey) → (length : Nat) → Except JsError (List Byte)
  encrypt : (iv : List Byte) → (tagLength : Nat) → (key : CryptoKey) →
    (data : List Byte) → Except JsError (List Byte)
  decrypt : (iv : List Byte) → (tagLength : Nat) → (key : CryptoKey) →
    (data : List Byte) → Except JsError (List Byte)

def subtleImportKey (wc : WebCrypto) (format : String) (keyData : List Byte)
    (algorithm : String) (extractable : Bool) (usages : List String) : Js CryptoKey := do
  Js.emit (Event.importKey algorithm usages)
  Js.ofExcept (wc.importKey format keyData algorithm extractable usages)

def subtleDeriveBits (wc : WebCrypto) (salt : List Byte) (iterations : Nat) (hash : String)
    (baseKey : CryptoKey) (length : Nat) : Js (List Byte) := do
  Js.emit (Event.deriveBits iterations hash length)
  Js.ofExcept (wc.deriveBits salt iterations hash baseKey length)

def subtleEncrypt (wc : WebCrypto) (iv : List Byte) (tagLength : Nat) (key : CryptoKey)
    (data : List Byte) : Js (List Byte) := do
  Js.emit (Event.encrypt tagLength)
  Js.ofExcept (wc.encrypt iv tagLength key data)

def subtleDecrypt (wc : WebCrypto) (iv : List Byte) (tagLength : Nat) (key : CryptoKey)
    (data : List Byte) : Js (List Byte) := do
  Js.emit (Event.decrypt tagLength)
  Js.ofExcept (wc.decrypt iv tagLength key data)

/-! ## The class -/

def SALT_SIZE : Nat := 16

def IV_SIZE : Nat := 12

def DEK_SIZE : Nat := 32

def KEK_SIZE : Nat := 32

def AUTH_TAG_SIZE : Nat := 16

def ENCRYPTED_DEK_SIZE : Nat := 48

def PBKDF2_ITERATIONS : Nat := 600000

def MIN_PASSWORD_LENGTH : Nat := 12

/-- The regular expression test `/[A-Z]/.test(password)`. -/
def hasUpper (password : String) : Bool :=
  password.toList.any (fun c => decide (65 ≤ c.toNat ∧ c.toNat ≤ 90))

/-- The regular expression test `/[a-z]/.test(password)`. -/
def hasLower (password : String) : Bool :=
  password.toList.any (fun c => decide (97 ≤ c.toNat ∧ c.toNat ≤ 122))

/-- The regular expression test `/[0-9]/.test(password)`. -/
def hasNumber (password : String) : Bool :=
  password.toList.any (fun c => decide (48 ≤ c.toNat ∧ c.toNat ≤ 57))

/-- The twenty characters of the special class of line 33, as code points. -/
def specialChars : List Nat :=
  [33, 64, 35, 36, 37, 94, 38, 42, 40, 41, 44, 46, 63, 34, 58, 123, 125, 124, 60, 62]

/-- The regular expression test for a special character. -/
def hasSpecial (password : String) : Bool :=
  password.toList.any (fun c => decide (c.toNat ∈ specialChars))

def complexityScore (password : String) : Nat :=
  ([hasUpper password, hasLower password, hasNumber password, hasSpecial password].filter
    (fun b => b)).length

def passwordTooShortMessage : String :=
  "Пароль повинен містити мінімум " ++ toString MIN_PASSWORD_LENGTH ++ " символів"

def weakPasswordWarning : String :=
  "[SECURITY] Пароль слабкий. Рекомендується використовувати великі/малі літери, цифри та спецсимволи."

def validatePassword (password : String) : Js Bool := do
  if password == "" || decide (jsLength password < MIN_PASSWORD_LENGTH) then
    throw (JsError.mkError passwordTooShortMessage)
  if complexityScore password < 3 then
    consoleWarn weakPasswordWarning
  pure true

def generateKEKFromPassword (wc : WebCrypto) (password : String) (salt : List Byte) :
    Js (List Byte) := do
  let _ ← validatePassword password
  let passwordBuffer := textEncode password
  let baseKey ← subtleImportKey wc "raw" passwordBuffer "PBKDF2" false ["deriveBits"]
  let derivedBits ← subtleDeriveBits wc salt PBKDF2_ITERATIONS "SHA-256" baseKey (KEK_SIZE * 8)
  pure derivedBits

def generateDEK : Js (List Byte) := getRandomValues DEK_SIZE

def encryptDEK (wc : WebCrypto) (dek kek iv : List Byte) : Js (List Byte) := do
  let kekKey ← subtleImportKey wc "raw" kek "AES-GCM" false ["encrypt"]
  let encryptedDEK ← subtleEncrypt wc iv 128 kekKey dek
  pure encryptedDEK

def dekWrongSizeMessage (actual : Nat) : String :=
  "DEK має неправильний розмір: " ++ toString actual ++ " (очікувалось " ++
    toString DEK_SIZE ++ ")"

def decryptDEK (wc : WebCrypto) (encryptedDEK kek iv : List Byte) : Js (List Byte) := do
  let kekKey ← subtleImportKey wc "raw" kek "AES-GCM" false ["decrypt"]
  let dek ← subtleDecrypt wc iv 128 kekKey encryptedDEK
  if dek.length ≠ DEK_SIZE then
    throw (JsError.mkError (dekWrongSizeMessage dek.length))
  pure dek

/-- The object returned by `encryptFile`. -/
inductive EncryptResult where
  | success (data : List Byte) (originalSize encryptedSize totalSize headerSize : Nat)
  | failure (error : String)
deriving DecidableEq, Repr

/-- The object returned by `decryptFile`. -/
inductive DecryptResult where
  | success (data : List Byte) (size : Nat)
  | failure (error : String)
deriving DecidableEq, Repr

/-- Step 7 of `encryptFile` (lines 184-193): a zeroed buffer of the header size plus
the ciphertext size, filled by five `set` calls at offsets advanced by the constants. -/
def assembleEnvelope (salt ivKEK encryptedDEK ivData ciphertext : List Byte) :
    Except JsError (List Byte) := do
  let headerSize := SALT_SIZE + IV_SIZE + ENCRYPTED_DEK_SIZE + IV_SIZE
  let result := newUint8Array (headerSize + ciphertext.length)
  let offset := 0
  let result ← typedArraySet result salt offset
  let offset := offset + SALT_SIZE
  let result ← typedArraySet result ivKEK offset
  let offset := offset + IV_SIZE
  let result ← typedArraySet result encryptedDEK offset
  let offset := offset + ENCRYPTED_DEK_SIZE
  let result ← typedArraySet result ivData offset
  let offset := offset + IV_SIZE
  let result ← typedArraySet result ciphertext offset
  pure result

def encryptFile (wc : WebCrypto) (fileData : List Byte) (password : String) :
    Js EncryptResult :=
  tryCatch (do
    consoleLog "[INFO] V3 Гібридне шифрування: AES-256-GCM + 600k PBKDF2..."
    let salt ← getRandomValues SALT_SIZE
    let ivKEK ← getRandomValues IV_SIZE
    let ivData ← getRandomValues IV_SIZE
    let dek ← generateDEK
    consoleLog "[INFO] DEK згенеровано (максимальна ентропія)"
    let kek ← generateKEKFromPassword wc password salt
    let encryptedDEK ← encryptDEK wc dek kek ivKEK
    let dekKey ← subtleImportKey wc "raw" dek "AES-GCM" false ["encrypt"]
    let ciphertext ← subtleEncrypt wc ivData 128 dekKey fileData
    let headerSize := SALT_SIZE + IV_SIZE + ENCRYPTED_DEK_SIZE + IV_SIZE
    let result ← Js.ofExcept (assembleEnvelope salt ivKEK encryptedDEK ivData ciphertext)
    consoleLog "[SECURITY] Файл зашифровано з AES-256-GCM (authenticated encryption)"
    pure (EncryptResult.success result fileData.length ciphertext.length result.length
      headerSize))
  (fun error => do
    consoleError "[ERROR] Помилка шифрування:" error
    pure (EncryptResult.failure error.message))

/-- The five fields `decryptFile` slices out of a blob. -/
structure EnvelopeFields where
  salt : List Byte
  ivKEK : List Byte
  encryptedDEK : List Byte
  ivData : List Byte
  ciphertext : List Byte
deriving DecidableEq, Repr

/-- Step 2 of `decryptFile` (lines 226-240): slices at offsets advanced by the constants. -/
def extractFields (encryptedData : List Byte) : EnvelopeFields :=
  let offset := 0
  let salt := slice encryptedData offset (offset + SALT_SIZE)
  let offset := offset + SALT_SIZE
  let ivKEK := slice encryptedData offset (offset + IV_SIZE)
  let offset := offset + IV_SIZE
  let encryptedDEK := slice encryptedData offset (offset + ENCRYPTED_DEK_SIZE)
  let offset := offset + ENCRYPTED_DEK_SIZE
  let ivData := slice encryptedData offset (offset + IV_SIZE)
  let offset := offset + IV_SIZE
  let ciphertext := sliceFrom encryptedData offset
  { salt := salt, ivKEK := ivKEK, encryptedDEK := encryptedDEK, ivData := ivData,
    ciphertext := ciphertext }

def fileTooSmallMessage : String := "Неправильний формат файлу (файл занадто малий)"

def wrongPasswordOrDamagedMessage : String := "Невірний пароль або пошкоджений файл"

def wrongPasswordOrModifiedMessage : String := "Невірний пароль або файл був змінений"

def decryptFile (wc : WebCrypto) (encryptedData : List Byte) (password : String) :
    Js DecryptResult :=
  tryCatch (do
    let minSize := SALT_SIZE + IV_SIZE + ENCRYPTED_DEK_SIZE + IV_SIZE + AUTH_TAG_SIZE
    if encryptedData.length < minSize then
      throw (JsError.mkError fileTooSmallMessage)
    let fields := extractFields encryptedData
    consoleLog "[INFO] Формат файлу коректний, розшифровуємо..."
    let kek ← generateKEKFromPassword wc password fields.salt
    let dek ← tryCatch (decryptDEK wc fields.encryptedDEK kek fields.ivKEK)
      (fun _ => throw (JsError.mkError wrongPasswordOrDamagedMessage))
    let dekKey ← subtleImportKey wc "raw" dek "AES-GCM" false ["decrypt"]
    let plaintext ← subtleDecrypt wc fields.ivData 128 dekKey fields.ciphertext
    consoleLog "[INFO] Файл успішно розшифровано та верифіковано"
    pure (DecryptResult.success plaintext plaintext.length))
  (fun error => do
    consoleError "[ERROR] Помилка розшифрування:" error
    if error.name == "OperationError" || includes error.message "Невірний пароль" then
      pure (DecryptResult.failure wrongPasswordOrModifiedMessage)
    else
      pure (DecryptResult.failure error.message))

/-! ## Contracts of the collaborators -/

/-- The handle of a raw AES-GCM key imported for one usage. -/
def aesKey (raw : List Byte) (usage : String) : CryptoKey :=
  { algorithm := "AES-GCM", raw := raw, extractable := false, usages := [usage] }

/-- The handle of a raw PBKDF2 base key. -/
def pbkdf2Key (raw : List Byte) : CryptoKey :=
  { algorithm := "PBKDF2", raw := raw, extractable := false, usages := ["deriveBits"] }

/-- What the class relies on when the primitives work: raw keys import, PBKDF2 yields
32 bytes, AES-GCM sealing adds a 16-byte tag, and opening undoes sealing. -/
structure Contract (wc : WebCrypto) : Prop where
  importPbkdf2 : ∀ raw, wc.importKey "raw" raw "PBKDF2" false ["deriveBits"] =
    Except.ok (pbkdf2Key raw)
  importAes : ∀ raw usage, raw.length = 32 →
    wc.importKey "raw" raw "AES-GCM" false [usage] = Except.ok (aesKey raw usage)
  derive : ∀ pw salt, ∃ kek,
    wc.deriveBits salt PBKDF2_ITERATIONS "SHA-256" (pbkdf2Key pw) 256 = Except.ok kek ∧
      kek.length = 32
  sealOk : ∀ iv raw m, iv.length = 12 → raw.length = 32 → ∃ c,
    wc.encrypt iv 128 (aesKey raw "encrypt") m = Except.ok c ∧ c.length = m.length + 16
  openSeal : ∀ iv raw m c, wc.encrypt iv 128 (aesKey raw "encrypt") m = Except.ok c →
    wc.decrypt iv 128 (aesKey raw "decrypt") c = Except.ok m

/-! ## A small instance of the collaborators -/

/-- An injective code of a list of naturals. -/
def encodeList : List Nat → Nat
  | [] => 0
  | x :: xs => 2 ^ x * (2 * encodeList xs + 1)

/-- The 16-entry tag of the small instance: it names the nonce, the key and the text. -/
def toyTag (iv raw data : List Byte) : List Byte :=
  [encodeList iv, encodeList raw, encodeList data] ++ List.replicate 13 0

def toyOperationError : JsError := ⟨"OperationError", "The operation failed"⟩

/-- A `crypto.subtle` whose sealing appends `toyTag` and whose derived key starts with
the 16 bytes of the salt, followed by the sum of the password bytes. -/
def toyCrypto : WebCrypto where
  importKey := fun _ keyData algorithm extractable usages =>
    Except.ok (CryptoKey.mk algorithm keyData extractable usages)
  deriveBits := fun salt _ _ baseKey length =>
    Except.ok ((salt ++ List.replicate 16 0).take 16 ++ [baseKey.raw.sum] ++
      List.replicate (length / 8 - 17) 0)
  encrypt := fun iv _ key data => Except.ok (data ++ toyTag iv key.raw data)
  decrypt := fun iv _ key data =>
    if 16 ≤ data.length ∧
        data.drop (data.length - 16) = toyTag iv key.raw (data.take (data.length - 16)) then
      Except.ok (data.take (data.length - 16))
    else Except.error toyOperationError

/-- The small instance with a key derivation that always throws. -/
def failingKdfCrypto : WebCrypto :=
  { toyCrypto with
    deriveBits := fun _ _ _ _ _ => Except.error ⟨"OperationError", "key derivation failed"⟩ }

/-- A world whose random stream counts upwards. -/
def world0 : World := { entropy := fun i => i % 256, cursor := 0, trace := [] }

def helloWorld : List Byte := textEncode "Hello, World!"

/-! ## Names for the values and the calls of one run -/

/-- The warning `validatePassword` writes for an accepted password. -/
def warningEvents (password : String) : List Event :=
  if complexityScore password < 3 then [Event.consoleWarn weakPasswordWarning] else []

/-- The calls `generateKEKFromPassword` makes when nothing throws. -/
def kekEvents (password : String) : List Event :=
  warningEvents password ++
    [Event.importKey "PBKDF2" ["deriveBits"], Event.deriveBits PBKDF2_ITERATIONS "SHA-256" 256]

/-- The `n` bytes of the random stream that start `offset` bytes after the cursor. -/
def drawn (w : World) (offset n : Nat) : List Byte :=
  (List.range n).map (fun i => w.entropy (w.cursor + offset + i))

/-- The salt `encryptFile` draws in the world `w`. -/
def saltOf (w : World) : List Byte := drawn w 0 16

/-- The nonce for the DEK wrapping `encryptFile` draws in the world `w`. -/
def ivKEKOf (w : World) : List Byte := drawn w 16 12

/-- The nonce for the payload `encryptFile` draws in the world `w`. -/
def ivDataOf (w : World) : List Byte := drawn w 28 12

/-- The DEK `encryptFile` draws in the world `w`. -/
def dekOf (w : World) : List Byte := drawn w 40 32

/-- The calls `encryptFile` makes up to the password check. -/
def drawEvents : List Event :=
  [Event.consoleLog "[INFO] V3 Гібридне шифрування: AES-256-GCM + 600k PBKDF2...",
   Event.getRandomValues 16, Event.getRandomValues 12, Event.getRandomValues 12,
   Event.getRandomValues 32,
   Event.consoleLog "[INFO] DEK згенеровано (максимальна ентропія)"]

/-- The calls `encryptFile` makes after the key derivation when nothing throws. -/
def sealEvents : List Event :=
  [Event.importKey "AES-GCM" ["encrypt"], Event.encrypt 128,
   Event.importKey "AES-GCM" ["encrypt"], Event.encrypt 128,
   Event.consoleLog "[SECURITY] Файл зашифровано з AES-256-GCM (authenticated encryption)"]

/-- The log line `decryptFile` writes once the size check has passed. -/
def formatOkEvent : Event := Event.consoleLog "[INFO] Формат файлу коректний, розшифровуємо..."

/-- The calls `decryptFile` makes up to and including the opening of the wrapped DEK. -/
def unwrapEvents (password : String) : List Event :=
  [formatOkEvent] ++ kekEvents password ++
    [Event.importKey "AES-GCM" ["decrypt"], Event.decrypt 128]

/-- The record `decryptFile` writes to the console when it fails. -/
def decryptErrorEvent (e : JsError) : Event :=
  Event.consoleError "[ERROR] Помилка розшифрування:" e

/-- The key, the wrapped DEK and the payload ciphertext of one encryption. -/
structure Sealed (wc : WebCrypto) (fileData : List Byte) (password : String) (w : World)
    (kek wrapped ciphertext : List Byte) : Prop where
  derive : wc.deriveBits (saltOf w) PBKDF2_ITERATIONS "SHA-256"
    (pbkdf2Key (textEncode password)) 256 = Except.ok kek
  kekLength : kek.length = 32
  wrap : wc.encrypt (ivKEKOf w) 128 (aesKey kek "encrypt") (dekOf w) = Except.ok wrapped
  wrappedLength : wrapped.length = 48
  payload : wc.encrypt (ivDataOf w) 128 (aesKey (dekOf w) "encrypt") fileData =
    Except.ok ciphertext
  ciphertextLength : ciphertext.length = fileData.length + 16

/-- A computation only appends to the trace. -/
def Grows {α : Type} (m : Js α) : Prop :=
  ∀ w, ∃ rest, (m w).2.trace = w.trace ++ rest

/-- Every step of one encryption returned: the password has at least 12 code units, the
two key derivation calls, the two sealings with their key imports and the assembly. -/
def StepsOk (wc : WebCrypto) (fileData : List Byte) (password : String) (w : World) : Prop :=
  12 ≤ jsLength password ∧
  ∃ baseKey kek kekKey wrapped dekKey ciphertext data,
    wc.importKey "raw" (textEncode password) "PBKDF2" false ["deriveBits"] =
      Except.ok baseKey ∧
    wc.deriveBits (saltOf w) PBKDF2_ITERATIONS "SHA-256" baseKey 256 = Except.ok kek ∧
    wc.importKey "raw" kek "AES-GCM" false ["encrypt"] = Except.ok kekKey ∧
    wc.encrypt (ivKEKOf w) 128 kekKey (dekOf w) = Except.ok wrapped ∧
    wc.importKey "raw" (dekOf w) "AES-GCM" false ["encrypt"] = Except.ok dekKey ∧
    wc.encrypt (ivDataOf w) 128 dekKey fileData = Except.ok ciphertext ∧
    assembleEnvelope (saltOf w) (ivKEKOf w) wrapped (ivDataOf w) ciphertext = Except.ok data

/-- The message the `catch` block of `decryptFile` returns for a thrown error. -/
def surfacedMessage (error : JsError) : String :=
  if error.name == "OperationError" || includes error.message "Невірний пароль" then
    wrongPasswordOrModifiedMessage
  else
    error.message

/-- The opening of the wrapped DEK fails: `decryptDEK` throws because the import of the KEK
throws, or the AEAD opening throws, or the opened DEK has not 32 bytes. -/
def UnwrapThrows (wc : WebCrypto) (encryptedDEK kek iv : List Byte) : Prop :=
  (∃ e, wc.importKey "raw" kek "AES-GCM" false ["decrypt"] = Except.error e) ∨
  (∃ kekKey, wc.importKey "raw" kek "AES-GCM" false ["decrypt"] = Except.ok kekKey ∧
    ((∃ e, wc.decrypt iv 128 kekKey encryptedDEK = Except.error e) ∨
     (∃ dek, wc.decrypt iv 128 kekKey encryptedDEK = Except.ok dek ∧ dek.length ≠ 32)))

/-- The key the small instance derives for the scenario of the specification. -/
def toyKek : List Byte :=
  (saltOf world0 ++ List.replicate 16 0).take 16 ++ [(textEncode "Str0ngP@ssw0rd123").sum] ++
    List.replicate (256 / 8 - 17) 0

/-- A blob of 104 bytes that starts with the salt, the nonce and the wrapped DEK of the
small instance for the scenario of the specification; its payload is 16 zero bytes. -/
def forgedPayloadBlob : List Byte :=
  saltOf world0 ++ ivKEKOf world0 ++
    (dekOf world0 ++ toyTag (ivKEKOf world0) toyKek (dekOf world0)) ++
    ivDataOf world0 ++ List.replicate 16 0

/-- The small instance with a key import that always throws a DataError. -/
def failingImportCrypto : WebCrypto :=
  { toyCrypto with
    importKey := fun _ _ _ _ _ => Except.error ⟨"DataError", "Invalid key data"⟩ }

/-- A second world: the same random stream, read from position 100. -/
def world100 : World := { entropy := fun i => i % 256, cursor := 100, trace := [] }

/-! ## The envelopes of the earlier classes -/

namespace FileEncryptor

def SALT_SIZE : Nat := 16

def IV_SIZE : Nat := 16

/-- The assembly of `FileEncryptor.encryptFile` (src/js/encryptor.js, lines 80-86): salt,
IV and the AES-CBC ciphertext. -/
def assembleEnvelope (salt iv ciphertext : List Byte) : Except JsError (List Byte) := do
  let result := newUint8Array (SALT_SIZE + IV_SIZE + ciphertext.length)
  let result ← typedArraySet result salt 0
  let result ← typedArraySet result iv SALT_SIZE
  let result ← typedArraySet result ciphertext (SALT_SIZE + IV_SIZE)
  pure result

end FileEncryptor

namespace FileEncryptorV2

def SALT_SIZE : Nat := 16

def IV_SIZE : Nat := 16

def ENCRYPTED_DEK_SIZE : Nat := 48

/-- The assembly of `FileEncryptorV2.encryptFile` (src/js/encryptor_v2.js, lines 157-166). -/
def assembleEnvelope (salt ivKEK encryptedDEK ivData ciphertext : List Byte) :
    Except JsError (List Byte) := do
  let headerSize := SALT_SIZE + IV_SIZE + ENCRYPTED_DEK_SIZE + IV_SIZE
  let result := newUint8Array (headerSize + ciphertext.length)
  let offset := 0
  let result ← typedArraySet result salt offset
  let offset := offset + SALT_SIZE
  let result ← typedArraySet result ivKEK offset
  let offset := offset + IV_SIZE
  let result ← typedArraySet result encryptedDEK offset
  let offset := offset + ENCRYPTED_DEK_SIZE
  let result ← typedArraySet result ivData offset
  let offset := offset + IV_SIZE
  let result ← typedArraySet result ciphertext offset
  pure result

end FileEncryptorV2

/-- The number of bytes AES-CBC with PKCS7 padding returns for a plaintext of `n` bytes. -/
def cbcLength (n : Nat) : Nat := 16 * (n / 16 + 1)

/-- A successful AES-GCM opening returns the text without its 16-byte tag. -/
def OpenRemovesTag (wc : WebCrypto) : Prop :=
  ∀ iv key c m, wc.decrypt iv 128 key c = Except.ok m → m.length + AUTH_TAG_SIZE = c.length

/-! ## The file names of the download (src/js/app.js) -/

namespace App

/-- A JavaScript string: its UTF-16 code units. -/
abbrev JsString := List Nat

/-- The code units of a string literal. -/
def utf16 (s : String) : JsString :=
  (s.toList.map (fun c =>
    if c.toNat < 65536 then [c.toNat]
    else [55296 + (c.toNat - 65536) / 1024, 56320 + (c.toNat - 65536) % 1024])).flatten

/-- The value of `s.endsWith(suffix)`. -/
def endsWith (s suffix : JsString) : Bool := decide (suffix <:+ s)

/-- The value of `s.slice(0, stop)`: a negative `stop` counts from the end. -/
def sliceTo (s : JsString) (stop : Int) : JsString :=
  s.take (if stop < 0 then ((s.length : Int) + stop).toNat else stop.toNat)

/-- The name under which the click handler of the encrypt button saves the file (line 135). -/
def encryptedFileName (name : JsString) : JsString := name ++ utf16 ".encrypted"

/-- The name under which the click handler of the decrypt button saves the file (lines
217-222). -/
def decryptedFileName (name : JsString) : JsString :=
  if endsWith name (utf16 ".encrypted") then sliceTo name (-10)
  else name ++ utf16 ".decrypted"

end App

/-! ## An instance of the collaborators over bytes -/

/-- The 16-byte tag of the instance over bytes: the check sums modulo 256 of the nonce, of
the key and of the text, and 13 zero bytes. -/
def byteTag (iv raw data : List Byte) : List Byte :=
  [iv.sum % 256, raw.sum % 256, data.sum % 256] ++ List.replicate 13 0

/-- A `crypto.subtle` whose results are bytes: sealing appends `byteTag`, and the derived
key is the 16 bytes of the salt, the check sum of the password bytes and 15 zero bytes. -/
def byteCrypto : WebCrypto where
  importKey := fun _ keyData algorithm extractable usages =>
    Except.ok (CryptoKey.mk algorithm keyData extractable usages)
  deriveBits := fun salt _ _ baseKey length =>
    Except.ok ((salt ++ List.replicate 16 0).take 16 ++ [baseKey.raw.sum % 256] ++
      List.replicate (length / 8 - 17) 0)
  encrypt := fun iv _ key data => Except.ok (data ++ byteTag iv key.raw data)
  decrypt := fun iv _ key data =>
    if 16 ≤ data.length ∧
        data.drop (data.length - 16) = byteTag iv key.raw (data.take (data.length - 16)) then
      Except.ok (data.take (data.length - 16))
    else Except.error toyOperationError

/-- The instance over bytes with a key derivation that does not read the salt. -/
def flatKdfCrypto : WebCrypto :=
  { byteCrypto with
    deriveBits := fun _ _ _ baseKey length =>
      Except.ok ([baseKey.raw.sum % 256] ++ List.replicate (length / 8 - 1) 0) }

/-- The AEAD rejects one changed byte of this sealed text and one changed byte of its nonce:
the opening under the key `raw` throws an `OperationError`. -/
structure TamperEvident (wc : WebCrypto) (raw iv sealed : List Byte) : Prop where
  text : ∀ j b, j < sealed.length → b < 256 → b ≠ sealed.getD j 0 →
    ∃ e, wc.decrypt iv 128 (aesKey raw "decrypt") (sealed.set j b) = Except.error e ∧
      e.name = "OperationError"
  nonce : ∀ j b, j < iv.length → b < 256 → b ≠ iv.getD j 0 →
    ∃ e, wc.decrypt (iv.set j b) 128 (aesKey raw "decrypt") sealed = Except.error e ∧
      e.name = "OperationError"

/-- The key the instance over bytes derives for the scenario of the specification. -/
def byteKek : List Byte :=
  (saltOf world0 ++ List.replicate 16 0).take 16 ++
    [(textEncode "Str0ngP@ssw0rd123").sum % 256] ++ List.replicate (256 / 8 - 17) 0

/-- The wrapped DEK of the instance over bytes for the scenario of the specification. -/
def byteWrapped : List Byte :=
  dekOf world0 ++ byteTag (ivKEKOf world0) byteKek (dekOf world0)

/-- The ciphertext of the instance over bytes for the scenario of the specification. -/
def byteCiphertext : List Byte :=
  helloWorld ++ byteTag (ivDataOf world0) (dekOf world0) helloWorld

/-! # Theorems -/

/-! ## Running a computation -/

@[simp] theorem pure_run {α : Type} (a : α) (w : World) : (pure a : Js α) w = (Except.ok a, w) := rfl

@[simp] theorem throw_run {α : Type} (e : JsError) (w : World) :
    (throw e : Js α) w = (Except.error e, w) := rfl

@[simp] theorem bind_run {α β : Type} (m : Js α) (f : α → Js β) (w : World) :
    (m >>= f) w = (match m w with
      | (Except.ok a, w1) => f a w1
      | (Except.error e, w1) => (Except.error e, w1)) := rfl

@[simp] theorem tryCatch_run {α : Type} (body : Js α) (handler : JsError → Js α) (w : World) :
    (tryCatch body handler) w = (match body w with
      | (Except.ok a, w1) => (Except.ok a, w1)
      | (Except.error e, w1) => handler e w1) := rfl

@[simp] theorem emit_run (ev : Event) (w : World) :
    Js.emit ev w = (Except.ok (), { w with trace := w.trace ++ [ev] }) := rfl

@[simp] theorem ofExcept_run {α : Type} (r : Except JsError α) (w : World) : Js.ofExcept r w = (r, w) := rfl

@[simp] theorem getRandomValues_run (n : Nat) (w : World) :
    getRandomValues n w =
      (Except.ok ((List.range n).map (fun i => w.entropy (w.cursor + i))),
        { w with cursor := w.cursor + n, trace := w.trace ++ [Event.getRandomValues n] }) := rfl

theorem validatePassword_short (password : String) (w : World)
    (h : jsLength password < 12) :
    validatePassword password w = (Except.error (JsError.mkError passwordTooShortMessage), w) := by
  simp [validatePassword, MIN_PASSWORD_LENGTH, h]

theorem validatePassword_ok (password : String) (w : World)
    (h : 12 ≤ jsLength password) :
    validatePassword password w =
      (Except.ok true, { w with trace := w.trace ++ warningEvents password }) := by
  have hne : password ≠ "" := by
    intro h0
    rw [h0] at h
    exact absurd h (by decide)
  simp [validatePassword, MIN_PASSWORD_LENGTH, hne, Nat.not_lt.mpr h, warningEvents]
  split <;> simp [consoleWarn]

theorem generateKEKFromPassword_short (wc : WebCrypto) (password : String) (salt : List Byte)
    (w : World) (h : jsLength password < 12) :
    generateKEKFromPassword wc password salt w =
      (Except.error (JsError.mkError passwordTooShortMessage), w) := by
  simp [generateKEKFromPassword, validatePassword_short password w h]

theorem generateKEKFromPassword_ok (wc : WebCrypto) (password : String) (salt kek : List Byte)
    (baseKey : CryptoKey) (w : World) (h : 12 ≤ jsLength password)
    (hImport : wc.importKey "raw" (textEncode password) "PBKDF2" false ["deriveBits"] =
      Except.ok baseKey)
    (hDerive : wc.deriveBits salt PBKDF2_ITERATIONS "SHA-256" baseKey 256 = Except.ok kek) :
    generateKEKFromPassword wc password salt w =
      (Except.ok kek, { w with trace := w.trace ++ kekEvents password }) := by
  simp [generateKEKFromPassword, validatePassword_ok password w h, subtleImportKey,
    subtleDeriveBits, hImport, hDerive, KEK_SIZE, kekEvents]

theorem encryptDEK_ok (wc : WebCrypto) (dek kek iv wrapped : List Byte) (kekKey : CryptoKey)
    (w : World)
    (hImport : wc.importKey "raw" kek "AES-GCM" false ["encrypt"] = Except.ok kekKey)
    (hSeal : wc.encrypt iv 128 kekKey dek = Except.ok wrapped) :
    encryptDEK wc dek kek iv w =
      (Except.ok wrapped, { w with trace := w.trace ++
        [Event.importKey "AES-GCM" ["encrypt"], Event.encrypt 128] }) := by
  simp [encryptDEK, subtleImportKey, subtleEncrypt, hImport, hSeal]

/-! ## The envelope -/

theorem typedArraySet_fill (filled source : List Byte) (rest offset : Nat)
    (hOffset : offset = filled.length) (hFit : source.length ≤ rest) :
    typedArraySet (filled ++ List.replicate rest 0) source offset =
      Except.ok ((filled ++ source) ++ List.replicate (rest - source.length) 0) := by
  subst hOffset
  have hnot : ¬ (filled.length + source.length > filled.length + rest) := by omega
  simp [typedArraySet, hnot, List.drop_append, List.take_append]

theorem assembleEnvelope_eq (salt ivKEK encryptedDEK ivData ciphertext : List Byte)
    (hSalt : salt.length = 16) (hIvKEK : ivKEK.length = 12)
    (hDEK : encryptedDEK.length = 48) (hIvData : ivData.length = 12) :
    assembleEnvelope salt ivKEK encryptedDEK ivData ciphertext =
      Except.ok (salt ++ ivKEK ++ encryptedDEK ++ ivData ++ ciphertext) := by
  have h1 := typedArraySet_fill [] salt (88 + ciphertext.length) 0 rfl (by omega)
  have h2 := typedArraySet_fill ([] ++ salt) ivKEK (88 + ciphertext.length - salt.length) 16
    (by simp [hSalt]) (by omega)
  have h3 := typedArraySet_fill ([] ++ salt ++ ivKEK) encryptedDEK
    (88 + ciphertext.length - salt.length - ivKEK.length) 28 (by simp [hSalt, hIvKEK])
    (by omega)
  have h4 := typedArraySet_fill ([] ++ salt ++ ivKEK ++ encryptedDEK) ivData
    (88 + ciphertext.length - salt.length - ivKEK.length - encryptedDEK.length) 76
    (by simp [hSalt, hIvKEK, hDEK]) (by omega)
  have h5 := typedArraySet_fill ([] ++ salt ++ ivKEK ++ encryptedDEK ++ ivData) ciphertext
    (88 + ciphertext.length - salt.length - ivKEK.length - encryptedDEK.length - ivData.length)
    88 (by simp [hSalt, hIvKEK, hDEK, hIvData]) (by omega)
  have hz : 88 + ciphertext.length - salt.length - ivKEK.length - encryptedDEK.length -
      ivData.length - ciphertext.length = 0 := by omega
  rw [hz] at h5
  simp only [List.nil_append, List.replicate_zero, List.append_nil] at h1 h2 h3 h4 h5
  simp only [assembleEnvelope, newUint8Array, SALT_SIZE, IV_SIZE, ENCRYPTED_DEK_SIZE,
    bind, Except.bind, pure, Except.pure]
  rw [h1]
  simp only []
  rw [h2]
  simp only []
  rw [h3]
  simp only []
  rw [h4]
  simp only []
  rw [h5]

theorem drop_front (front back : List Byte) (n : Nat) (h : n = front.length) :
    (front ++ back).drop n = back := by
  subst h
  simp

theorem take_front (front back : List Byte) (n : Nat) (h : n = front.length) :
    (front ++ back).take n = front := by
  subst h
  simp

theorem extractFields_eq (salt ivKEK encryptedDEK ivData ciphertext : List Byte)
    (hSalt : salt.length = 16) (hIvKEK : ivKEK.length = 12)
    (hDEK : encryptedDEK.length = 48) (hIvData : ivData.length = 12) :
    extractFields (salt ++ ivKEK ++ encryptedDEK ++ ivData ++ ciphertext) =
      { salt := salt, ivKEK := ivKEK, encryptedDEK := encryptedDEK, ivData := ivData,
        ciphertext := ciphertext } := by
  have d16 := drop_front salt (ivKEK ++ (encryptedDEK ++ (ivData ++ ciphertext))) 16
    hSalt.symm
  have d28 := drop_front (salt ++ ivKEK) (encryptedDEK ++ (ivData ++ ciphertext)) 28
    (by simp [hSalt, hIvKEK])
  have d76 := drop_front (salt ++ ivKEK ++ encryptedDEK) (ivData ++ ciphertext) 76
    (by simp [hSalt, hIvKEK, hDEK])
  have d88 := drop_front (salt ++ ivKEK ++ encryptedDEK ++ ivData) ciphertext 88
    (by simp [hSalt, hIvKEK, hDEK, hIvData])
  simp only [List.append_assoc] at d16 d28 d76 d88
  simp only [extractFields, slice, sliceFrom, SALT_SIZE, IV_SIZE, ENCRYPTED_DEK_SIZE,
    List.append_assoc, Nat.zero_add, Nat.add_sub_cancel_left, List.drop_zero, d16, d28, d76,
    d88]
  rw [take_front salt _ 16 hSalt.symm, take_front ivKEK _ 12 hIvKEK.symm,
    take_front encryptedDEK _ 48 hDEK.symm, take_front ivData _ 12 hIvData.symm]

/-! ## One run of `encryptFile` -/

@[simp] theorem drawn_length (w : World) (offset n : Nat) : (drawn w offset n).length = n := by
  simp [drawn]

theorem encryptFile_ok (wc : WebCrypto) (fileData : List Byte) (password : String) (w : World)
    (baseKey kekKey dekKey : CryptoKey) (kek wrapped ciphertext : List Byte)
    (hPw : 12 ≤ jsLength password)
    (hBase : wc.importKey "raw" (textEncode password) "PBKDF2" false ["deriveBits"] =
      Except.ok baseKey)
    (hDerive : wc.deriveBits (saltOf w) PBKDF2_ITERATIONS "SHA-256" baseKey 256 = Except.ok kek)
    (hKek : wc.importKey "raw" kek "AES-GCM" false ["encrypt"] = Except.ok kekKey)
    (hWrap : wc.encrypt (ivKEKOf w) 128 kekKey (dekOf w) = Except.ok wrapped)
    (hDek : wc.importKey "raw" (dekOf w) "AES-GCM" false ["encrypt"] = Except.ok dekKey)
    (hSeal : wc.encrypt (ivDataOf w) 128 dekKey fileData = Except.ok ciphertext)
    (hLen : wrapped.length = 48) :
    encryptFile wc fileData password w =
      (Except.ok (EncryptResult.success
          (saltOf w ++ ivKEKOf w ++ wrapped ++ ivDataOf w ++ ciphertext)
          fileData.length ciphertext.length (88 + ciphertext.length) 88),
        { entropy := w.entropy, cursor := w.cursor + 72,
          trace := w.trace ++ drawEvents ++ kekEvents password ++ sealEvents }) := by
  have hAsm := assembleEnvelope_eq (saltOf w) (ivKEKOf w) wrapped (ivDataOf w) ciphertext
    (by simp [saltOf]) (by simp [ivKEKOf]) hLen (by simp [ivDataOf])
  simp only [saltOf, ivKEKOf, ivDataOf, dekOf, drawn, Nat.add_zero, Nat.add_assoc]
    at hDerive hWrap hDek hSeal hAsm ⊢
  simp only [encryptFile, tryCatch_run, bind_run, consoleLog, emit_run, getRandomValues_run,
    generateDEK, SALT_SIZE, IV_SIZE, DEK_SIZE, ENCRYPTED_DEK_SIZE, Nat.add_assoc, Nat.reduceAdd]
  rw [generateKEKFromPassword_ok wc password _ kek baseKey _ hPw hBase hDerive]
  simp only []
  rw [encryptDEK_ok wc _ kek _ wrapped kekKey _ hKek hWrap]
  simp only [subtleImportKey, subtleEncrypt, bind_run, emit_run, ofExcept_run, hDek, hSeal,
    hAsm, pure_run]
  simp [drawEvents, sealEvents, hLen]
  omega

/-! ## One run of `decryptFile` -/

theorem includes_damaged : includes wrongPasswordOrDamagedMessage "Невірний пароль" = true := by
  decide

theorem includes_tooSmall : includes fileTooSmallMessage "Невірний пароль" = false := by
  decide

theorem includes_tooShort : includes passwordTooShortMessage "Невірний пароль" = false := by
  decide

theorem decryptFile_small (wc : WebCrypto) (blob : List Byte) (password : String) (w : World)
    (h : blob.length < 104) :
    decryptFile wc blob password w =
      (Except.ok (DecryptResult.failure fileTooSmallMessage),
        { w with trace := w.trace ++
          [Event.consoleError "[ERROR] Помилка розшифрування:"
            (JsError.mkError fileTooSmallMessage)] }) := by
  simp [decryptFile, SALT_SIZE, IV_SIZE, ENCRYPTED_DEK_SIZE, AUTH_TAG_SIZE, h, consoleError,
    JsError.mkError, includes_tooSmall]

theorem decryptFile_shortPassword (wc : WebCrypto) (blob : List Byte) (password : String)
    (w : World) (h : 104 ≤ blob.length) (hPw : jsLength password < 12) :
    decryptFile wc blob password w =
      (Except.ok (DecryptResult.failure passwordTooShortMessage),
        { w with trace := w.trace ++
          [formatOkEvent, Event.consoleError "[ERROR] Помилка розшифрування:"
            (JsError.mkError passwordTooShortMessage)] }) := by
  simp [decryptFile, SALT_SIZE, IV_SIZE, ENCRYPTED_DEK_SIZE, AUTH_TAG_SIZE, Nat.not_lt.mpr h,
    consoleError, consoleLog, generateKEKFromPassword_short wc password _ _ hPw,
    JsError.mkError, includes_tooShort, formatOkEvent]

theorem decryptFile_ok (wc : WebCrypto) (blob : List Byte) (password : String) (w : World)
    (baseKey kekKey dekKey : CryptoKey) (kek dek plaintext : List Byte)
    (h : 104 ≤ blob.length) (hPw : 12 ≤ jsLength password)
    (hBase : wc.importKey "raw" (textEncode password) "PBKDF2" false ["deriveBits"] =
      Except.ok baseKey)
    (hDerive : wc.deriveBits (extractFields blob).salt PBKDF2_ITERATIONS "SHA-256" baseKey 256 =
      Except.ok kek)
    (hKek : wc.importKey "raw" kek "AES-GCM" false ["decrypt"] = Except.ok kekKey)
    (hUnwrap : wc.decrypt (extractFields blob).ivKEK 128 kekKey (extractFields blob).encryptedDEK =
      Except.ok dek)
    (hLen : dek.length = 32)
    (hDek : wc.importKey "raw" dek "AES-GCM" false ["decrypt"] = Except.ok dekKey)
    (hOpen : wc.decrypt (extractFields blob).ivData 128 dekKey (extractFields blob).ciphertext =
      Except.ok plaintext) :
    decryptFile wc blob password w =
      (Except.ok (DecryptResult.success plaintext plaintext.length),
        { w with trace := w.trace ++ unwrapEvents password ++
          [Event.importKey "AES-GCM" ["decrypt"], Event.decrypt 128,
           Event.consoleLog "[INFO] Файл успішно розшифровано та верифіковано"] }) := by
  simp only [decryptFile, tryCatch_run, bind_run, SALT_SIZE, IV_SIZE, ENCRYPTED_DEK_SIZE,
    AUTH_TAG_SIZE, Nat.reduceAdd, Nat.not_lt.mpr h, if_false, pure_run, consoleLog, emit_run]
  rw [generateKEKFromPassword_ok wc password _ kek baseKey _ hPw hBase hDerive]
  simp [decryptDEK, subtleImportKey, subtleDecrypt, hKek, hUnwrap, hLen, DEK_SIZE, hDek, hOpen,
    unwrapEvents, formatOkEvent]

theorem decryptFile_unwrapFails (wc : WebCrypto) (blob : List Byte) (password : String)
    (w : World) (baseKey kekKey : CryptoKey) (kek : List Byte) (e : JsError)
    (h : 104 ≤ blob.length) (hPw : 12 ≤ jsLength password)
    (hBase : wc.importKey "raw" (textEncode password) "PBKDF2" false ["deriveBits"] =
      Except.ok baseKey)
    (hDerive : wc.deriveBits (extractFields blob).salt PBKDF2_ITERATIONS "SHA-256" baseKey 256 =
      Except.ok kek)
    (hKek : wc.importKey "raw" kek "AES-GCM" false ["decrypt"] = Except.ok kekKey)
    (hUnwrap : wc.decrypt (extractFields blob).ivKEK 128 kekKey (extractFields blob).encryptedDEK =
      Except.error e) :
    decryptFile wc blob password w =
      (Except.ok (DecryptResult.failure wrongPasswordOrModifiedMessage),
        { w with trace := w.trace ++ unwrapEvents password ++
          [decryptErrorEvent (JsError.mkError wrongPasswordOrDamagedMessage)] }) := by
  simp only [decryptFile, tryCatch_run, bind_run, SALT_SIZE, IV_SIZE, ENCRYPTED_DEK_SIZE,
    AUTH_TAG_SIZE, Nat.reduceAdd, Nat.not_lt.mpr h, if_false, pure_run, consoleLog, emit_run]
  rw [generateKEKFromPassword_ok wc password _ kek baseKey _ hPw hBase hDerive]
  simp [decryptDEK, subtleImportKey, subtleDecrypt, hKek, hUnwrap, consoleError,
    unwrapEvents, formatOkEvent, decryptErrorEvent, JsError.mkError, includes_damaged]

theorem decryptFile_openFails (wc : WebCrypto) (blob : List Byte) (password : String)
    (w : World) (baseKey kekKey dekKey : CryptoKey) (kek dek : List Byte) (e : JsError)
    (h : 104 ≤ blob.length) (hPw : 12 ≤ jsLength password)
    (hBase : wc.importKey "raw" (textEncode password) "PBKDF2" false ["deriveBits"] =
      Except.ok baseKey)
    (hDerive : wc.deriveBits (extractFields blob).salt PBKDF2_ITERATIONS "SHA-256" baseKey 256 =
      Except.ok kek)
    (hKek : wc.importKey "raw" kek "AES-GCM" false ["decrypt"] = Except.ok kekKey)
    (hUnwrap : wc.decrypt (extractFields blob).ivKEK 128 kekKey (extractFields blob).encryptedDEK =
      Except.ok dek)
    (hLen : dek.length = 32)
    (hDek : wc.importKey "raw" dek "AES-GCM" false ["decrypt"] = Except.ok dekKey)
    (hOpen : wc.decrypt (extractFields blob).ivData 128 dekKey (extractFields blob).ciphertext =
      Except.error e)
    (hName : e.name = "OperationError") :
    decryptFile wc blob password w =
      (Except.ok (DecryptResult.failure wrongPasswordOrModifiedMessage),
        { w with trace := w.trace ++ unwrapEvents password ++
          [Event.importKey "AES-GCM" ["decrypt"], Event.decrypt 128, decryptErrorEvent e] }) := by
  simp only [decryptFile, tryCatch_run, bind_run, SALT_SIZE, IV_SIZE, ENCRYPTED_DEK_SIZE,
    AUTH_TAG_SIZE, Nat.reduceAdd, Nat.not_lt.mpr h, if_false, pure_run, consoleLog, emit_run]
  rw [generateKEKFromPassword_ok wc password _ kek baseKey _ hPw hBase hDerive]
  simp [decryptDEK, subtleImportKey, subtleDecrypt, hKek, hUnwrap, hLen, DEK_SIZE, hDek, hOpen,
    consoleError, unwrapEvents, formatOkEvent, decryptErrorEvent, hName]

/-! ## The small instance meets the contracts -/

theorem set_ne_self (xs : List Byte) (i : Nat) (b : Byte) (hi : i < xs.length)
    (hb : b ≠ xs.getD i 0) : xs.set i b ≠ xs := by
  intro h
  have h1 : (xs.set i b).getD i 0 = xs.getD i 0 := by rw [h]
  rw [List.getD_eq_getElem _ _ (by simpa using hi), List.getElem_set_self] at h1
  exact hb h1

theorem encodeList_pos (x : Nat) (xs : List Nat) : 0 < encodeList (x :: xs) := by
  simp only [encodeList]
  exact Nat.mul_pos (Nat.pos_pow_of_pos x (by decide)) (by omega)

theorem pow_odd_inj (x y a b : Nat) (h : 2 ^ x * (2 * a + 1) = 2 ^ y * (2 * b + 1)) :
    x = y ∧ a = b := by
  induction x generalizing y with
  | zero =>
    cases y with
    | zero => simp at h; exact ⟨rfl, h⟩
    | succ y =>
      have h2 : 2 ^ (y + 1) * (2 * b + 1) = 2 * (2 ^ y * (2 * b + 1)) := by ring
      rw [h2] at h
      simp at h
      omega
  | succ x ih =>
    cases y with
    | zero =>
      have h2 : 2 ^ (x + 1) * (2 * a + 1) = 2 * (2 ^ x * (2 * a + 1)) := by ring
      rw [h2] at h
      simp at h
      omega
    | succ y =>
      have h1 : 2 ^ (x + 1) * (2 * a + 1) = 2 * (2 ^ x * (2 * a + 1)) := by ring
      have h2 : 2 ^ (y + 1) * (2 * b + 1) = 2 * (2 ^ y * (2 * b + 1)) := by ring
      rw [h1, h2] at h
      have h3 := ih y (by omega)
      exact ⟨by omega, h3.2⟩

theorem encodeList_injective (xs ys : List Nat) (h : encodeList xs = encodeList ys) :
    xs = ys := by
  induction xs generalizing ys with
  | nil =>
    cases ys with
    | nil => rfl
    | cons y ys =>
      have := encodeList_pos y ys
      simp only [encodeList] at h this
      omega
  | cons x xs ih =>
    cases ys with
    | nil =>
      have := encodeList_pos x xs
      simp only [encodeList] at h this
      omega
    | cons y ys =>
      simp only [encodeList] at h
      have h2 := pow_odd_inj x y _ _ h
      rw [h2.1, ih ys h2.2]

theorem toyTag_length (iv raw data : List Byte) : (toyTag iv raw data).length = 16 := by
  simp [toyTag]

theorem toyTag_injective (iv1 raw1 data1 iv2 raw2 data2 : List Byte)
    (h : toyTag iv1 raw1 data1 = toyTag iv2 raw2 data2) :
    iv1 = iv2 ∧ raw1 = raw2 ∧ data1 = data2 := by
  simp only [toyTag, List.cons_append, List.nil_append, List.cons.injEq] at h
  exact ⟨encodeList_injective _ _ h.1, encodeList_injective _ _ h.2.1,
    encodeList_injective _ _ h.2.2.1⟩

theorem toyCrypto_contract : Contract toyCrypto where
  importPbkdf2 := fun _ => rfl
  importAes := fun _ _ _ => rfl
  derive := fun pw salt => by
    refine ⟨_, rfl, ?_⟩
    simp [pbkdf2Key]
  sealOk := fun iv raw m _ _ => by
    refine ⟨_, rfl, ?_⟩
    simp [aesKey, toyTag_length]
  openSeal := fun iv raw m c h => by
    simp only [toyCrypto, aesKey, Except.ok.injEq] at h
    subst h
    simp [toyCrypto, aesKey, toyTag_length]

/-! ## Encryption and decryption over working primitives -/

theorem encryptFile_shortPassword (wc : WebCrypto) (fileData : List Byte) (password : String)
    (w : World) (hPw : jsLength password < 12) :
    encryptFile wc fileData password w =
      (Except.ok (EncryptResult.failure passwordTooShortMessage),
        { entropy := w.entropy, cursor := w.cursor + 72,
          trace := w.trace ++ drawEvents ++
            [Event.consoleError "[ERROR] Помилка шифрування:"
              (JsError.mkError passwordTooShortMessage)] }) := by
  simp only [encryptFile, tryCatch_run, bind_run, consoleLog, emit_run, getRandomValues_run,
    generateDEK, SALT_SIZE, IV_SIZE, DEK_SIZE, ENCRYPTED_DEK_SIZE, Nat.add_assoc, Nat.reduceAdd]
  rw [generateKEKFromPassword_short wc password _ _ hPw]
  simp [consoleError, drawEvents, JsError.mkError]

theorem sealed_exists (wc : WebCrypto) (hc : Contract wc) (fileData : List Byte)
    (password : String) (w : World) :
    ∃ kek wrapped ciphertext, Sealed wc fileData password w kek wrapped ciphertext := by
  obtain ⟨kek, hDerive, hKekLen⟩ := hc.derive (textEncode password) (saltOf w)
  obtain ⟨wrapped, hWrap, hWrapLen⟩ := hc.sealOk (ivKEKOf w) kek (dekOf w)
    (by simp [ivKEKOf]) hKekLen
  obtain ⟨ciphertext, hSeal, hSealLen⟩ := hc.sealOk (ivDataOf w) (dekOf w) fileData
    (by simp [ivDataOf]) (by simp [dekOf])
  exact ⟨kek, wrapped, ciphertext, hDerive, hKekLen, hWrap,
    by simp [hWrapLen, dekOf], hSeal, hSealLen⟩

theorem encryptFile_sealed (wc : WebCrypto) (hc : Contract wc) (fileData : List Byte)
    (password : String) (w : World) (kek wrapped ciphertext : List Byte)
    (hPw : 12 ≤ jsLength password)
    (hs : Sealed wc fileData password w kek wrapped ciphertext) :
    encryptFile wc fileData password w =
      (Except.ok (EncryptResult.success
          (saltOf w ++ ivKEKOf w ++ wrapped ++ ivDataOf w ++ ciphertext)
          fileData.length ciphertext.length (88 + ciphertext.length) 88),
        { entropy := w.entropy, cursor := w.cursor + 72,
          trace := w.trace ++ drawEvents ++ kekEvents password ++ sealEvents }) :=
  encryptFile_ok wc fileData password w _ _ _ kek wrapped ciphertext hPw
    (hc.importPbkdf2 _) hs.derive (hc.importAes kek "encrypt" hs.kekLength) hs.wrap
    (hc.importAes (dekOf w) "encrypt" (by simp [dekOf])) hs.payload hs.wrappedLength

/-- What `decryptFile` does on a blob made of five fields of the right widths, in terms of
the two openings. -/
theorem decryptFile_fields_ok (wc : WebCrypto) (hc : Contract wc) (password : String)
    (w : World) (salt ivKEK wrapped ivData ciphertext kek dek plaintext : List Byte)
    (hPw : 12 ≤ jsLength password)
    (hSalt : salt.length = 16) (hIvKEK : ivKEK.length = 12) (hWrapped : wrapped.length = 48)
    (hIvData : ivData.length = 12) (hCt : 16 ≤ ciphertext.length)
    (hDerive : wc.deriveBits salt PBKDF2_ITERATIONS "SHA-256"
      (pbkdf2Key (textEncode password)) 256 = Except.ok kek)
    (hKekLen : kek.length = 32)
    (hUnwrap : wc.decrypt ivKEK 128 (aesKey kek "decrypt") wrapped = Except.ok dek)
    (hDekLen : dek.length = 32)
    (hOpen : wc.decrypt ivData 128 (aesKey dek "decrypt") ciphertext = Except.ok plaintext) :
    (decryptFile wc (salt ++ ivKEK ++ wrapped ++ ivData ++ ciphertext) password w).1 =
      Except.ok (DecryptResult.success plaintext plaintext.length) := by
  have hf := extractFields_eq salt ivKEK wrapped ivData ciphertext hSalt hIvKEK hWrapped hIvData
  rw [decryptFile_ok wc _ password w _ _ _ kek dek plaintext
    (by simp [hSalt, hIvKEK, hWrapped, hIvData]; omega) hPw (hc.importPbkdf2 _)
    (by rw [hf]; exact hDerive) (hc.importAes kek "decrypt" hKekLen)
    (by rw [hf]; exact hUnwrap) hDekLen (hc.importAes dek "decrypt" hDekLen)
    (by rw [hf]; exact hOpen)]

theorem decryptFile_fields_unwrapFails (wc : WebCrypto) (hc : Contract wc) (password : String)
    (w : World) (salt ivKEK wrapped ivData ciphertext kek : List Byte) (e : JsError)
    (hPw : 12 ≤ jsLength password)
    (hSalt : salt.length = 16) (hIvKEK : ivKEK.length = 12) (hWrapped : wrapped.length = 48)
    (hIvData : ivData.length = 12) (hCt : 16 ≤ ciphertext.length)
    (hDerive : wc.deriveBits salt PBKDF2_ITERATIONS "SHA-256"
      (pbkdf2Key (textEncode password)) 256 = Except.ok kek)
    (hKekLen : kek.length = 32)
    (hUnwrap : wc.decrypt ivKEK 128 (aesKey kek "decrypt") wrapped = Except.error e) :
    (decryptFile wc (salt ++ ivKEK ++ wrapped ++ ivData ++ ciphertext) password w).1 =
      Except.ok (DecryptResult.failure wrongPasswordOrModifiedMessage) := by
  have hf := extractFields_eq salt ivKEK wrapped ivData ciphertext hSalt hIvKEK hWrapped hIvData
  rw [decryptFile_unwrapFails wc _ password w _ _ kek e
    (by simp [hSalt, hIvKEK, hWrapped, hIvData]; omega) hPw (hc.importPbkdf2 _)
    (by rw [hf]; exact hDerive) (hc.importAes kek "decrypt" hKekLen)
    (by rw [hf]; exact hUnwrap)]

theorem decryptFile_fields_openFails (wc : WebCrypto) (hc : Contract wc) (password : String)
    (w : World) (salt ivKEK wrapped ivData ciphertext kek dek : List Byte) (e : JsError)
    (hPw : 12 ≤ jsLength password)
    (hSalt : salt.length = 16) (hIvKEK : ivKEK.length = 12) (hWrapped : wrapped.length = 48)
    (hIvData : ivData.length = 12) (hCt : 16 ≤ ciphertext.length)
    (hDerive : wc.deriveBits salt PBKDF2_ITERATIONS "SHA-256"
      (pbkdf2Key (textEncode password)) 256 = Except.ok kek)
    (hKekLen : kek.length = 32)
    (hUnwrap : wc.decrypt ivKEK 128 (aesKey kek "decrypt") wrapped = Except.ok dek)
    (hDekLen : dek.length = 32)
    (hOpen : wc.decrypt ivData 128 (aesKey dek "decrypt") ciphertext = Except.error e)
    (hName : e.name = "OperationError") :
    (decryptFile wc (salt ++ ivKEK ++ wrapped ++ ivData ++ ciphertext) password w).1 =
      Except.ok (DecryptResult.failure wrongPasswordOrModifiedMessage) := by
  have hf := extractFields_eq salt ivKEK wrapped ivData ciphertext hSalt hIvKEK hWrapped hIvData
  rw [decryptFile_openFails wc _ password w _ _ _ kek dek e
    (by simp [hSalt, hIvKEK, hWrapped, hIvData]; omega) hPw (hc.importPbkdf2 _)
    (by rw [hf]; exact hDerive) (hc.importAes kek "decrypt" hKekLen)
    (by rw [hf]; exact hUnwrap) hDekLen (hc.importAes dek "decrypt" hDekLen)
    (by rw [hf]; exact hOpen) hName]

/-! ## The trace only grows -/

theorem grows_pure {α : Type} (a : α) : Grows (pure a : Js α) :=
  fun w => ⟨[], by simp⟩

theorem grows_throw {α : Type} (e : JsError) : Grows (throw e : Js α) :=
  fun w => ⟨[], by simp⟩

theorem grows_emit (ev : Event) : Grows (Js.emit ev) :=
  fun w => ⟨[ev], by simp⟩

theorem grows_ofExcept {α : Type} (r : Except JsError α) : Grows (Js.ofExcept r) :=
  fun w => ⟨[], by simp⟩

theorem grows_bind {α β : Type} (m : Js α) (f : α → Js β) (hm : Grows m)
    (hf : ∀ a, Grows (f a)) : Grows (m >>= f) := by
  intro w
  obtain ⟨r1, h1⟩ := hm w
  rw [bind_run]
  rcases hmw : m w with ⟨_ | a, w1⟩
  · rw [hmw] at h1
    exact ⟨r1, h1⟩
  · rw [hmw] at h1
    obtain ⟨r2, h2⟩ := hf a w1
    refine ⟨r1 ++ r2, ?_⟩
    simp only [h2]
    rw [show w1.trace = w.trace ++ r1 from h1, List.append_assoc]

theorem grows_tryCatch {α : Type} (body : Js α) (handler : JsError → Js α) (hb : Grows body)
    (hh : ∀ e, Grows (handler e)) : Grows (tryCatch body handler) := by
  intro w
  obtain ⟨r1, h1⟩ := hb w
  rw [tryCatch_run]
  rcases hbw : body w with ⟨e | a, w1⟩
  · rw [hbw] at h1
    obtain ⟨r2, h2⟩ := hh e w1
    refine ⟨r1 ++ r2, ?_⟩
    simp only [h2]
    rw [show w1.trace = w.trace ++ r1 from h1, List.append_assoc]
  · rw [hbw] at h1
    exact ⟨r1, h1⟩

theorem grows_importKey (wc : WebCrypto) (format : String) (keyData : List Byte)
    (algorithm : String) (extractable : Bool) (usages : List String) :
    Grows (subtleImportKey wc format keyData algorithm extractable usages) :=
  grows_bind _ _ (grows_emit _) (fun _ => grows_ofExcept _)

theorem grows_deriveBits (wc : WebCrypto) (salt : List Byte) (iterations : Nat) (hash : String)
    (baseKey : CryptoKey) (length : Nat) :
    Grows (subtleDeriveBits wc salt iterations hash baseKey length) :=
  grows_bind _ _ (grows_emit _) (fun _ => grows_ofExcept _)

theorem grows_decrypt (wc : WebCrypto) (iv : List Byte) (tagLength : Nat) (key : CryptoKey)
    (data : List Byte) : Grows (subtleDecrypt wc iv tagLength key data) :=
  grows_bind _ _ (grows_emit _) (fun _ => grows_ofExcept _)

theorem grows_validatePassword (password : String) : Grows (validatePassword password) := by
  intro w
  by_cases h : jsLength password < 12
  · exact ⟨[], by rw [validatePassword_short password w h]; simp⟩
  · exact ⟨warningEvents password, by rw [validatePassword_ok password w (Nat.le_of_not_lt h)]⟩

theorem grows_generateKEK (wc : WebCrypto) (password : String) (salt : List Byte) :
    Grows (generateKEKFromPassword wc password salt) :=
  grows_bind _ _ (grows_validatePassword _) (fun _ =>
    grows_bind _ _ (grows_importKey _ _ _ _ _ _) (fun _ =>
      grows_bind _ _ (grows_deriveBits _ _ _ _ _ _) (fun _ => grows_pure _)))

theorem grows_decryptDEK (wc : WebCrypto) (encryptedDEK kek iv : List Byte) :
    Grows (decryptDEK wc encryptedDEK kek iv) :=
  grows_bind _ _ (grows_importKey _ _ _ _ _ _) (fun _ =>
    grows_bind _ _ (grows_decrypt _ _ _ _ _) (fun dek => by
      intro w
      by_cases h : dek.length = DEK_SIZE <;> exact ⟨[], by simp [h]⟩))

/-- The handler of the `catch` block of `decryptFile`. -/
theorem grows_decryptHandler (error : JsError) :
    Grows (do
      consoleError "[ERROR] Помилка розшифрування:" error
      if error.name == "OperationError" || includes error.message "Невірний пароль" then
        pure (DecryptResult.failure wrongPasswordOrModifiedMessage)
      else
        pure (DecryptResult.failure error.message)) :=
  grows_bind _ _ (grows_emit _) (fun _ => by
    split
    · exact grows_pure _
    · exact grows_pure _)

/-- Past the size check `decryptFile` first writes the format line and only then goes on. -/
theorem decryptFile_passes_check (wc : WebCrypto) (blob : List Byte) (password : String)
    (w : World) (h : 104 ≤ blob.length) :
    ∃ rest, (decryptFile wc blob password w).2.trace = w.trace ++ formatOkEvent :: rest := by
  have hBody : Grows (tryCatch (do
      let kek ← generateKEKFromPassword wc password (extractFields blob).salt
      let dek ← tryCatch (decryptDEK wc (extractFields blob).encryptedDEK kek
        (extractFields blob).ivKEK)
        (fun _ => throw (JsError.mkError wrongPasswordOrDamagedMessage))
      let dekKey ← subtleImportKey wc "raw" dek "AES-GCM" false ["decrypt"]
      let plaintext ← subtleDecrypt wc (extractFields blob).ivData 128 dekKey
        (extractFields blob).ciphertext
      consoleLog "[INFO] Файл успішно розшифровано та верифіковано"
      pure (DecryptResult.success plaintext plaintext.length))
    (fun error => do
      consoleError "[ERROR] Помилка розшифрування:" error
      if error.name == "OperationError" || includes error.message "Невірний пароль" then
        pure (DecryptResult.failure wrongPasswordOrModifiedMessage)
      else
        pure (DecryptResult.failure error.message))) :=
    grows_tryCatch _ _
      (grows_bind _ _ (grows_generateKEK _ _ _) (fun kek =>
        grows_bind _ _
          (grows_tryCatch _ _ (grows_decryptDEK _ _ _ _) (fun _ => grows_throw _))
          (fun dek =>
            grows_bind _ _ (grows_importKey _ _ _ _ _ _) (fun dekKey =>
              grows_bind _ _ (grows_decrypt _ _ _ _ _) (fun plaintext =>
                grows_bind _ _ (grows_emit _) (fun _ => grows_pure _))))))
      grows_decryptHandler
  obtain ⟨rest, hRest⟩ := hBody { w with trace := w.trace ++ [formatOkEvent] }
  refine ⟨rest, ?_⟩
  have hEq : decryptFile wc blob password w =
      (tryCatch (do
        let kek ← generateKEKFromPassword wc password (extractFields blob).salt
        let dek ← tryCatch (decryptDEK wc (extractFields blob).encryptedDEK kek
          (extractFields blob).ivKEK)
          (fun _ => throw (JsError.mkError wrongPasswordOrDamagedMessage))
        let dekKey ← subtleImportKey wc "raw" dek "AES-GCM" false ["decrypt"]
        let plaintext ← subtleDecrypt wc (extractFields blob).ivData 128 dekKey
          (extractFields blob).ciphertext
        consoleLog "[INFO] Файл успішно розшифровано та верифіковано"
        pure (DecryptResult.success plaintext plaintext.length))
      (fun error => do
        consoleError "[ERROR] Помилка розшифрування:" error
        if error.name == "OperationError" || includes error.message "Невірний пароль" then
          pure (DecryptResult.failure wrongPasswordOrModifiedMessage)
        else
          pure (DecryptResult.failure error.message)))
        { w with trace := w.trace ++ [formatOkEvent] } := by
    simp only [decryptFile, tryCatch_run, bind_run, SALT_SIZE, IV_SIZE, ENCRYPTED_DEK_SIZE,
      AUTH_TAG_SIZE, Nat.reduceAdd, Nat.not_lt.mpr h, if_false, pure_run, consoleLog, emit_run,
      formatOkEvent]
  rw [hEq, hRest]
  simp

/-! ## What a success of `encryptFile` tells -/

/-- A success of `encryptFile` means that the password passed the length check and that
every call to a primitive returned; the data is what `assembleEnvelope` built. -/
theorem encryptFile_success_inv (wc : WebCrypto) (fileData : List Byte) (password : String)
    (w : World) (data : List Byte) (originalSize encryptedSize totalSize headerSize : Nat)
    (h : (encryptFile wc fileData password w).1 =
      Except.ok (EncryptResult.success data originalSize encryptedSize totalSize headerSize)) :
    12 ≤ jsLength password ∧
    ∃ baseKey kek kekKey wrapped dekKey ciphertext,
      wc.importKey "raw" (textEncode password) "PBKDF2" false ["deriveBits"] =
        Except.ok baseKey ∧
      wc.deriveBits (saltOf w) PBKDF2_ITERATIONS "SHA-256" baseKey 256 = Except.ok kek ∧
      wc.importKey "raw" kek "AES-GCM" false ["encrypt"] = Except.ok kekKey ∧
      wc.encrypt (ivKEKOf w) 128 kekKey (dekOf w) = Except.ok wrapped ∧
      wc.importKey "raw" (dekOf w) "AES-GCM" false ["encrypt"] = Except.ok dekKey ∧
      wc.encrypt (ivDataOf w) 128 dekKey fileData = Except.ok ciphertext ∧
      assembleEnvelope (saltOf w) (ivKEKOf w) wrapped (ivDataOf w) ciphertext =
        Except.ok data ∧
      originalSize = fileData.length ∧ encryptedSize = ciphertext.length ∧
      totalSize = data.length ∧ headerSize = 88 := by
  by_cases hPw : jsLength password < 12
  · rw [encryptFile_shortPassword wc fileData password w hPw] at h
    simp at h
  have hPw2 : 12 ≤ jsLength password := Nat.le_of_not_lt hPw
  refine ⟨hPw2, ?_⟩
  simp only [encryptFile, tryCatch_run, bind_run, consoleLog, emit_run, getRandomValues_run,
    generateDEK, SALT_SIZE, IV_SIZE, DEK_SIZE, ENCRYPTED_DEK_SIZE, KEK_SIZE, Nat.add_assoc,
    Nat.reduceAdd, Nat.reduceMul, generateKEKFromPassword, validatePassword_ok password _ hPw2,
    subtleImportKey, subtleDeriveBits, subtleEncrypt, encryptDEK, ofExcept_run, pure_run,
    consoleError] at h
  simp only [saltOf, ivKEKOf, ivDataOf, dekOf, drawn, Nat.add_zero, Nat.add_assoc]
  cases hBase : wc.importKey "raw" (textEncode password) "PBKDF2" false ["deriveBits"] with
  | error e => simp [hBase] at h
  | ok baseKey =>
    simp only [hBase] at h
    cases hDerive : wc.deriveBits (List.map (fun i => w.entropy (w.cursor + i)) (List.range 16))
        PBKDF2_ITERATIONS "SHA-256" baseKey 256 with
    | error e => simp [hDerive] at h
    | ok kek =>
      simp only [hDerive] at h
      cases hKek : wc.importKey "raw" kek "AES-GCM" false ["encrypt"] with
      | error e => simp [hKek] at h
      | ok kekKey =>
        simp only [hKek] at h
        cases hWrap : wc.encrypt
            (List.map (fun i => w.entropy (w.cursor + (16 + i))) (List.range 12)) 128 kekKey
            (List.map (fun i => w.entropy (w.cursor + (40 + i))) (List.range 32)) with
        | error e => simp [hWrap] at h
        | ok wrapped =>
          simp only [hWrap] at h
          cases hDek : wc.importKey "raw"
              (List.map (fun i => w.entropy (w.cursor + (40 + i))) (List.range 32)) "AES-GCM"
              false ["encrypt"] with
          | error e => simp [hDek] at h
          | ok dekKey =>
            simp only [hDek] at h
            cases hSeal : wc.encrypt
                (List.map (fun i => w.entropy (w.cursor + (28 + i))) (List.range 12)) 128 dekKey
                fileData with
            | error e => simp [hSeal] at h
            | ok ciphertext =>
              simp only [hSeal] at h
              cases hAsm : assembleEnvelope
                  (List.map (fun i => w.entropy (w.cursor + i)) (List.range 16))
                  (List.map (fun i => w.entropy (w.cursor + (16 + i))) (List.range 12)) wrapped
                  (List.map (fun i => w.entropy (w.cursor + (28 + i))) (List.range 12))
                  ciphertext with
              | error e => simp [hAsm] at h
              | ok result =>
                simp only [hAsm, Except.ok.injEq, EncryptResult.success.injEq] at h
                obtain ⟨h1, h2, h3, h4, h5⟩ := h
                subst h1
                exact ⟨baseKey, kek, kekKey, wrapped, dekKey, ciphertext,
                  rfl, hDerive, hKek, hWrap, rfl, hSeal, hAsm, h2.symm, h3.symm, h4.symm,
                  h5.symm⟩

/-- The promise of `encryptFile` never rejects: its `catch` block returns an object. -/
theorem encryptFile_returns (wc : WebCrypto) (fileData : List Byte) (password : String)
    (w : World) : ∃ r, (encryptFile wc fileData password w).1 = Except.ok r := by
  simp only [encryptFile, tryCatch_run]
  split
  next a w1 _ => exact ⟨a, rfl⟩
  next e w1 _ => exact ⟨EncryptResult.failure e.message, by simp [consoleError]⟩

theorem encryptFile_deriveFails (wc : WebCrypto) (fileData : List Byte) (password : String)
    (w : World) (baseKey : CryptoKey) (e : JsError) (hPw : 12 ≤ jsLength password)
    (hBase : wc.importKey "raw" (textEncode password) "PBKDF2" false ["deriveBits"] =
      Except.ok baseKey)
    (hDerive : wc.deriveBits (saltOf w) PBKDF2_ITERATIONS "SHA-256" baseKey 256 =
      Except.error e) :
    (encryptFile wc fileData password w).1 = Except.ok (EncryptResult.failure e.message) := by
  simp only [saltOf, drawn, Nat.add_zero] at hDerive
  simp [encryptFile, consoleLog, generateDEK, SALT_SIZE, IV_SIZE, DEK_SIZE, KEK_SIZE,
    generateKEKFromPassword, validatePassword_ok password _ hPw, subtleImportKey,
    subtleDeriveBits, hBase, hDerive, consoleError]

theorem encryptFile_wrapFails (wc : WebCrypto) (fileData : List Byte) (password : String)
    (w : World) (baseKey kekKey : CryptoKey) (kek : List Byte) (e : JsError)
    (hPw : 12 ≤ jsLength password)
    (hBase : wc.importKey "raw" (textEncode password) "PBKDF2" false ["deriveBits"] =
      Except.ok baseKey)
    (hDerive : wc.deriveBits (saltOf w) PBKDF2_ITERATIONS "SHA-256" baseKey 256 = Except.ok kek)
    (hKek : wc.importKey "raw" kek "AES-GCM" false ["encrypt"] = Except.ok kekKey)
    (hWrap : wc.encrypt (ivKEKOf w) 128 kekKey (dekOf w) = Except.error e) :
    (encryptFile wc fileData password w).1 = Except.ok (EncryptResult.failure e.message) := by
  simp only [saltOf, ivKEKOf, dekOf, drawn, Nat.add_zero, Nat.add_assoc] at hDerive hWrap
  simp only [encryptFile, tryCatch_run, bind_run, consoleLog, emit_run, getRandomValues_run,
    generateDEK, SALT_SIZE, IV_SIZE, DEK_SIZE, ENCRYPTED_DEK_SIZE, Nat.add_assoc, Nat.reduceAdd]
  rw [generateKEKFromPassword_ok wc password _ kek baseKey _ hPw hBase hDerive]
  simp [encryptDEK, subtleImportKey, subtleEncrypt, hKek, hWrap, consoleError]

theorem encryptFile_payloadFails (wc : WebCrypto) (fileData : List Byte) (password : String)
    (w : World) (baseKey kekKey dekKey : CryptoKey) (kek wrapped : List Byte) (e : JsError)
    (hPw : 12 ≤ jsLength password)
    (hBase : wc.importKey "raw" (textEncode password) "PBKDF2" false ["deriveBits"] =
      Except.ok baseKey)
    (hDerive : wc.deriveBits (saltOf w) PBKDF2_ITERATIONS "SHA-256" baseKey 256 = Except.ok kek)
    (hKek : wc.importKey "raw" kek "AES-GCM" false ["encrypt"] = Except.ok kekKey)
    (hWrap : wc.encrypt (ivKEKOf w) 128 kekKey (dekOf w) = Except.ok wrapped)
    (hDek : wc.importKey "raw" (dekOf w) "AES-GCM" false ["encrypt"] = Except.ok dekKey)
    (hSeal : wc.encrypt (ivDataOf w) 128 dekKey fileData = Except.error e) :
    (encryptFile wc fileData password w).1 = Except.ok (EncryptResult.failure e.message) := by
  simp only [saltOf, ivKEKOf, ivDataOf, dekOf, drawn, Nat.add_zero, Nat.add_assoc]
    at hDerive hWrap hDek hSeal
  simp only [encryptFile, tryCatch_run, bind_run, consoleLog, emit_run, getRandomValues_run,
    generateDEK, SALT_SIZE, IV_SIZE, DEK_SIZE, ENCRYPTED_DEK_SIZE, Nat.add_assoc, Nat.reduceAdd]
  rw [generateKEKFromPassword_ok wc password _ kek baseKey _ hPw hBase hDerive]
  simp only []
  rw [encryptDEK_ok wc _ kek _ wrapped kekKey _ hKek hWrap]
  simp [subtleImportKey, subtleEncrypt, hDek, hSeal, consoleError]

/-! ## One changed byte -/

theorem set_append_cases (front back : List Byte) (i : Nat) (b : Byte)
    (hi : i < (front ++ back).length) (hb : b ≠ (front ++ back).getD i 0) :
    (i < front.length ∧ b ≠ front.getD i 0 ∧
        (front ++ back).set i b = front.set i b ++ back) ∨
    (front.length ≤ i ∧ i - front.length < back.length ∧
        b ≠ back.getD (i - front.length) 0 ∧
        (front ++ back).set i b = front ++ back.set (i - front.length) b) := by
  by_cases hlt : i < front.length
  · left
    rw [List.getD_append _ _ _ _ hlt] at hb
    exact ⟨hlt, hb, List.set_append_left _ _ hlt⟩
  · right
    have hge : front.length ≤ i := Nat.le_of_not_lt hlt
    rw [List.getD_append_right _ _ _ _ hge] at hb
    simp only [List.length_append] at hi
    exact ⟨hge, by omega, hb, List.set_append_right _ _ hge⟩

/-- A byte changed in an envelope is a byte changed in exactly one of its five fields. -/
theorem tampered_fields (salt ivKEK wrapped ivData ciphertext : List Byte) (i : Nat) (b : Byte)
    (hi : i < (salt ++ ivKEK ++ wrapped ++ ivData ++ ciphertext).length)
    (hb : b ≠ (salt ++ ivKEK ++ wrapped ++ ivData ++ ciphertext).getD i 0) :
    (i < salt.length ∧ b ≠ salt.getD i 0 ∧
      (salt ++ ivKEK ++ wrapped ++ ivData ++ ciphertext).set i b =
        salt.set i b ++ ivKEK ++ wrapped ++ ivData ++ ciphertext) ∨
    (∃ j, j < ivKEK.length ∧ b ≠ ivKEK.getD j 0 ∧
      (salt ++ ivKEK ++ wrapped ++ ivData ++ ciphertext).set i b =
        salt ++ ivKEK.set j b ++ wrapped ++ ivData ++ ciphertext) ∨
    (∃ j, j < wrapped.length ∧ b ≠ wrapped.getD j 0 ∧
      (salt ++ ivKEK ++ wrapped ++ ivData ++ ciphertext).set i b =
        salt ++ ivKEK ++ wrapped.set j b ++ ivData ++ ciphertext) ∨
    (∃ j, j < ivData.length ∧ b ≠ ivData.getD j 0 ∧
      (salt ++ ivKEK ++ wrapped ++ ivData ++ ciphertext).set i b =
        salt ++ ivKEK ++ wrapped ++ ivData.set j b ++ ciphertext) ∨
    (∃ j, j < ciphertext.length ∧ b ≠ ciphertext.getD j 0 ∧
      (salt ++ ivKEK ++ wrapped ++ ivData ++ ciphertext).set i b =
        salt ++ ivKEK ++ wrapped ++ ivData ++ ciphertext.set j b) := by
  simp only [List.append_assoc] at hi hb ⊢
  rcases set_append_cases salt _ i b hi hb with ⟨h1, h2, h3⟩ | ⟨-, hi1, hb1, e1⟩
  · exact Or.inl ⟨h1, h2, h3⟩
  right
  rw [e1]
  rcases set_append_cases ivKEK _ _ b hi1 hb1 with ⟨h1, h2, h3⟩ | ⟨-, hi2, hb2, e2⟩
  · exact Or.inl ⟨_, h1, h2, by rw [h3]⟩
  right
  rw [e2]
  rcases set_append_cases wrapped _ _ b hi2 hb2 with ⟨h1, h2, h3⟩ | ⟨-, hi3, hb3, e3⟩
  · exact Or.inl ⟨_, h1, h2, by rw [h3]⟩
  right
  rw [e3]
  rcases set_append_cases ivData _ _ b hi3 hb3 with ⟨h1, h2, h3⟩ | ⟨-, hi4, hb4, e4⟩
  · exact Or.inl ⟨_, h1, h2, by rw [h3]⟩
  right
  rw [e4]
  exact ⟨_, hi4, hb4, rfl⟩

/-! ## The opening of the wrapped DEK -/

theorem decryptDEK_importThrows (wc : WebCrypto) (encryptedDEK kek iv : List Byte)
    (e : JsError) (w : World)
    (hImport : wc.importKey "raw" kek "AES-GCM" false ["decrypt"] = Except.error e) :
    decryptDEK wc encryptedDEK kek iv w =
      (Except.error e, { w with trace := w.trace ++ [Event.importKey "AES-GCM" ["decrypt"]] }) := by
  simp [decryptDEK, subtleImportKey, hImport]

theorem decryptDEK_openThrows (wc : WebCrypto) (encryptedDEK kek iv : List Byte)
    (kekKey : CryptoKey) (e : JsError) (w : World)
    (hImport : wc.importKey "raw" kek "AES-GCM" false ["decrypt"] = Except.ok kekKey)
    (hOpen : wc.decrypt iv 128 kekKey encryptedDEK = Except.error e) :
    decryptDEK wc encryptedDEK kek iv w =
      (Except.error e, { w with trace := w.trace ++
        [Event.importKey "AES-GCM" ["decrypt"], Event.decrypt 128] }) := by
  simp [decryptDEK, subtleImportKey, subtleDecrypt, hImport, hOpen]

theorem decryptDEK_wrongSize (wc : WebCrypto) (encryptedDEK kek iv dek : List Byte)
    (kekKey : CryptoKey) (w : World)
    (hImport : wc.importKey "raw" kek "AES-GCM" false ["decrypt"] = Except.ok kekKey)
    (hOpen : wc.decrypt iv 128 kekKey encryptedDEK = Except.ok dek)
    (hLen : dek.length ≠ 32) :
    decryptDEK wc encryptedDEK kek iv w =
      (Except.error (JsError.mkError (dekWrongSizeMessage dek.length)),
        { w with trace := w.trace ++
          [Event.importKey "AES-GCM" ["decrypt"], Event.decrypt 128] }) := by
  simp [decryptDEK, subtleImportKey, subtleDecrypt, hImport, hOpen, hLen, DEK_SIZE]

theorem decryptDEK_returns (wc : WebCrypto) (encryptedDEK kek iv dek : List Byte)
    (kekKey : CryptoKey) (w : World)
    (hImport : wc.importKey "raw" kek "AES-GCM" false ["decrypt"] = Except.ok kekKey)
    (hOpen : wc.decrypt iv 128 kekKey encryptedDEK = Except.ok dek)
    (hLen : dek.length = 32) :
    decryptDEK wc encryptedDEK kek iv w =
      (Except.ok dek, { w with trace := w.trace ++
        [Event.importKey "AES-GCM" ["decrypt"], Event.decrypt 128] }) := by
  simp [decryptDEK, subtleImportKey, subtleDecrypt, hImport, hOpen, hLen, DEK_SIZE]

/-- Whatever `decryptDEK` throws, `decryptFile` answers with the authentication message. -/
theorem decryptFile_unwrapThrows (wc : WebCrypto) (blob : List Byte) (password : String)
    (w : World) (baseKey : CryptoKey) (kek : List Byte) (e : JsError) (dekEvents : List Event)
    (h : 104 ≤ blob.length) (hPw : 12 ≤ jsLength password)
    (hBase : wc.importKey "raw" (textEncode password) "PBKDF2" false ["deriveBits"] =
      Except.ok baseKey)
    (hDerive : wc.deriveBits (extractFields blob).salt PBKDF2_ITERATIONS "SHA-256" baseKey 256 =
      Except.ok kek)
    (hThrow : ∀ w1, decryptDEK wc (extractFields blob).encryptedDEK kek (extractFields blob).ivKEK
      w1 = (Except.error e, { w1 with trace := w1.trace ++ dekEvents })) :
    decryptFile wc blob password w =
      (Except.ok (DecryptResult.failure wrongPasswordOrModifiedMessage),
        { w with trace := w.trace ++ [formatOkEvent] ++ kekEvents password ++ dekEvents ++
          [decryptErrorEvent (JsError.mkError wrongPasswordOrDamagedMessage)] }) := by
  simp only [decryptFile, tryCatch_run, bind_run, SALT_SIZE, IV_SIZE, ENCRYPTED_DEK_SIZE,
    AUTH_TAG_SIZE, Nat.reduceAdd, Nat.not_lt.mpr h, if_false, pure_run, consoleLog, emit_run]
  rw [generateKEKFromPassword_ok wc password _ kek baseKey _ hPw hBase hDerive]
  simp only []
  rw [hThrow]
  simp [consoleError, formatOkEvent, decryptErrorEvent, JsError.mkError, includes_damaged]

/-! ## What `decryptFile` returns when a step throws -/

/-- The promise of `decryptFile` never rejects: its `catch` block returns an object. -/
theorem decryptFile_returns (wc : WebCrypto) (blob : List Byte) (password : String)
    (w : World) : ∃ r, (decryptFile wc blob password w).1 = Except.ok r := by
  simp only [decryptFile, tryCatch_run]
  split
  next a w1 _ => exact ⟨a, rfl⟩
  next e w1 _ =>
    refine ⟨DecryptResult.failure (surfacedMessage e), ?_⟩
    simp only [bind_run, consoleError, emit_run, surfacedMessage]
    split <;> rfl

theorem decryptFile_baseImportThrows (wc : WebCrypto) (blob : List Byte) (password : String)
    (w : World) (e : JsError) (h : 104 ≤ blob.length) (hPw : 12 ≤ jsLength password)
    (hBase : wc.importKey "raw" (textEncode password) "PBKDF2" false ["deriveBits"] =
      Except.error e) :
    (decryptFile wc blob password w).1 =
      Except.ok (DecryptResult.failure (surfacedMessage e)) := by
  simp only [decryptFile, tryCatch_run, bind_run, SALT_SIZE, IV_SIZE, ENCRYPTED_DEK_SIZE,
    AUTH_TAG_SIZE, Nat.reduceAdd, Nat.not_lt.mpr h, if_false, pure_run, consoleLog, emit_run,
    generateKEKFromPassword, validatePassword_ok password _ hPw, subtleImportKey, ofExcept_run,
    hBase, consoleError, surfacedMessage]
  split <;> rfl

theorem decryptFile_deriveThrows (wc : WebCrypto) (blob : List Byte) (password : String)
    (w : World) (baseKey : CryptoKey) (e : JsError) (h : 104 ≤ blob.length)
    (hPw : 12 ≤ jsLength password)
    (hBase : wc.importKey "raw" (textEncode password) "PBKDF2" false ["deriveBits"] =
      Except.ok baseKey)
    (hDerive : wc.deriveBits (extractFields blob).salt PBKDF2_ITERATIONS "SHA-256" baseKey 256 =
      Except.error e) :
    (decryptFile wc blob password w).1 =
      Except.ok (DecryptResult.failure (surfacedMessage e)) := by
  simp only [decryptFile, tryCatch_run, bind_run, SALT_SIZE, IV_SIZE, ENCRYPTED_DEK_SIZE,
    AUTH_TAG_SIZE, KEK_SIZE, Nat.reduceAdd, Nat.reduceMul, Nat.not_lt.mpr h, if_false, pure_run,
    consoleLog, emit_run, generateKEKFromPassword, validatePassword_ok password _ hPw,
    subtleImportKey, subtleDeriveBits, ofExcept_run, hBase, hDerive, consoleError,
    surfacedMessage]
  split <;> rfl

theorem decryptFile_dekImportThrows (wc : WebCrypto) (blob : List Byte) (password : String)
    (w : World) (baseKey kekKey : CryptoKey) (kek dek : List Byte) (e : JsError)
    (h : 104 ≤ blob.length) (hPw : 12 ≤ jsLength password)
    (hBase : wc.importKey "raw" (textEncode password) "PBKDF2" false ["deriveBits"] =
      Except.ok baseKey)
    (hDerive : wc.deriveBits (extractFields blob).salt PBKDF2_ITERATIONS "SHA-256" baseKey 256 =
      Except.ok kek)
    (hKek : wc.importKey "raw" kek "AES-GCM" false ["decrypt"] = Except.ok kekKey)
    (hUnwrap : wc.decrypt (extractFields blob).ivKEK 128 kekKey (extractFields blob).encryptedDEK =
      Except.ok dek)
    (hLen : dek.length = 32)
    (hDek : wc.importKey "raw" dek "AES-GCM" false ["decrypt"] = Except.error e) :
    (decryptFile wc blob password w).1 =
      Except.ok (DecryptResult.failure (surfacedMessage e)) := by
  simp only [decryptFile, tryCatch_run, bind_run, SALT_SIZE, IV_SIZE, ENCRYPTED_DEK_SIZE,
    AUTH_TAG_SIZE, Nat.reduceAdd, Nat.not_lt.mpr h, if_false, pure_run, consoleLog, emit_run]
  rw [generateKEKFromPassword_ok wc password _ kek baseKey _ hPw hBase hDerive]
  simp only []
  rw [decryptDEK_returns wc _ kek _ dek kekKey _ hKek hUnwrap hLen]
  simp only [subtleImportKey, bind_run, emit_run, ofExcept_run, hDek, consoleError,
    surfacedMessage]
  split <;> rfl

theorem decryptFile_payloadThrows (wc : WebCrypto) (blob : List Byte) (password : String)
    (w : World) (baseKey kekKey dekKey : CryptoKey) (kek dek : List Byte) (e : JsError)
    (h : 104 ≤ blob.length) (hPw : 12 ≤ jsLength password)
    (hBase : wc.importKey "raw" (textEncode password) "PBKDF2" false ["deriveBits"] =
      Except.ok baseKey)
    (hDerive : wc.deriveBits (extractFields blob).salt PBKDF2_ITERATIONS "SHA-256" baseKey 256 =
      Except.ok kek)
    (hKek : wc.importKey "raw" kek "AES-GCM" false ["decrypt"] = Except.ok kekKey)
    (hUnwrap : wc.decrypt (extractFields blob).ivKEK 128 kekKey (extractFields blob).encryptedDEK =
      Except.ok dek)
    (hLen : dek.length = 32)
    (hDek : wc.importKey "raw" dek "AES-GCM" false ["decrypt"] = Except.ok dekKey)
    (hOpen : wc.decrypt (extractFields blob).ivData 128 dekKey (extractFields blob).ciphertext =
      Except.error e) :
    (decryptFile wc blob password w).1 =
      Except.ok (DecryptResult.failure (surfacedMessage e)) := by
  simp only [decryptFile, tryCatch_run, bind_run, SALT_SIZE, IV_SIZE, ENCRYPTED_DEK_SIZE,
    AUTH_TAG_SIZE, Nat.reduceAdd, Nat.not_lt.mpr h, if_false, pure_run, consoleLog, emit_run]
  rw [generateKEKFromPassword_ok wc password _ kek baseKey _ hPw hBase hDerive]
  simp only []
  rw [decryptDEK_returns wc _ kek _ dek kekKey _ hKek hUnwrap hLen]
  simp only [subtleImportKey, subtleDecrypt, bind_run, emit_run, ofExcept_run, hDek, hOpen,
    consoleError, surfacedMessage]
  split <;> rfl

/-- The run of `decryptDEK` when the opening of the wrapped DEK fails: it throws after the
key import and at most one AEAD opening. -/
theorem unwrapThrows_run (wc : WebCrypto) (encryptedDEK kek iv : List Byte)
    (h : UnwrapThrows wc encryptedDEK kek iv) :
    ∃ e dekEvents,
      (dekEvents = [Event.importKey "AES-GCM" ["decrypt"]] ∨
        dekEvents = [Event.importKey "AES-GCM" ["decrypt"], Event.decrypt 128]) ∧
      ∀ w1, decryptDEK wc encryptedDEK kek iv w1 =
        (Except.error e, { w1 with trace := w1.trace ++ dekEvents }) := by
  rcases h with ⟨e, hImport⟩ | ⟨kekKey, hImport, ⟨e, hOpen⟩ | ⟨dek, hOpen, hLen⟩⟩
  · exact ⟨e, _, Or.inl rfl, fun w1 => decryptDEK_importThrows wc _ _ _ e w1 hImport⟩
  · exact ⟨e, _, Or.inr rfl, fun w1 => decryptDEK_openThrows wc _ _ _ kekKey e w1 hImport hOpen⟩
  · exact ⟨_, _, Or.inr rfl,
      fun w1 => decryptDEK_wrongSize wc _ _ _ dek kekKey w1 hImport hOpen hLen⟩

theorem encryptFile_baseImportFails (wc : WebCrypto) (fileData : List Byte) (password : String)
    (w : World) (e : JsError) (hPw : 12 ≤ jsLength password)
    (hBase : wc.importKey "raw" (textEncode password) "PBKDF2" false ["deriveBits"] =
      Except.error e) :
    (encryptFile wc fileData password w).1 = Except.ok (EncryptResult.failure e.message) := by
  simp [encryptFile, consoleLog, generateDEK, SALT_SIZE, IV_SIZE, DEK_SIZE, KEK_SIZE,
    generateKEKFromPassword, validatePassword_ok password _ hPw, subtleImportKey, hBase,
    consoleError]

/-! ## Envelopes and the random stream -/

/-- Two envelopes with fields of the fixed widths are equal only if their fields are. -/
theorem envelope_fields_injective (salt1 ivKEK1 wrapped1 ivData1 ciphertext1 salt2 ivKEK2
    wrapped2 ivData2 ciphertext2 : List Byte)
    (hSalt1 : salt1.length = 16) (hIvKEK1 : ivKEK1.length = 12) (hWrapped1 : wrapped1.length = 48)
    (hIvData1 : ivData1.length = 12)
    (hSalt2 : salt2.length = 16) (hIvKEK2 : ivKEK2.length = 12) (hWrapped2 : wrapped2.length = 48)
    (hIvData2 : ivData2.length = 12)
    (h : salt1 ++ ivKEK1 ++ wrapped1 ++ ivData1 ++ ciphertext1 =
      salt2 ++ ivKEK2 ++ wrapped2 ++ ivData2 ++ ciphertext2) :
    salt1 = salt2 ∧ ivKEK1 = ivKEK2 ∧ wrapped1 = wrapped2 ∧ ivData1 = ivData2 ∧
      ciphertext1 = ciphertext2 := by
  have h1 := extractFields_eq salt1 ivKEK1 wrapped1 ivData1 ciphertext1 hSalt1 hIvKEK1 hWrapped1
    hIvData1
  have h2 := extractFields_eq salt2 ivKEK2 wrapped2 ivData2 ciphertext2 hSalt2 hIvKEK2 hWrapped2
    hIvData2
  rw [h, h2] at h1
  injection h1 with a b c d e
  exact ⟨a.symm, b.symm, c.symm, d.symm, e.symm⟩

/-- The result of `generateKEKFromPassword` for an accepted password whose import returns is
the outcome of the one `deriveBits` call. -/
theorem generateKEKFromPassword_result (wc : WebCrypto) (password : String) (salt : List Byte)
    (baseKey : CryptoKey) (w : World) (hPw : 12 ≤ jsLength password)
    (hBase : wc.importKey "raw" (textEncode password) "PBKDF2" false ["deriveBits"] =
      Except.ok baseKey) :
    (generateKEKFromPassword wc password salt w).1 =
      wc.deriveBits salt PBKDF2_ITERATIONS "SHA-256" baseKey 256 := by
  simp only [generateKEKFromPassword, bind_run, validatePassword_ok password w hPw,
    subtleImportKey, subtleDeriveBits, emit_run, ofExcept_run, hBase, KEK_SIZE, Nat.reduceMul,
    pure_run]
  cases wc.deriveBits salt PBKDF2_ITERATIONS "SHA-256" baseKey 256 <;> rfl

/-! ## Blobs of the earlier layouts -/

theorem v1_assembleEnvelope_eq (salt iv ciphertext : List Byte)
    (hSalt : salt.length = 16) (hIv : iv.length = 16) :
    FileEncryptor.assembleEnvelope salt iv ciphertext =
      Except.ok (salt ++ iv ++ ciphertext) := by
  have h1 := typedArraySet_fill [] salt (32 + ciphertext.length) 0 rfl (by omega)
  have h2 := typedArraySet_fill ([] ++ salt) iv (32 + ciphertext.length - salt.length) 16
    (by simp [hSalt]) (by omega)
  have h3 := typedArraySet_fill ([] ++ salt ++ iv) ciphertext
    (32 + ciphertext.length - salt.length - iv.length) 32 (by simp [hSalt, hIv]) (by omega)
  have hz : 32 + ciphertext.length - salt.length - iv.length - ciphertext.length = 0 := by
    omega
  rw [hz] at h3
  simp only [List.nil_append, List.replicate_zero, List.append_nil] at h1 h2 h3
  simp only [FileEncryptor.assembleEnvelope, newUint8Array, FileEncryptor.SALT_SIZE,
    FileEncryptor.IV_SIZE, bind, Except.bind, pure, Except.pure, Nat.reduceAdd]
  rw [h1]
  simp only []
  rw [h2]
  simp only []
  rw [h3]

theorem v2_assembleEnvelope_eq (salt ivKEK encryptedDEK ivData ciphertext : List Byte)
    (hSalt : salt.length = 16) (hIvKEK : ivKEK.length = 16)
    (hDEK : encryptedDEK.length = 48) (hIvData : ivData.length = 16) :
    FileEncryptorV2.assembleEnvelope salt ivKEK encryptedDEK ivData ciphertext =
      Except.ok (salt ++ ivKEK ++ encryptedDEK ++ ivData ++ ciphertext) := by
  have h1 := typedArraySet_fill [] salt (96 + ciphertext.length) 0 rfl (by omega)
  have h2 := typedArraySet_fill ([] ++ salt) ivKEK (96 + ciphertext.length - salt.length) 16
    (by simp [hSalt]) (by omega)
  have h3 := typedArraySet_fill ([] ++ salt ++ ivKEK) encryptedDEK
    (96 + ciphertext.length - salt.length - ivKEK.length) 32 (by simp [hSalt, hIvKEK])
    (by omega)
  have h4 := typedArraySet_fill ([] ++ salt ++ ivKEK ++ encryptedDEK) ivData
    (96 + ciphertext.length - salt.length - ivKEK.length - encryptedDEK.length) 80
    (by simp [hSalt, hIvKEK, hDEK]) (by omega)
  have h5 := typedArraySet_fill ([] ++ salt ++ ivKEK ++ encryptedDEK ++ ivData) ciphertext
    (96 + ciphertext.length - salt.length - ivKEK.length - encryptedDEK.length - ivData.length)
    96 (by simp [hSalt, hIvKEK, hDEK, hIvData]) (by omega)
  have hz : 96 + ciphertext.length - salt.length - ivKEK.length - encryptedDEK.length -
      ivData.length - ciphertext.length = 0 := by omega
  rw [hz] at h5
  simp only [List.nil_append, List.replicate_zero, List.append_nil] at h1 h2 h3 h4 h5
  simp only [FileEncryptorV2.assembleEnvelope, newUint8Array, FileEncryptorV2.SALT_SIZE,
    FileEncryptorV2.IV_SIZE, FileEncryptorV2.ENCRYPTED_DEK_SIZE, bind, Except.bind, pure,
    Except.pure, Nat.reduceAdd, Nat.zero_add]
  rw [h1]
  simp only []
  rw [h2]
  simp only []
  rw [h3]
  simp only []
  rw [h4]
  simp only []
  rw [h5]

/-- The fields the V3 decoder reads in a blob of the V2 layout. -/
theorem v2_misparse (salt ivKEK encryptedDEK ivData ciphertext : List Byte)
    (hSalt : salt.length = 16) (hIvKEK : ivKEK.length = 16)
    (hDEK : encryptedDEK.length = 48) (hIvData : ivData.length = 16) :
    extractFields (salt ++ ivKEK ++ encryptedDEK ++ ivData ++ ciphertext) =
      { salt := salt, ivKEK := ivKEK.take 12,
        encryptedDEK := ivKEK.drop 12 ++ encryptedDEK.take 44,
        ivData := encryptedDEK.drop 44 ++ ivData.take 8,
        ciphertext := ivData.drop 8 ++ ciphertext } := by
  have h := extractFields_eq salt (ivKEK.take 12) (ivKEK.drop 12 ++ encryptedDEK.take 44)
    (encryptedDEK.drop 44 ++ ivData.take 8) (ivData.drop 8 ++ ciphertext) hSalt
    (by simp [hIvKEK]) (by simp [hIvKEK, hDEK]) (by simp [hDEK, hIvData])
  rw [← h]
  congr 1
  simp only [List.append_assoc]
  rw [← List.append_assoc (List.take 12 ivKEK), List.take_append_drop,
    ← List.append_assoc (List.take 44 encryptedDEK), List.take_append_drop,
    ← List.append_assoc (List.take 8 ivData), List.take_append_drop]

/-- The fields the V3 decoder reads in a blob of the V1 layout of at least 104 bytes. -/
theorem v1_misparse (salt iv ciphertext : List Byte)
    (hSalt : salt.length = 16) (hIv : iv.length = 16) (hCt : 72 ≤ ciphertext.length) :
    extractFields (salt ++ iv ++ ciphertext) =
      { salt := salt, ivKEK := iv.take 12,
        encryptedDEK := iv.drop 12 ++ ciphertext.take 44,
        ivData := (ciphertext.drop 44).take 12,
        ciphertext := ciphertext.drop 56 } := by
  have h := extractFields_eq salt (iv.take 12) (iv.drop 12 ++ ciphertext.take 44)
    ((ciphertext.drop 44).take 12) (ciphertext.drop 56) hSalt
    (by simp [hIv]) (by simp [hIv]; omega) (by simp; omega)
  rw [← h]
  congr 1
  have e1 : List.drop 56 ciphertext = List.drop 12 (List.drop 44 ciphertext) := by
    rw [List.drop_drop]
  simp only [List.append_assoc]
  rw [e1, List.take_append_drop, List.take_append_drop,
    ← List.append_assoc (List.take 12 iv), List.take_append_drop]

/-- Past the size check, with an accepted password and primitives that work and report a
failed opening as an OperationError, `decryptFile` succeeds or returns the authentication
message. -/
theorem decryptFile_authOnly (wc : WebCrypto) (hc : Contract wc)
    (hOp : ∀ iv key c e, wc.decrypt iv 128 key c = Except.error e → e.name = "OperationError")
    (blob : List Byte) (password : String) (w : World) (h : 104 ≤ blob.length)
    (hPw : 12 ≤ jsLength password) :
    (∃ data size, (decryptFile wc blob password w).1 =
      Except.ok (DecryptResult.success data size)) ∨
    (decryptFile wc blob password w).1 =
      Except.ok (DecryptResult.failure wrongPasswordOrModifiedMessage) := by
  obtain ⟨kek, hDerive, hKekLen⟩ := hc.derive (textEncode password) (extractFields blob).salt
  have hBase := hc.importPbkdf2 (textEncode password)
  have hKek := hc.importAes kek "decrypt" hKekLen
  cases hUnwrap : wc.decrypt (extractFields blob).ivKEK 128 (aesKey kek "decrypt")
      (extractFields blob).encryptedDEK with
  | error e =>
    right
    rw [decryptFile_unwrapFails wc blob password w _ _ kek e h hPw hBase hDerive hKek hUnwrap]
  | ok dek =>
    by_cases hLen : dek.length = 32
    · have hDek := hc.importAes dek "decrypt" hLen
      cases hOpen : wc.decrypt (extractFields blob).ivData 128 (aesKey dek "decrypt")
          (extractFields blob).ciphertext with
      | error e =>
        right
        rw [decryptFile_openFails wc blob password w _ _ _ kek dek e h hPw hBase hDerive hKek
          hUnwrap hLen hDek hOpen (hOp _ _ _ _ hOpen)]
      | ok plaintext =>
        left
        rw [decryptFile_ok wc blob password w _ _ _ kek dek plaintext h hPw hBase hDerive hKek
          hUnwrap hLen hDek hOpen]
        exact ⟨_, _, rfl⟩
    · right
      rw [decryptFile_unwrapThrows wc blob password w _ kek _ _ h hPw hBase hDerive
        (fun w1 => decryptDEK_wrongSize wc _ _ _ dek _ w1 hKek hUnwrap hLen)]

/-! ## The first 76 bytes -/

/-- The salt, the first nonce and the wrapped DEK are read in the first 76 bytes. -/
theorem head_fields (blob : List Byte) :
    (extractFields blob).salt = (blob.take 76).take 16 ∧
    (extractFields blob).ivKEK = ((blob.take 76).drop 16).take 12 ∧
    (extractFields blob).encryptedDEK = ((blob.take 76).drop 28).take 48 := by
  refine ⟨?_, ?_, ?_⟩
  · simp [extractFields, slice, SALT_SIZE, List.take_take]
  · simp [extractFields, slice, SALT_SIZE, IV_SIZE, List.drop_take, List.take_take]
  · simp [extractFields, slice, SALT_SIZE, IV_SIZE, ENCRYPTED_DEK_SIZE, List.drop_take,
      List.take_take]

theorem head_fields_agree (blob1 blob2 : List Byte) (h : blob1.take 76 = blob2.take 76) :
    (extractFields blob2).salt = (extractFields blob1).salt ∧
    (extractFields blob2).ivKEK = (extractFields blob1).ivKEK ∧
    (extractFields blob2).encryptedDEK = (extractFields blob1).encryptedDEK := by
  obtain ⟨a1, b1, c1⟩ := head_fields blob1
  obtain ⟨a2, b2, c2⟩ := head_fields blob2
  rw [a1, b1, c1, a2, b2, c2, h]
  exact ⟨rfl, rfl, rfl⟩

theorem kekEvents_no_decrypt (password : String) :
    (kekEvents password).count (Event.decrypt 128) = 0 := by
  simp only [kekEvents, warningEvents]
  split <;> decide

theorem toyCrypto_removesTag : OpenRemovesTag toyCrypto := by
  intro iv key c m h
  simp only [toyCrypto] at h
  split at h
  next hc =>
    injection h with h
    rw [← h]
    simp only [List.length_take, AUTH_TAG_SIZE]
    omega
  next => cases h

theorem dekWrongSizeMessage_eq (actual : Nat) :
    dekWrongSizeMessage actual =
      "DEK має неправильний розмір: " ++ toString actual ++ " (очікувалось 32)" := by
  have h : " (очікувалось " ++ toString DEK_SIZE ++ ")" = " (очікувалось 32)" := by decide
  rw [← h]
  simp only [dekWrongSizeMessage, String.append_assoc]

/-! ## File names -/

theorem encrypted_suffix_length : (App.utf16 ".encrypted").length = 10 := by
  decide

/-- On a name that ends in the suffix, the decrypt handler returns the part before it. -/
theorem decryptedFileName_strip (stem : App.JsString) :
    App.decryptedFileName (stem ++ App.utf16 ".encrypted") = stem := by
  have hEnds : App.endsWith (stem ++ App.utf16 ".encrypted") (App.utf16 ".encrypted") = true := by
    simp only [App.endsWith, decide_eq_true_eq]
    exact List.suffix_append _ _
  have hStop : (((stem ++ App.utf16 ".encrypted").length : Int) + (-10)).toNat = stem.length := by
    rw [List.length_append, encrypted_suffix_length]
    omega
  simp only [App.decryptedFileName, hEnds, if_true, App.sliceTo]
  rw [if_pos (by decide), hStop]
  exact take_front stem _ _ rfl

/-! ## The instance over bytes meets the contracts -/

theorem sum_set (xs : List Nat) (j b : Nat) (hj : j < xs.length) :
    (xs.set j b).sum + xs.getD j 0 = xs.sum + b := by
  induction xs generalizing j with
  | nil => simp at hj
  | cons x xs ih =>
    cases j with
    | zero => simp; omega
    | succ j =>
      have h := ih j (by simpa using hj)
      simp only [List.set_cons_succ, List.sum_cons, List.getD_cons_succ]
      omega

theorem sum_set_mod (xs : List Nat) (j b : Nat) (hj : j < xs.length) (hb : b < 256)
    (hx : xs.getD j 0 < 256) (hne : b ≠ xs.getD j 0) :
    (xs.set j b).sum % 256 ≠ xs.sum % 256 := by
  have h := sum_set xs j b hj
  omega

theorem getD_lt (xs : List Nat) (j : Nat) (h : ∀ x ∈ xs, x < 256) : xs.getD j 0 < 256 := by
  by_cases hj : j < xs.length
  · rw [List.getD_eq_getElem _ _ hj]
    exact h _ (List.getElem_mem hj)
  · rw [List.getD_eq_default _ _ (Nat.le_of_not_lt hj)]
    decide

theorem byteTag_length (iv raw data : List Byte) : (byteTag iv raw data).length = 16 := by
  simp [byteTag]

theorem byteCrypto_contract : Contract byteCrypto where
  importPbkdf2 := fun _ => rfl
  importAes := fun _ _ _ => rfl
  derive := fun pw salt => by
    refine ⟨_, rfl, ?_⟩
    simp [pbkdf2Key]
  sealOk := fun iv raw m _ _ => by
    refine ⟨_, rfl, ?_⟩
    simp [aesKey, byteTag_length]
  openSeal := fun iv raw m c h => by
    simp only [byteCrypto, aesKey, Except.ok.injEq] at h
    subst h
    simp [byteCrypto, aesKey, byteTag_length]

theorem flatKdfCrypto_contract : Contract flatKdfCrypto where
  importPbkdf2 := fun _ => rfl
  importAes := fun _ _ _ => rfl
  derive := fun pw salt => by
    refine ⟨_, rfl, ?_⟩
    simp [pbkdf2Key]
  sealOk := fun iv raw m h1 h2 => byteCrypto_contract.sealOk iv raw m h1 h2
  openSeal := fun iv raw m c h => byteCrypto_contract.openSeal iv raw m c h

/-- The opening of the instance over bytes throws when the tag does not fit. -/
theorem byteCrypto_rejects (iv raw m tag : List Byte) (hTag : tag.length = 16)
    (h : tag ≠ byteTag iv raw m) :
    byteCrypto.decrypt iv 128 (aesKey raw "decrypt") (m ++ tag) =
      Except.error toyOperationError := by
  simp only [byteCrypto, aesKey]
  rw [if_neg]
  rintro ⟨-, hEq⟩
  simp only [List.length_append, hTag, Nat.add_sub_cancel] at hEq
  rw [drop_front _ _ _ rfl, take_front _ _ _ rfl] at hEq
  exact h hEq

theorem byteTag_nonce_ne (iv1 iv2 raw data : List Byte) (h : iv1.sum % 256 ≠ iv2.sum % 256) :
    byteTag iv1 raw data ≠ byteTag iv2 raw data := by
  intro hEq
  simp only [byteTag, List.cons_append, List.nil_append, List.cons.injEq] at hEq
  exact h hEq.1

theorem byteTag_key_ne (iv raw1 raw2 data : List Byte) (h : raw1.sum % 256 ≠ raw2.sum % 256) :
    byteTag iv raw1 data ≠ byteTag iv raw2 data := by
  intro hEq
  simp only [byteTag, List.cons_append, List.nil_append, List.cons.injEq] at hEq
  exact h hEq.2.1

theorem byteTag_text_ne (iv raw data1 data2 : List Byte)
    (h : data1.sum % 256 ≠ data2.sum % 256) :
    byteTag iv raw data1 ≠ byteTag iv raw data2 := by
  intro hEq
  simp only [byteTag, List.cons_append, List.nil_append, List.cons.injEq] at hEq
  exact h hEq.2.2.1

/-- Over bytes, the instance rejects one changed byte of a sealed text and one changed byte
of its nonce. -/
theorem byteCrypto_tamperEvident (iv raw m : List Byte) (hm : ∀ x ∈ m, x < 256)
    (hiv : ∀ x ∈ iv, x < 256) :
    TamperEvident byteCrypto raw iv (m ++ byteTag iv raw m) where
  text := fun j b hj hb hne => by
    refine ⟨toyOperationError, ?_, rfl⟩
    rcases set_append_cases m (byteTag iv raw m) j b hj hne with ⟨h1, h2, h3⟩ | ⟨-, h1, h2, h3⟩
    · rw [h3]
      have h4 : byteCrypto.decrypt iv 128 (aesKey raw "decrypt")
          (m.set j b ++ byteTag iv raw m) = Except.error toyOperationError :=
        byteCrypto_rejects iv raw (m.set j b) _ (byteTag_length _ _ _)
          (byteTag_text_ne iv raw _ _ (sum_set_mod m j b h1 hb (getD_lt m j hm) h2).symm)
      exact h4
    · rw [h3]
      exact byteCrypto_rejects iv raw m _ (by simp [byteTag_length])
        (set_ne_self _ _ b h1 h2)
  nonce := fun j b hj hb hne =>
    ⟨toyOperationError,
      byteCrypto_rejects (iv.set j b) raw m _ (byteTag_length _ _ _)
        (byteTag_nonce_ne _ _ raw m (sum_set_mod iv j b hj hb (getD_lt iv j hiv) hne).symm),
      rfl⟩

/-- Over bytes, the instance does not open a sealed text under a key with another check
sum. -/
theorem byteCrypto_rekey (iv raw1 raw2 m : List Byte) (h : raw2.sum % 256 ≠ raw1.sum % 256) :
    byteCrypto.decrypt iv 128 (aesKey raw2 "decrypt") (m ++ byteTag iv raw1 m) =
      Except.error toyOperationError :=
  byteCrypto_rejects iv raw2 m _ (byteTag_length _ _ _) (byteTag_key_ne iv raw1 raw2 m h.symm)

theorem drawn_world0_lt (offset n : Nat) : ∀ x ∈ drawn world0 offset n, x < 256 := by
  intro x hx
  simp only [drawn, world0, List.mem_map] at hx
  obtain ⟨i, -, rfl⟩ := hx
  exact Nat.mod_lt _ (by decide)

theorem helloWorld_lt : ∀ x ∈ helloWorld, x < 256 := by
  decide

theorem byteCrypto_kdf_sum (salt pw kek : List Nat) (hLen : salt.length = 16)
    (h : byteCrypto.deriveBits salt PBKDF2_ITERATIONS "SHA-256" (pbkdf2Key pw) 256 =
      Except.ok kek) :
    kek.sum = salt.sum + pw.sum % 256 := by
  rw [← Except.ok.inj h, take_front salt _ 16 hLen.symm]
  simp [pbkdf2Key]

/-- Over bytes, the instance derives keys with different check sums from two salts that
differ in one byte. -/
theorem byteCrypto_resalt (salt pw : List Nat) (i b : Nat) (kek kek2 : List Nat)
    (hLen : salt.length = 16) (hi : i < 16) (hb : b < 256) (hx : ∀ x ∈ salt, x < 256)
    (hne : b ≠ salt.getD i 0)
    (h1 : byteCrypto.deriveBits salt PBKDF2_ITERATIONS "SHA-256" (pbkdf2Key pw) 256 =
      Except.ok kek)
    (h2 : byteCrypto.deriveBits (salt.set i b) PBKDF2_ITERATIONS "SHA-256" (pbkdf2Key pw) 256 =
      Except.ok kek2) :
    kek2.sum % 256 ≠ kek.sum % 256 := by
  rw [byteCrypto_kdf_sum salt pw kek hLen h1,
    byteCrypto_kdf_sum (salt.set i b) pw kek2 (by simp [hLen]) h2]
  have h := sum_set_mod salt i b (by rw [hLen]; exact hi) hb (getD_lt salt i hx) hne
  omega

/-- Over primitives that work, `decryptFile` opens the wrapped DEK of a blob under the key
derived from the password and the salt of the blob, and what it returns follows from this
opening and from the opening of the ciphertext under the DEK. -/
theorem decryptFile_opens (wc : WebCrypto) (hc : Contract wc) (blob : List Byte)
    (password : String) (w : World) (kek : List Byte) (h : 104 ≤ blob.length)
    (hPw : 12 ≤ jsLength password)
    (hDerive : wc.deriveBits (extractFields blob).salt PBKDF2_ITERATIONS "SHA-256"
      (pbkdf2Key (textEncode password)) 256 = Except.ok kek) :
    (∀ e, wc.decrypt (extractFields blob).ivKEK 128 (aesKey kek "decrypt")
        (extractFields blob).encryptedDEK = Except.error e →
      (decryptFile wc blob password w).1 =
        Except.ok (DecryptResult.failure wrongPasswordOrModifiedMessage)) ∧
    (∀ dek, wc.decrypt (extractFields blob).ivKEK 128 (aesKey kek "decrypt")
        (extractFields blob).encryptedDEK = Except.ok dek → dek.length ≠ 32 →
      (decryptFile wc blob password w).1 =
        Except.ok (DecryptResult.failure wrongPasswordOrModifiedMessage)) ∧
    (∀ dek e, wc.decrypt (extractFields blob).ivKEK 128 (aesKey kek "decrypt")
        (extractFields blob).encryptedDEK = Except.ok dek → dek.length = 32 →
      wc.decrypt (extractFields blob).ivData 128 (aesKey dek "decrypt")
        (extractFields blob).ciphertext = Except.error e →
      (decryptFile wc blob password w).1 =
        Except.ok (DecryptResult.failure (surfacedMessage e))) ∧
    (∀ dek data, wc.decrypt (extractFields blob).ivKEK 128 (aesKey kek "decrypt")
        (extractFields blob).encryptedDEK = Except.ok dek → dek.length = 32 →
      wc.decrypt (extractFields blob).ivData 128 (aesKey dek "decrypt")
        (extractFields blob).ciphertext = Except.ok data →
      (decryptFile wc blob password w).1 =
        Except.ok (DecryptResult.success data data.length)) := by
  obtain ⟨kek1, hDerive1, hKekLen1⟩ := hc.derive (textEncode password) (extractFields blob).salt
  have hKekLen : kek.length = 32 := by
    rw [← Except.ok.inj (hDerive1.symm.trans hDerive)]
    exact hKekLen1
  have hBase := hc.importPbkdf2 (textEncode password)
  have hKek := hc.importAes kek "decrypt" hKekLen
  refine ⟨fun e hUnwrap => ?_, fun dek hUnwrap hLen => ?_, fun dek e hUnwrap hLen hOpen => ?_,
    fun dek data hUnwrap hLen hOpen => ?_⟩
  · rw [decryptFile_unwrapFails wc blob password w _ _ kek e h hPw hBase hDerive hKek hUnwrap]
  · rw [decryptFile_unwrapThrows wc blob password w _ kek _ _ h hPw hBase hDerive
      (fun w1 => decryptDEK_wrongSize wc _ _ _ dek _ w1 hKek hUnwrap hLen)]
  · exact decryptFile_payloadThrows wc blob password w _ _ _ kek dek e h hPw hBase hDerive hKek
      hUnwrap hLen (hc.importAes dek "decrypt" hLen) hOpen
  · rw [decryptFile_ok wc blob password w _ _ _ kek dek data h hPw hBase hDerive hKek
      hUnwrap hLen (hc.importAes dek "decrypt" hLen) hOpen]

/-- Over primitives that work, a success of `decryptFile` is the outcome of the two openings,
the first under the key derived from the password and the salt of the blob. -/
theorem decryptFile_success_opened (wc : WebCrypto) (hc : Contract wc) (blob : List Byte)
    (password : String) (w : World) (data : List Byte) (size : Nat)
    (hPw : 12 ≤ jsLength password)
    (h : (decryptFile wc blob password w).1 = Except.ok (DecryptResult.success data size)) :
    104 ≤ blob.length ∧
    ∃ kek dek,
      wc.deriveBits (extractFields blob).salt PBKDF2_ITERATIONS "SHA-256"
        (pbkdf2Key (textEncode password)) 256 = Except.ok kek ∧
      wc.decrypt (extractFields blob).ivKEK 128 (aesKey kek "decrypt")
        (extractFields blob).encryptedDEK = Except.ok dek ∧
      dek.length = 32 ∧
      wc.decrypt (extractFields blob).ivData 128 (aesKey dek "decrypt")
        (extractFields blob).ciphertext = Except.ok data ∧
      size = data.length := by
  by_cases hSmall : blob.length < 104
  · rw [decryptFile_small wc blob password w hSmall] at h
    injection h with h
    cases h
  have hLen : 104 ≤ blob.length := Nat.le_of_not_lt hSmall
  obtain ⟨kek, hDerive, -⟩ := hc.derive (textEncode password) (extractFields blob).salt
  obtain ⟨h1, h2, h3, h4⟩ := decryptFile_opens wc hc blob password w kek hLen hPw hDerive
  refine ⟨hLen, kek, ?_⟩
  cases hUnwrap : wc.decrypt (extractFields blob).ivKEK 128 (aesKey kek "decrypt")
      (extractFields blob).encryptedDEK with
  | error e =>
    rw [h1 e hUnwrap] at h
    injection h with h
    cases h
  | ok dek =>
    by_cases hDekLen : dek.length = 32
    · cases hOpen : wc.decrypt (extractFields blob).ivData 128 (aesKey dek "decrypt")
          (extractFields blob).ciphertext with
      | error e =>
        rw [h3 dek e hUnwrap hDekLen hOpen] at h
        injection h with h
        cases h
      | ok plaintext =>
        rw [h4 dek plaintext hUnwrap hDekLen hOpen] at h
        injection h with h
        injection h with hData hSize
        subst hData
        exact ⟨dek, hDerive, rfl, hDekLen, hOpen, hSize.symm⟩
    · rw [h2 dek hUnwrap hDekLen] at h
      injection h with h
      cases h

/-! ## The claims -/

/-- C1 (round trip): over primitives that work (raw keys import, the KDF returns 32 bytes,
sealing adds a 16-byte tag, opening undoes sealing), for every plaintext, every password of
length at least 12 and every state of the random source, `encryptFile` succeeds, and
`decryptFile` on the returned data with the same password succeeds and returns the
plaintext with `size` equal to its length. -/
theorem C1_round_trip (wc : WebCrypto) (hc : Contract wc) (fileData : List Byte)
    (password : String) (hPw : 12 ≤ jsLength password) (w w2 : World) :
    ∃ envelope encryptedSize totalSize headerSize,
      (encryptFile wc fileData password w).1 =
        Except.ok (EncryptResult.success envelope fileData.length encryptedSize totalSize
          headerSize) ∧
      (decryptFile wc envelope password w2).1 =
        Except.ok (DecryptResult.success fileData fileData.length) := by
  obtain ⟨kek, wrapped, ciphertext, hs⟩ := sealed_exists wc hc fileData password w
  refine ⟨saltOf w ++ ivKEKOf w ++ wrapped ++ ivDataOf w ++ ciphertext, ciphertext.length,
    88 + ciphertext.length, 88, ?_, ?_⟩
  · rw [encryptFile_sealed wc hc fileData password w kek wrapped ciphertext hPw hs]
  · exact decryptFile_fields_ok wc hc password w2 (saltOf w) (ivKEKOf w) wrapped (ivDataOf w)
      ciphertext kek (dekOf w) fileData hPw (by simp [saltOf]) (by simp [ivKEKOf])
      hs.wrappedLength (by simp [ivDataOf]) (by rw [hs.ciphertextLength]; omega) hs.derive
      hs.kekLength (hc.openSeal _ _ _ _ hs.wrap) (by simp [dekOf])
      (hc.openSeal _ _ _ _ hs.payload)

/-- C1 at the scenario of the specification: the 13 bytes of Hello, World! under the
password Str0ngP@ssw0rd123, over the small instance. -/
theorem C1_round_trip_witness :
    12 ≤ jsLength "Str0ngP@ssw0rd123" ∧
    ∃ envelope encryptedSize totalSize headerSize,
      (encryptFile toyCrypto helloWorld "Str0ngP@ssw0rd123" world0).1 =
        Except.ok (EncryptResult.success envelope helloWorld.length encryptedSize totalSize
          headerSize) ∧
      (decryptFile toyCrypto envelope "Str0ngP@ssw0rd123" world0).1 =
        Except.ok (DecryptResult.success helloWorld helloWorld.length) :=
  ⟨by decide, C1_round_trip toyCrypto toyCrypto_contract helloWorld "Str0ngP@ssw0rd123"
    (by decide) world0 world0⟩

/-- C2 as stated fails for the 16 bytes of the salt: the claim assumes nothing of the key
derivation. The instance whose key derivation does not read the salt meets the contract of
working primitives, and at the scenario of the specification its AEAD rejects one changed
byte of the wrapped DEK, of the ciphertext and of their nonces. The envelope it returns
starts with the salt byte 0; with that byte changed to 255, `decryptFile` with the same
password derives the same key, opens the unchanged wrapped DEK and the unchanged ciphertext
under their own keys and nonces, and returns the success with the plaintext, not a
failure. -/
theorem C2_changed_salt_counterexample :
    Contract flatKdfCrypto ∧
    ∃ kek wrapped ciphertext envelope encryptedSize totalSize headerSize,
      Sealed flatKdfCrypto helloWorld "Str0ngP@ssw0rd123" world0 kek wrapped ciphertext ∧
      TamperEvident flatKdfCrypto kek (ivKEKOf world0) wrapped ∧
      TamperEvident flatKdfCrypto (dekOf world0) (ivDataOf world0) ciphertext ∧
      envelope = saltOf world0 ++ ivKEKOf world0 ++ wrapped ++ ivDataOf world0 ++ ciphertext ∧
      (encryptFile flatKdfCrypto helloWorld "Str0ngP@ssw0rd123" world0).1 =
        Except.ok (EncryptResult.success envelope 13 encryptedSize totalSize headerSize) ∧
      0 < envelope.length ∧ envelope.getD 0 0 = 0 ∧
      (decryptFile flatKdfCrypto (envelope.set 0 255) "Str0ngP@ssw0rd123" world0).1 =
        Except.ok (DecryptResult.success helloWorld 13) := by
  obtain ⟨kek, wrapped, ciphertext, hs⟩ :=
    sealed_exists flatKdfCrypto flatKdfCrypto_contract helloWorld "Str0ngP@ssw0rd123" world0
  have hEnc := encryptFile_sealed flatKdfCrypto flatKdfCrypto_contract helloWorld
    "Str0ngP@ssw0rd123" world0 kek wrapped ciphertext (by decide) hs
  have hDec := decryptFile_fields_ok flatKdfCrypto flatKdfCrypto_contract "Str0ngP@ssw0rd123"
    world0 ((saltOf world0).set 0 255) (ivKEKOf world0) wrapped (ivDataOf world0) ciphertext
    kek (dekOf world0) helloWorld (by decide) (by simp [saltOf]) (by simp [ivKEKOf])
    hs.wrappedLength (by simp [ivDataOf]) (by rw [hs.ciphertextLength]; omega) hs.derive
    hs.kekLength (flatKdfCrypto_contract.openSeal _ _ _ _ hs.wrap) (by simp [dekOf])
    (flatKdfCrypto_contract.openSeal _ _ _ _ hs.payload)
  have hSet : (saltOf world0 ++ ivKEKOf world0 ++ wrapped ++ ivDataOf world0 ++ ciphertext).set
      0 255 =
      (saltOf world0).set 0 255 ++ ivKEKOf world0 ++ wrapped ++ ivDataOf world0 ++ ciphertext :=
    rfl
  have hWrap : wrapped = dekOf world0 ++ byteTag (ivKEKOf world0) kek (dekOf world0) :=
    (Except.ok.inj hs.wrap).symm
  have hSeal : ciphertext = helloWorld ++ byteTag (ivDataOf world0) (dekOf world0) helloWorld :=
    (Except.ok.inj hs.payload).symm
  have hWrapped : TamperEvident byteCrypto kek (ivKEKOf world0) wrapped := by
    rw [hWrap]
    exact byteCrypto_tamperEvident _ _ _ (drawn_world0_lt _ _) (drawn_world0_lt _ _)
  have hPayload : TamperEvident byteCrypto (dekOf world0) (ivDataOf world0) ciphertext := by
    rw [hSeal]
    exact byteCrypto_tamperEvident _ _ _ helloWorld_lt (drawn_world0_lt _ _)
  refine ⟨flatKdfCrypto_contract, kek, wrapped, ciphertext, _, _, _, _, hs,
    ⟨hWrapped.text, hWrapped.nonce⟩, ⟨hPayload.text, hPayload.nonce⟩, rfl,
    by rw [hEnc]; rfl, by simp [saltOf], rfl, ?_⟩
  rw [hSet, hDec]
  rfl

/-- C2 (tamper detection), amended: over primitives that work, for the envelope that
`encryptFile` returns, whose wrapped DEK and ciphertext the AEAD protects against one changed
byte of the sealed text or of its nonce, and for every index inside the envelope and every
other byte value: when the index is 16 or more (the two nonces, the wrapped DEK, the
ciphertext with its tag), `decryptFile` with the same password returns the failure with the
authentication message; when the index is below 16 (the salt), `decryptFile` derives a key
from the changed salt, returns the success with the plaintext itself when this is the key of
the encryption, and returns the failure with the authentication message when it is
another key and the AEAD does not open the wrapped DEK under it. -/
theorem C2_tamper_detection (wc : WebCrypto) (hc : Contract wc)
    (fileData : List Byte) (password : String) (hPw : 12 ≤ jsLength password)
    (w w2 : World) (kek wrapped ciphertext : List Byte)
    (hs : Sealed wc fileData password w kek wrapped ciphertext)
    (hWrapped : TamperEvident wc kek (ivKEKOf w) wrapped)
    (hPayload : TamperEvident wc (dekOf w) (ivDataOf w) ciphertext) :
    ∃ envelope,
      envelope = saltOf w ++ ivKEKOf w ++ wrapped ++ ivDataOf w ++ ciphertext ∧
      (encryptFile wc fileData password w).1 =
        Except.ok (EncryptResult.success envelope fileData.length ciphertext.length
          (88 + ciphertext.length) 88) ∧
      ∀ i b, i < envelope.length → b < 256 → b ≠ envelope.getD i 0 →
        (SALT_SIZE ≤ i →
          (decryptFile wc (envelope.set i b) password w2).1 =
            Except.ok (DecryptResult.failure wrongPasswordOrModifiedMessage)) ∧
        (i < SALT_SIZE →
          ∃ kek2,
            wc.deriveBits ((saltOf w).set i b) PBKDF2_ITERATIONS "SHA-256"
              (pbkdf2Key (textEncode password)) 256 = Except.ok kek2 ∧
            (kek2 = kek →
              (decryptFile wc (envelope.set i b) password w2).1 =
                Except.ok (DecryptResult.success fileData fileData.length)) ∧
            (kek2 ≠ kek →
              (∃ e, wc.decrypt (ivKEKOf w) 128 (aesKey kek2 "decrypt") wrapped =
                Except.error e) →
              (decryptFile wc (envelope.set i b) password w2).1 =
                Except.ok (DecryptResult.failure wrongPasswordOrModifiedMessage))) := by
  refine ⟨_, rfl, ?_, ?_⟩
  · rw [encryptFile_sealed wc hc fileData password w kek wrapped ciphertext hPw hs]
  intro i b hi hb256 hb
  have hSalt : (saltOf w).length = 16 := by simp [saltOf]
  have hIvKEK : (ivKEKOf w).length = 12 := by simp [ivKEKOf]
  have hIvData : (ivDataOf w).length = 12 := by simp [ivDataOf]
  have hDek : (dekOf w).length = 32 := by simp [dekOf]
  have hCt : 16 ≤ ciphertext.length := by rw [hs.ciphertextLength]; omega
  have hUnwrap := hc.openSeal _ _ _ _ hs.wrap
  have hOpen := hc.openSeal _ _ _ _ hs.payload
  by_cases hlt : i < 16
  · refine ⟨fun h => ?_, fun _ => ?_⟩
    · simp only [SALT_SIZE] at h
      omega
    have e : (saltOf w ++ ivKEKOf w ++ wrapped ++ ivDataOf w ++ ciphertext).set i b =
        (saltOf w).set i b ++ ivKEKOf w ++ wrapped ++ ivDataOf w ++ ciphertext := by
      simp only [List.append_assoc]
      exact List.set_append_left _ _ (by rw [hSalt]; exact hlt)
    rw [e]
    obtain ⟨kek2, hDerive2, hLen2⟩ := hc.derive (textEncode password) ((saltOf w).set i b)
    refine ⟨kek2, hDerive2, fun hEq => ?_, fun _ hErr => ?_⟩
    · rw [hEq] at hDerive2
      exact decryptFile_fields_ok wc hc password w2 ((saltOf w).set i b) (ivKEKOf w)
        wrapped (ivDataOf w) ciphertext kek (dekOf w) fileData hPw (by simp [hSalt]) hIvKEK
        hs.wrappedLength hIvData hCt hDerive2 hs.kekLength hUnwrap hDek hOpen
    · obtain ⟨err, hErr⟩ := hErr
      exact decryptFile_fields_unwrapFails wc hc password w2 _ _ _ _ _ kek2 err hPw
        (by simp [hSalt]) hIvKEK hs.wrappedLength hIvData hCt hDerive2 hLen2 hErr
  · refine ⟨fun _ => ?_, fun h => ?_⟩
    swap
    · simp only [SALT_SIZE] at h
      exact absurd h hlt
    rcases tampered_fields _ _ _ _ _ i b hi hb with
      ⟨hj, -, -⟩ | ⟨j, hj, hbj, e⟩ | ⟨j, hj, hbj, e⟩ | ⟨j, hj, hbj, e⟩ | ⟨j, hj, hbj, e⟩
    · rw [hSalt] at hj
      exact absurd hj hlt
    · rw [e]
      obtain ⟨err, hErr, -⟩ := hWrapped.nonce j b hj hb256 hbj
      exact decryptFile_fields_unwrapFails wc hc password w2 _ _ _ _ _ kek err hPw
        hSalt (by simp [hIvKEK]) hs.wrappedLength hIvData hCt hs.derive hs.kekLength hErr
    · rw [e]
      obtain ⟨err, hErr, -⟩ := hWrapped.text j b hj hb256 hbj
      exact decryptFile_fields_unwrapFails wc hc password w2 _ _ _ _ _ kek err hPw
        hSalt hIvKEK (by simp [hs.wrappedLength]) hIvData hCt hs.derive hs.kekLength hErr
    · rw [e]
      obtain ⟨err, hErr, hName⟩ := hPayload.nonce j b hj hb256 hbj
      exact decryptFile_fields_openFails wc hc password w2 _ _ _ _ _ kek (dekOf w) err
        hPw hSalt hIvKEK hs.wrappedLength (by simp [hIvData]) hCt hs.derive hs.kekLength hUnwrap
        hDek hErr hName
    · rw [e]
      obtain ⟨err, hErr, hName⟩ := hPayload.text j b hj hb256 hbj
      exact decryptFile_fields_openFails wc hc password w2 _ _ _ _ _ kek (dekOf w) err
        hPw hSalt hIvKEK hs.wrappedLength hIvData (by simpa using hCt) hs.derive hs.kekLength
        hUnwrap hDek hErr hName

/-- C2 amended, at the scenario of the specification over the instance over bytes, whose
check sums reject one changed byte and whose key derivation copies the salt into the key:
every byte of the envelope changed to any other byte value gives the failure with the
authentication message. -/
theorem C2_tamper_detection_witness :
    12 ≤ jsLength "Str0ngP@ssw0rd123" ∧
    ∃ envelope encryptedSize totalSize headerSize,
      (encryptFile byteCrypto helloWorld "Str0ngP@ssw0rd123" world0).1 =
        Except.ok (EncryptResult.success envelope helloWorld.length encryptedSize totalSize
          headerSize) ∧
      ∀ i b, i < envelope.length → b < 256 → b ≠ envelope.getD i 0 →
        (decryptFile byteCrypto (envelope.set i b) "Str0ngP@ssw0rd123" world0).1 =
          Except.ok (DecryptResult.failure wrongPasswordOrModifiedMessage) := by
  have hs : Sealed byteCrypto helloWorld "Str0ngP@ssw0rd123" world0 byteKek byteWrapped
      byteCiphertext := ⟨rfl, rfl, rfl, rfl, rfl, rfl⟩
  obtain ⟨envelope, hEnv, hEnc, hAll⟩ :=
    C2_tamper_detection byteCrypto byteCrypto_contract helloWorld "Str0ngP@ssw0rd123"
      (by decide) world0 world0 byteKek byteWrapped byteCiphertext hs
      (byteCrypto_tamperEvident _ _ _ (drawn_world0_lt _ _) (drawn_world0_lt _ _))
      (byteCrypto_tamperEvident _ _ _ helloWorld_lt (drawn_world0_lt _ _))
  refine ⟨by decide, envelope, _, _, _, hEnc, fun i b hi hb256 hb => ?_⟩
  by_cases hlt : i < 16
  · obtain ⟨kek2, hDerive2, -, hDiff⟩ := (hAll i b hi hb256 hb).2 hlt
    have hSalt : (saltOf world0).length = 16 := by simp [saltOf]
    have hb2 : b ≠ (saltOf world0).getD i 0 := by
      rw [hEnv] at hb
      simp only [List.append_assoc] at hb
      rwa [List.getD_append _ _ _ _ (by rw [hSalt]; exact hlt)] at hb
    have hSum := byteCrypto_resalt (saltOf world0) (textEncode "Str0ngP@ssw0rd123") i b byteKek
      kek2 hSalt hlt hb256 (drawn_world0_lt _ _) hb2 hs.derive hDerive2
    exact hDiff (fun h => hSum (by rw [h])) ⟨toyOperationError, byteCrypto_rekey _ _ _ _ hSum⟩
  · exact (hAll i b hi hb256 hb).1 (Nat.le_of_not_lt hlt)

/-- C3 as stated fails in two ways, shown on the envelope of the scenario of the
specification over the small instance. With the password short, which has fewer than 12
characters, `decryptFile` returns the length-policy message, which is not the
authentication message. With the password Str0ngP@ssw0rd132, which differs from the
password of the encryption and from which the small instance derives the same key,
`decryptFile` returns the success with the plaintext: a different password is rejected
only when the key derived from it differs. -/
theorem C3_wrong_password_counterexample :
    ∃ envelope encryptedSize totalSize headerSize,
      (encryptFile toyCrypto helloWorld "Str0ngP@ssw0rd123" world0).1 =
        Except.ok (EncryptResult.success envelope 13 encryptedSize totalSize headerSize) ∧
      (decryptFile toyCrypto envelope "short" world0).1 =
        Except.ok (DecryptResult.failure "Пароль повинен містити мінімум 12 символів") ∧
      (decryptFile toyCrypto envelope "short" world0).1 ≠
        Except.ok (DecryptResult.failure wrongPasswordOrModifiedMessage) ∧
      "Str0ngP@ssw0rd132" ≠ "Str0ngP@ssw0rd123" ∧
      (decryptFile toyCrypto envelope "Str0ngP@ssw0rd132" world0).1 =
        Except.ok (DecryptResult.success helloWorld 13) := by
  obtain ⟨kek, wrapped, ciphertext, hs⟩ :=
    sealed_exists toyCrypto toyCrypto_contract helloWorld "Str0ngP@ssw0rd123" world0
  have hEnc := encryptFile_sealed toyCrypto toyCrypto_contract helloWorld "Str0ngP@ssw0rd123"
    world0 kek wrapped ciphertext (by decide) hs
  have hDec := decryptFile_shortPassword toyCrypto
    (saltOf world0 ++ ivKEKOf world0 ++ wrapped ++ ivDataOf world0 ++ ciphertext) "short" world0
    (by simp [saltOf, ivKEKOf, ivDataOf, hs.wrappedLength, hs.ciphertextLength]; omega)
    (by decide)
  have hSame : toyCrypto.deriveBits (saltOf world0) PBKDF2_ITERATIONS "SHA-256"
      (pbkdf2Key (textEncode "Str0ngP@ssw0rd132")) 256 = Except.ok kek := by
    rw [← hs.derive]
    rfl
  have hDec2 := decryptFile_fields_ok toyCrypto toyCrypto_contract "Str0ngP@ssw0rd132"
    world0 (saltOf world0) (ivKEKOf world0) wrapped (ivDataOf world0) ciphertext
    kek (dekOf world0) helloWorld (by decide) (by simp [saltOf]) (by simp [ivKEKOf])
    hs.wrappedLength (by simp [ivDataOf]) (by rw [hs.ciphertextLength]; omega) hSame
    hs.kekLength (toyCrypto_contract.openSeal _ _ _ _ hs.wrap) (by simp [dekOf])
    (toyCrypto_contract.openSeal _ _ _ _ hs.payload)
  refine ⟨_, _, _, _, by rw [hEnc]; rfl, by rw [hDec]; rfl, ?_, by decide, by rw [hDec2]; rfl⟩
  rw [hDec]
  intro h
  injection h with h
  injection h with h
  exact absurd h (by decide)

/-- C3 (wrong password), amended: over primitives that work, for every plaintext and every
password `w1` of length at least 12, `encryptFile` returns an envelope whose wrapped DEK is
the DEK sealed under the key derived from `w1` and the salt, and for every password `w2`,
`decryptFile` on this envelope with `w2` returns: the failure with the length-policy message
when `w2` is shorter than 12; otherwise, with the key derived from `w2` and the stored salt,
the failure with the authentication message when this key differs from the key of the
encryption and the AEAD does not open the wrapped DEK under it, and the success with the
plaintext when it is the key of the encryption. -/
theorem C3_wrong_password (wc : WebCrypto) (hc : Contract wc) (fileData : List Byte)
    (w1 : String) (hPw : 12 ≤ jsLength w1) (w : World) :
    ∃ envelope kek wrapped encryptedSize totalSize headerSize,
      (encryptFile wc fileData w1 w).1 =
        Except.ok (EncryptResult.success envelope fileData.length encryptedSize totalSize
          headerSize) ∧
      wc.deriveBits (saltOf w) PBKDF2_ITERATIONS "SHA-256" (pbkdf2Key (textEncode w1)) 256 =
        Except.ok kek ∧
      wc.encrypt (ivKEKOf w) 128 (aesKey kek "encrypt") (dekOf w) = Except.ok wrapped ∧
      (extractFields envelope).salt = saltOf w ∧
      (extractFields envelope).ivKEK = ivKEKOf w ∧
      (extractFields envelope).encryptedDEK = wrapped ∧
      ∀ (w2 : String) (world2 : World),
        (jsLength w2 < 12 →
          (decryptFile wc envelope w2 world2).1 =
            Except.ok (DecryptResult.failure passwordTooShortMessage)) ∧
        (12 ≤ jsLength w2 →
          ∃ kek2,
            wc.deriveBits (saltOf w) PBKDF2_ITERATIONS "SHA-256" (pbkdf2Key (textEncode w2))
              256 = Except.ok kek2 ∧
            (kek2 ≠ kek →
              (∃ e, wc.decrypt (ivKEKOf w) 128 (aesKey kek2 "decrypt") wrapped =
                Except.error e) →
              (decryptFile wc envelope w2 world2).1 =
                Except.ok (DecryptResult.failure wrongPasswordOrModifiedMessage)) ∧
            (kek2 = kek →
              (decryptFile wc envelope w2 world2).1 =
                Except.ok (DecryptResult.success fileData fileData.length))) := by
  obtain ⟨kek, wrapped, ciphertext, hs⟩ := sealed_exists wc hc fileData w1 w
  have hSalt : (saltOf w).length = 16 := by simp [saltOf]
  have hIvKEK : (ivKEKOf w).length = 12 := by simp [ivKEKOf]
  have hIvData : (ivDataOf w).length = 12 := by simp [ivDataOf]
  have hCt : 16 ≤ ciphertext.length := by rw [hs.ciphertextLength]; omega
  have hf := extractFields_eq (saltOf w) (ivKEKOf w) wrapped (ivDataOf w) ciphertext
    hSalt hIvKEK hs.wrappedLength hIvData
  refine ⟨saltOf w ++ ivKEKOf w ++ wrapped ++ ivDataOf w ++ ciphertext, kek, wrapped,
    ciphertext.length, 88 + ciphertext.length, 88, ?_, hs.derive, hs.wrap, by rw [hf],
    by rw [hf], by rw [hf], fun w2 world2 => ⟨fun hPw2 => ?_, fun hPw2 => ?_⟩⟩
  · rw [encryptFile_sealed wc hc fileData w1 w kek wrapped ciphertext hPw hs]
  · rw [decryptFile_shortPassword wc _ w2 world2
      (by simp [hSalt, hIvKEK, hIvData, hs.wrappedLength]; omega) hPw2]
  · obtain ⟨kek2, hDerive2, hLen2⟩ := hc.derive (textEncode w2) (saltOf w)
    refine ⟨kek2, hDerive2, fun _ hErr => ?_, fun hEq => ?_⟩
    · obtain ⟨err, hErr⟩ := hErr
      exact decryptFile_fields_unwrapFails wc hc w2 world2 _ _ _ _ _ kek2 err hPw2
        hSalt hIvKEK hs.wrappedLength hIvData hCt hDerive2 hLen2 hErr
    · rw [hEq] at hDerive2
      exact decryptFile_fields_ok wc hc w2 world2 (saltOf w) (ivKEKOf w) wrapped (ivDataOf w)
        ciphertext kek (dekOf w) fileData hPw2 hSalt hIvKEK hs.wrappedLength hIvData hCt
        hDerive2 hs.kekLength (hc.openSeal _ _ _ _ hs.wrap) (by simp [dekOf])
        (hc.openSeal _ _ _ _ hs.payload)

/-- C3 amended, at the scenario of the specification over the instance over bytes: the
password wrong-password, which has 14 characters and derives a key with another check sum,
gives the authentication message, and the password short gives the length-policy
message. -/
theorem C3_wrong_password_witness :
    12 ≤ jsLength "Str0ngP@ssw0rd123" ∧
    ∃ envelope encryptedSize totalSize headerSize,
      (encryptFile byteCrypto helloWorld "Str0ngP@ssw0rd123" world0).1 =
        Except.ok (EncryptResult.success envelope helloWorld.length encryptedSize totalSize
          headerSize) ∧
      (decryptFile byteCrypto envelope "wrong-password" world0).1 =
        Except.ok (DecryptResult.failure wrongPasswordOrModifiedMessage) ∧
      (decryptFile byteCrypto envelope "short" world0).1 =
        Except.ok (DecryptResult.failure passwordTooShortMessage) := by
  obtain ⟨envelope, kek, wrapped, encryptedSize, totalSize, headerSize, hEnc, hDerive, hWrap,
      -, -, -, hAll⟩ :=
    C3_wrong_password byteCrypto byteCrypto_contract helloWorld "Str0ngP@ssw0rd123"
      (by decide) world0
  refine ⟨by decide, envelope, encryptedSize, totalSize, headerSize, hEnc, ?_,
    (hAll "short" world0).1 (by decide)⟩
  obtain ⟨kek2, hDerive2, hDiff, -⟩ := (hAll "wrong-password" world0).2 (by decide)
  have hSum : kek2.sum % 256 ≠ kek.sum % 256 := by
    rw [← Except.ok.inj hDerive, ← Except.ok.inj hDerive2]
    decide
  refine hDiff (fun h => hSum (by rw [h])) ⟨toyOperationError, ?_⟩
  rw [← Except.ok.inj hWrap]
  exact byteCrypto_rekey _ _ _ _ hSum

/-- C4 (minimum size): the minimum is 16 + 12 + 48 + 12 + 16 = 104; for every blob shorter
than 104 bytes and every password, over any primitives, `decryptFile` returns the failure
with the file-too-small message and the world afterwards differs only by the one
`console.error` record, so no password check, key derivation, key import or AEAD call
was made; for every blob of at least 104 bytes, so also of exactly 104, the run passes the
check and writes the format line. -/
theorem C4_minimum_size (wc : WebCrypto) (blob : List Byte) (password : String) (w : World) :
    SALT_SIZE + IV_SIZE + ENCRYPTED_DEK_SIZE + IV_SIZE + AUTH_TAG_SIZE = 104 ∧
    (blob.length < 104 →
      decryptFile wc blob password w =
        (Except.ok (DecryptResult.failure "Неправильний формат файлу (файл занадто малий)"),
          { w with trace := w.trace ++
            [Event.consoleError "[ERROR] Помилка розшифрування:"
              (JsError.mkError "Неправильний формат файлу (файл занадто малий)")] })) ∧
    (104 ≤ blob.length →
      ∃ rest, (decryptFile wc blob password w).2.trace =
        w.trace ++ Event.consoleLog "[INFO] Формат файлу коректний, розшифровуємо..." :: rest) :=
  ⟨rfl, fun h => decryptFile_small wc blob password w h,
    fun h => decryptFile_passes_check wc blob password w h⟩

/-- C4 at a blob of 103 bytes and at a blob of 104 bytes, with a password that fails the
length policy. -/
theorem C4_minimum_size_witness :
    decryptFile toyCrypto (List.replicate 103 0) "short" world0 =
      (Except.ok (DecryptResult.failure "Неправильний формат файлу (файл занадто малий)"),
        { world0 with trace := world0.trace ++
          [Event.consoleError "[ERROR] Помилка розшифрування:"
            (JsError.mkError "Неправильний формат файлу (файл занадто малий)")] }) ∧
    ∃ rest, (decryptFile toyCrypto (List.replicate 104 0) "short" world0).2.trace =
      world0.trace ++ Event.consoleLog "[INFO] Формат файлу коректний, розшифровуємо..." :: rest :=
  ⟨(C4_minimum_size toyCrypto (List.replicate 103 0) "short" world0).2.1 (by decide),
    (C4_minimum_size toyCrypto (List.replicate 104 0) "short" world0).2.2 (by decide)⟩

/-- C5 (password policy boundary): for every password, `validatePassword` throws the error
whose message names the minimum of 12 characters exactly when the JavaScript length of the
password is below 12, and returns true exactly when it is at least 12, whatever the
characters are. -/
theorem C5_password_policy_boundary (password : String) (w : World) :
    ((validatePassword password w).1 =
        Except.error (JsError.mkError "Пароль повинен містити мінімум 12 символів") ↔
      jsLength password < 12) ∧
    ((validatePassword password w).1 = Except.ok true ↔ 12 ≤ jsLength password) := by
  by_cases h : jsLength password < 12
  · rw [validatePassword_short password w h]
    refine ⟨⟨fun _ => h, fun _ => rfl⟩, ⟨fun h2 => ?_, fun h2 => ?_⟩⟩
    · cases h2
    · omega
  · rw [validatePassword_ok password w (Nat.le_of_not_lt h)]
    refine ⟨⟨fun h2 => ?_, fun h2 => absurd h2 h⟩, ⟨fun _ => Nat.le_of_not_lt h, fun _ => rfl⟩⟩
    cases h2

/-- C6 (envelope layout): whenever `encryptFile` succeeds, the two sealings returned a
wrapped DEK and a payload ciphertext, and if the wrapped DEK has 48 bytes the returned data
is salt, ivKEK, wrapped DEK, ivData and ciphertext in this order, with the salt at bytes
0..16, ivKEK at 16..28, the wrapped DEK at 28..76, ivData at 76..88 and the ciphertext from
88 to the end. -/
theorem C6_envelope_layout (wc : WebCrypto) (fileData : List Byte) (password : String)
    (w : World) (data : List Byte) (originalSize encryptedSize totalSize headerSize : Nat)
    (h : (encryptFile wc fileData password w).1 =
      Except.ok (EncryptResult.success data originalSize encryptedSize totalSize headerSize)) :
    ∃ kekKey dekKey wrapped ciphertext,
      wc.encrypt (ivKEKOf w) 128 kekKey (dekOf w) = Except.ok wrapped ∧
      wc.encrypt (ivDataOf w) 128 dekKey fileData = Except.ok ciphertext ∧
      (wrapped.length = ENCRYPTED_DEK_SIZE →
        data = saltOf w ++ ivKEKOf w ++ wrapped ++ ivDataOf w ++ ciphertext ∧
        data.take 16 = saltOf w ∧
        (data.drop 16).take 12 = ivKEKOf w ∧
        (data.drop 28).take 48 = wrapped ∧
        (data.drop 76).take 12 = ivDataOf w ∧
        data.drop 88 = ciphertext) := by
  obtain ⟨-, -, -, kekKey, wrapped, dekKey, ciphertext, -, -, -, hWrap, -, hSeal, hAsm, -⟩ :=
    encryptFile_success_inv wc fileData password w data originalSize encryptedSize totalSize
      headerSize h
  refine ⟨kekKey, dekKey, wrapped, ciphertext, hWrap, hSeal, fun hLen => ?_⟩
  rw [assembleEnvelope_eq _ _ _ _ _ (by simp [saltOf]) (by simp [ivKEKOf]) hLen
    (by simp [ivDataOf])] at hAsm
  injection hAsm with hAsm
  subst hAsm
  have hf := extractFields_eq (saltOf w) (ivKEKOf w) wrapped (ivDataOf w) ciphertext
    (by simp [saltOf]) (by simp [ivKEKOf]) hLen (by simp [ivDataOf])
  simp only [extractFields, slice, sliceFrom, SALT_SIZE, IV_SIZE, ENCRYPTED_DEK_SIZE,
    Nat.zero_add, Nat.reduceAdd, Nat.reduceSub, List.drop_zero, Nat.sub_zero,
    EnvelopeFields.mk.injEq] at hf
  exact ⟨rfl, hf.1, hf.2.1, hf.2.2.1, hf.2.2.2.1, hf.2.2.2.2⟩

/-- C6 at the scenario of the specification, over the small instance, whose wrapped DEK
has 48 entries. -/
theorem C6_envelope_layout_witness :
    ∃ data encryptedSize totalSize,
      (encryptFile toyCrypto helloWorld "Str0ngP@ssw0rd123" world0).1 =
        Except.ok (EncryptResult.success data 13 encryptedSize totalSize 88) ∧
      ∃ wrapped ciphertext,
        data = saltOf world0 ++ ivKEKOf world0 ++ wrapped ++ ivDataOf world0 ++ ciphertext ∧
        data.take 16 = saltOf world0 ∧
        (data.drop 16).take 12 = ivKEKOf world0 ∧
        (data.drop 28).take 48 = wrapped ∧
        (data.drop 76).take 12 = ivDataOf world0 ∧
        data.drop 88 = ciphertext := by
  obtain ⟨kek, wrapped, ciphertext, hs⟩ :=
    sealed_exists toyCrypto toyCrypto_contract helloWorld "Str0ngP@ssw0rd123" world0
  have hEnc := encryptFile_sealed toyCrypto toyCrypto_contract helloWorld "Str0ngP@ssw0rd123"
    world0 kek wrapped ciphertext (by decide) hs
  obtain ⟨kekKey, dekKey, wrapped2, ciphertext2, hWrap, -, hLayout⟩ :=
    C6_envelope_layout toyCrypto helloWorld "Str0ngP@ssw0rd123" world0 _ 13 _ _ 88
      (by rw [hEnc]; rfl)
  have hLen : wrapped2.length = ENCRYPTED_DEK_SIZE := by
    simp only [toyCrypto, Except.ok.injEq] at hWrap
    rw [← hWrap]
    simp [toyTag_length, dekOf, ENCRYPTED_DEK_SIZE]
  exact ⟨_, _, _, by rw [hEnc]; rfl, wrapped2, ciphertext2, hLayout hLen⟩

/-- C7 (envelope size): over primitives that work (sealing adds a 16-byte tag), for every
plaintext of n bytes and every password of length at least 12, `encryptFile` succeeds with
data of exactly n + 104 bytes, originalSize = n, headerSize = 88, encryptedSize =
originalSize + 16 and totalSize = headerSize + encryptedSize = the length of the data; so
104 bytes for the empty plaintext and 117 for the 13 bytes of Hello, World!. -/
theorem C7_envelope_size (wc : WebCrypto) (hc : Contract wc) (fileData : List Byte)
    (password : String) (hPw : 12 ≤ jsLength password) (w : World) :
    ∃ data originalSize encryptedSize totalSize headerSize,
      (encryptFile wc fileData password w).1 =
        Except.ok (EncryptResult.success data originalSize encryptedSize totalSize
          headerSize) ∧
      data.length = fileData.length + 104 ∧
      originalSize = fileData.length ∧
      headerSize = 88 ∧
      encryptedSize = originalSize + 16 ∧
      totalSize = headerSize + encryptedSize ∧
      totalSize = data.length ∧
      (fileData = [] → data.length = 104) ∧
      (fileData = helloWorld → data.length = 117) := by
  obtain ⟨kek, wrapped, ciphertext, hs⟩ := sealed_exists wc hc fileData password w
  have hLen : (saltOf w ++ ivKEKOf w ++ wrapped ++ ivDataOf w ++ ciphertext).length =
      fileData.length + 104 := by
    simp [saltOf, ivKEKOf, ivDataOf, hs.wrappedLength, hs.ciphertextLength]
    omega
  refine ⟨saltOf w ++ ivKEKOf w ++ wrapped ++ ivDataOf w ++ ciphertext, fileData.length,
    ciphertext.length, 88 + ciphertext.length, 88, ?_, hLen, rfl, rfl, hs.ciphertextLength, rfl,
    ?_, ?_, ?_⟩
  · rw [encryptFile_sealed wc hc fileData password w kek wrapped ciphertext hPw hs]
  · rw [hLen, hs.ciphertextLength]
    omega
  · intro h0
    rw [hLen, h0]
    rfl
  · intro h0
    rw [hLen, h0]
    rfl

/-- C7 at the scenario of the specification: 117 bytes. -/
theorem C7_envelope_size_witness :
    12 ≤ jsLength "Str0ngP@ssw0rd123" ∧
    ∃ data encryptedSize totalSize,
      (encryptFile toyCrypto helloWorld "Str0ngP@ssw0rd123" world0).1 =
        Except.ok (EncryptResult.success data 13 encryptedSize totalSize 88) ∧
      data.length = 117 ∧ encryptedSize = 29 ∧ totalSize = 117 := by
  obtain ⟨data, originalSize, encryptedSize, totalSize, headerSize, hEnc, -, hO, hH, hE, hT, -,
      -, hHello⟩ :=
    C7_envelope_size toyCrypto toyCrypto_contract helloWorld "Str0ngP@ssw0rd123" (by decide) world0
  subst hO hH hE hT
  exact ⟨by decide, data, _, _, hEnc, hHello rfl, rfl, rfl⟩

/-- C8 (envelope decoding): for every blob of at least 104 bytes, whatever its content, the
fields `decryptFile` extracts are salt = blob[0:16], ivKEK = blob[16:28], the wrapped DEK =
blob[28:76], ivData = blob[76:88] and ciphertext = blob[88:], of 16, 12, 48, 12 and at
least 16 bytes, and their concatenation is the blob; and on the buffer `encryptFile`
assembles from a 16-byte salt, a 12-byte ivKEK, a 48-byte wrapped DEK, a 12-byte ivData and
a ciphertext they are exactly these five values. -/
theorem C8_envelope_decoding (blob salt ivKEK wrapped ivData ciphertext : List Byte) :
    (104 ≤ blob.length →
      (extractFields blob).salt = blob.take 16 ∧
      (extractFields blob).ivKEK = (blob.drop 16).take 12 ∧
      (extractFields blob).encryptedDEK = (blob.drop 28).take 48 ∧
      (extractFields blob).ivData = (blob.drop 76).take 12 ∧
      (extractFields blob).ciphertext = blob.drop 88 ∧
      (extractFields blob).salt.length = 16 ∧
      (extractFields blob).ivKEK.length = 12 ∧
      (extractFields blob).encryptedDEK.length = 48 ∧
      (extractFields blob).ivData.length = 12 ∧
      (extractFields blob).ciphertext.length = blob.length - 88 ∧
      (extractFields blob).salt ++ (extractFields blob).ivKEK ++
        (extractFields blob).encryptedDEK ++ (extractFields blob).ivData ++
        (extractFields blob).ciphertext = blob) ∧
    (salt.length = 16 → ivKEK.length = 12 → wrapped.length = 48 → ivData.length = 12 →
      ∃ envelope, assembleEnvelope salt ivKEK wrapped ivData ciphertext = Except.ok envelope ∧
        extractFields envelope =
          { salt := salt, ivKEK := ivKEK, encryptedDEK := wrapped, ivData := ivData,
            ciphertext := ciphertext }) := by
  refine ⟨fun h => ?_, fun h1 h2 h3 h4 => ?_⟩
  · have e1 : List.drop 28 blob = List.drop 12 (List.drop 16 blob) := by
      rw [List.drop_drop]
    have e2 : List.drop 76 blob = List.drop 48 (List.drop 28 blob) := by
      rw [List.drop_drop]
    have e3 : List.drop 88 blob = List.drop 12 (List.drop 76 blob) := by
      rw [List.drop_drop]
    refine ⟨rfl, rfl, rfl, rfl, rfl, ?_, ?_, ?_, ?_, ?_, ?_⟩
    · simp [extractFields, slice, SALT_SIZE]
      omega
    · simp [extractFields, slice, SALT_SIZE, IV_SIZE]
      omega
    · simp [extractFields, slice, SALT_SIZE, IV_SIZE, ENCRYPTED_DEK_SIZE]
      omega
    · simp [extractFields, slice, SALT_SIZE, IV_SIZE, ENCRYPTED_DEK_SIZE]
      omega
    · simp [extractFields, sliceFrom, SALT_SIZE, IV_SIZE, ENCRYPTED_DEK_SIZE]
    · simp only [extractFields, slice, sliceFrom, SALT_SIZE, IV_SIZE, ENCRYPTED_DEK_SIZE,
        Nat.zero_add, Nat.reduceAdd, Nat.sub_zero, List.drop_zero, Nat.add_sub_cancel_left,
        List.append_assoc]
      show List.take 16 blob ++ (List.take 12 (List.drop 16 blob) ++
        (List.take 48 (List.drop 28 blob) ++ (List.take 12 (List.drop 76 blob) ++
          List.drop 88 blob))) = blob
      rw [e3, List.take_append_drop, e2, List.take_append_drop, e1, List.take_append_drop,
        List.take_append_drop]
  · exact ⟨_, assembleEnvelope_eq salt ivKEK wrapped ivData ciphertext h1 h2 h3 h4,
      extractFields_eq salt ivKEK wrapped ivData ciphertext h1 h2 h3 h4⟩

/-- C8 at a blob of 104 distinct bytes and at the fields of an envelope of the scenario. -/
theorem C8_envelope_decoding_witness :
    (extractFields (List.range 104)).salt = (List.range 104).take 16 ∧
    (extractFields (List.range 104)).ciphertext = (List.range 104).drop 88 ∧
    ∃ envelope,
      assembleEnvelope (saltOf world0) (ivKEKOf world0) (List.replicate 48 1) (ivDataOf world0)
        helloWorld = Except.ok envelope ∧
      extractFields envelope =
        { salt := saltOf world0, ivKEK := ivKEKOf world0, encryptedDEK := List.replicate 48 1,
          ivData := ivDataOf world0, ciphertext := helloWorld } :=
  ⟨((C8_envelope_decoding (List.range 104) [] [] [] [] []).1 (by decide)).1,
    ((C8_envelope_decoding (List.range 104) [] [] [] [] []).1 (by decide)).2.2.2.2.1,
    (C8_envelope_decoding [] (saltOf world0) (ivKEKOf world0) (List.replicate 48 1)
      (ivDataOf world0) helloWorld).2 (by decide) (by decide) (by decide) (by decide)⟩

/-- C9 as stated fails: an encryption rejected for the password short has drawn 72 random
bytes, in four calls made before the rejection. -/
theorem C9_randomness_before_validation_counterexample :
    (encryptFile toyCrypto helloWorld "short" world0).1 =
      Except.ok (EncryptResult.failure "Пароль повинен містити мінімум 12 символів") ∧
    world0.cursor = 0 ∧
    (encryptFile toyCrypto helloWorld "short" world0).2.cursor = 72 ∧
    (encryptFile toyCrypto helloWorld "short" world0).2.trace =
      [Event.consoleLog "[INFO] V3 Гібридне шифрування: AES-256-GCM + 600k PBKDF2...",
       Event.getRandomValues 16, Event.getRandomValues 12, Event.getRandomValues 12,
       Event.getRandomValues 32,
       Event.consoleLog "[INFO] DEK згенеровано (максимальна ентропія)",
       Event.consoleError "[ERROR] Помилка шифрування:"
         (JsError.mkError "Пароль повинен містити мінімум 12 символів")] := by
  rw [encryptFile_shortPassword toyCrypto helloWorld "short" world0 (by decide)]
  exact ⟨rfl, rfl, rfl, rfl⟩

/-- C9 (encrypt step order), amended: `encryptFile` first draws the salt, ivKEK, ivData and
the DEK (16, 12, 12 and 32 bytes), then checks the password, then imports the password and
derives the KEK, then imports the KEK and wraps the DEK, then imports the DEK and encrypts
the payload, then serialises.  So an encryption rejected for a password shorter than 12
has drawn 72 random bytes and has called no key import, key derivation or sealing; and
over primitives that work, an accepted one makes exactly these calls in this order. -/
theorem C9_encrypt_step_order (wc : WebCrypto) (fileData : List Byte) (password : String)
    (w : World) :
    (jsLength password < 12 →
      encryptFile wc fileData password w =
        (Except.ok (EncryptResult.failure passwordTooShortMessage),
          { entropy := w.entropy, cursor := w.cursor + 72,
            trace := w.trace ++
              [Event.consoleLog "[INFO] V3 Гібридне шифрування: AES-256-GCM + 600k PBKDF2...",
               Event.getRandomValues 16, Event.getRandomValues 12, Event.getRandomValues 12,
               Event.getRandomValues 32,
               Event.consoleLog "[INFO] DEK згенеровано (максимальна ентропія)",
               Event.consoleError "[ERROR] Помилка шифрування:"
                 (JsError.mkError passwordTooShortMessage)] })) ∧
    (Contract wc → 12 ≤ jsLength password →
      (encryptFile wc fileData password w).2.cursor = w.cursor + 72 ∧
      (encryptFile wc fileData password w).2.trace = w.trace ++
        [Event.consoleLog "[INFO] V3 Гібридне шифрування: AES-256-GCM + 600k PBKDF2...",
         Event.getRandomValues 16, Event.getRandomValues 12, Event.getRandomValues 12,
         Event.getRandomValues 32,
         Event.consoleLog "[INFO] DEK згенеровано (максимальна ентропія)"] ++
        warningEvents password ++
        [Event.importKey "PBKDF2" ["deriveBits"], Event.deriveBits 600000 "SHA-256" 256,
         Event.importKey "AES-GCM" ["encrypt"], Event.encrypt 128,
         Event.importKey "AES-GCM" ["encrypt"], Event.encrypt 128,
         Event.consoleLog
           "[SECURITY] Файл зашифровано з AES-256-GCM (authenticated encryption)"]) := by
  refine ⟨fun h => ?_, fun hc hPw => ?_⟩
  · rw [encryptFile_shortPassword wc fileData password w h]
    simp [drawEvents]
  · obtain ⟨kek, wrapped, ciphertext, hs⟩ := sealed_exists wc hc fileData password w
    rw [encryptFile_sealed wc hc fileData password w kek wrapped ciphertext hPw hs]
    simp [drawEvents, kekEvents, sealEvents, PBKDF2_ITERATIONS]

/-- C9 amended, at the scenario of the specification: the order of the calls of an accepted
encryption, and the 72 bytes drawn by the one rejected for the password short. -/
theorem C9_encrypt_step_order_witness :
    (encryptFile toyCrypto helloWorld "short" world0).2.cursor = 72 ∧
    (encryptFile toyCrypto helloWorld "Str0ngP@ssw0rd123" world0).2.cursor = 72 ∧
    (encryptFile toyCrypto helloWorld "Str0ngP@ssw0rd123" world0).2.trace =
      [Event.consoleLog "[INFO] V3 Гібридне шифрування: AES-256-GCM + 600k PBKDF2...",
       Event.getRandomValues 16, Event.getRandomValues 12, Event.getRandomValues 12,
       Event.getRandomValues 32,
       Event.consoleLog "[INFO] DEK згенеровано (максимальна ентропія)",
       Event.importKey "PBKDF2" ["deriveBits"], Event.deriveBits 600000 "SHA-256" 256,
       Event.importKey "AES-GCM" ["encrypt"], Event.encrypt 128,
       Event.importKey "AES-GCM" ["encrypt"], Event.encrypt 128,
       Event.consoleLog
         "[SECURITY] Файл зашифровано з AES-256-GCM (authenticated encryption)"] := by
  have hShort := (C9_encrypt_step_order toyCrypto helloWorld "short" world0).1 (by decide)
  have hLong := (C9_encrypt_step_order toyCrypto helloWorld "Str0ngP@ssw0rd123" world0).2
    toyCrypto_contract (by decide)
  refine ⟨by rw [hShort]; rfl, hLong.1, ?_⟩
  rw [hLong.2]
  have hw : warningEvents "Str0ngP@ssw0rd123" = [] := by decide
  rw [hw]
  rfl

/-- C10 (encrypt failure atomicity): `encryptFile` always returns an object; unless every
step returned (password of at least 12, key imports, key derivation, both sealings, the
assembly) the object is the failure, which has an error message and no data; a password
shorter than 12 gives the message naming the minimum of 12 characters, and a failed key
derivation or sealing gives the message of the error it threw. -/
theorem C10_encrypt_failure_atomicity (wc : WebCrypto) (fileData : List Byte)
    (password : String) (w : World) :
    (∃ r, (encryptFile wc fileData password w).1 = Except.ok r) ∧
    (¬ StepsOk wc fileData password w →
      ∃ error, (encryptFile wc fileData password w).1 =
        Except.ok (EncryptResult.failure error)) ∧
    (jsLength password < 12 →
      (encryptFile wc fileData password w).1 =
        Except.ok (EncryptResult.failure "Пароль повинен містити мінімум 12 символів")) ∧
    (∀ baseKey e, 12 ≤ jsLength password →
      wc.importKey "raw" (textEncode password) "PBKDF2" false ["deriveBits"] =
        Except.ok baseKey →
      wc.deriveBits (saltOf w) PBKDF2_ITERATIONS "SHA-256" baseKey 256 = Except.error e →
      (encryptFile wc fileData password w).1 = Except.ok (EncryptResult.failure e.message)) ∧
    (∀ baseKey kek kekKey e, 12 ≤ jsLength password →
      wc.importKey "raw" (textEncode password) "PBKDF2" false ["deriveBits"] =
        Except.ok baseKey →
      wc.deriveBits (saltOf w) PBKDF2_ITERATIONS "SHA-256" baseKey 256 = Except.ok kek →
      wc.importKey "raw" kek "AES-GCM" false ["encrypt"] = Except.ok kekKey →
      wc.encrypt (ivKEKOf w) 128 kekKey (dekOf w) = Except.error e →
      (encryptFile wc fileData password w).1 = Except.ok (EncryptResult.failure e.message)) ∧
    (∀ baseKey kek kekKey wrapped dekKey e, 12 ≤ jsLength password →
      wc.importKey "raw" (textEncode password) "PBKDF2" false ["deriveBits"] =
        Except.ok baseKey →
      wc.deriveBits (saltOf w) PBKDF2_ITERATIONS "SHA-256" baseKey 256 = Except.ok kek →
      wc.importKey "raw" kek "AES-GCM" false ["encrypt"] = Except.ok kekKey →
      wc.encrypt (ivKEKOf w) 128 kekKey (dekOf w) = Except.ok wrapped →
      wc.importKey "raw" (dekOf w) "AES-GCM" false ["encrypt"] = Except.ok dekKey →
      wc.encrypt (ivDataOf w) 128 dekKey fileData = Except.error e →
      (encryptFile wc fileData password w).1 = Except.ok (EncryptResult.failure e.message)) := by
  refine ⟨encryptFile_returns wc fileData password w, fun hNot => ?_, fun h => ?_,
    fun baseKey e h1 h2 h3 => encryptFile_deriveFails wc fileData password w baseKey e h1 h2 h3,
    fun baseKey kek kekKey e h1 h2 h3 h4 h5 =>
      encryptFile_wrapFails wc fileData password w baseKey kekKey kek e h1 h2 h3 h4 h5,
    fun baseKey kek kekKey wrapped dekKey e h1 h2 h3 h4 h5 h6 h7 =>
      encryptFile_payloadFails wc fileData password w baseKey kekKey dekKey kek wrapped e h1 h2
        h3 h4 h5 h6 h7⟩
  · obtain ⟨r, hr⟩ := encryptFile_returns wc fileData password w
    cases r with
    | failure error => exact ⟨error, hr⟩
    | success data originalSize encryptedSize totalSize headerSize =>
      obtain ⟨hPw, baseKey, kek, kekKey, wrapped, dekKey, ciphertext, h1, h2, h3, h4, h5, h6,
        h7, -⟩ := encryptFile_success_inv wc fileData password w data originalSize
          encryptedSize totalSize headerSize hr
      exact absurd ⟨hPw, baseKey, kek, kekKey, wrapped, dekKey, ciphertext, data, h1, h2, h3,
        h4, h5, h6, h7⟩ hNot
  · rw [encryptFile_shortPassword wc fileData password w h]
    rfl

/-- C10 at the scenario of the specification: the password short, and a key derivation
that throws under the password of the scenario. -/
theorem C10_encrypt_failure_atomicity_witness :
    (encryptFile toyCrypto helloWorld "short" world0).1 =
      Except.ok (EncryptResult.failure "Пароль повинен містити мінімум 12 символів") ∧
    (encryptFile failingKdfCrypto helloWorld "Str0ngP@ssw0rd123" world0).1 =
      Except.ok (EncryptResult.failure "key derivation failed") :=
  ⟨(C10_encrypt_failure_atomicity toyCrypto helloWorld "short" world0).2.2.1 (by decide),
    (C10_encrypt_failure_atomicity failingKdfCrypto helloWorld "Str0ngP@ssw0rd123"
      world0).2.2.2.1 _ _ (by decide) rfl rfl⟩

/-- C11 as stated fails: a blob of 103 bytes gets the file-too-small message, a blob of 104
zero bytes, whose wrapped DEK does not open, gets the wrong-password-or-modified message,
and the two messages are different texts. -/
theorem C11_format_message_differs_counterexample :
    (decryptFile toyCrypto (List.replicate 103 0) "Str0ngP@ssw0rd123" world0).1 =
      Except.ok (DecryptResult.failure "Неправильний формат файлу (файл занадто малий)") ∧
    (decryptFile toyCrypto (List.replicate 104 0) "Str0ngP@ssw0rd123" world0).1 =
      Except.ok (DecryptResult.failure "Невірний пароль або файл був змінений") ∧
    (decryptFile toyCrypto (List.replicate 103 0) "Str0ngP@ssw0rd123" world0).1 ≠
      (decryptFile toyCrypto (List.replicate 104 0) "Str0ngP@ssw0rd123" world0).1 := by
  have h1 : (decryptFile toyCrypto (List.replicate 103 0) "Str0ngP@ssw0rd123" world0).1 =
      Except.ok (DecryptResult.failure "Неправильний формат файлу (файл занадто малий)") := rfl
  have h2 : (decryptFile toyCrypto (List.replicate 104 0) "Str0ngP@ssw0rd123" world0).1 =
      Except.ok (DecryptResult.failure "Невірний пароль або файл був змінений") := rfl
  refine ⟨h1, h2, ?_⟩
  rw [h1, h2]
  intro h
  injection h with h
  injection h with h
  exact absurd h (by decide)

/-- C11 (failure messages), amended: for every blob shorter than 104 bytes `decryptFile`
returns the message of the format failure, file too small; when the opening of the wrapped
DEK throws, or the opening of the payload throws an OperationError, it returns the
wrong-password-or-modified message; the two messages differ, so the result tells a format
failure from an authentication failure. -/
theorem C11_failure_messages (wc : WebCrypto) (small blob : List Byte) (password : String)
    (w : World) :
    (small.length < 104 →
      (decryptFile wc small password w).1 =
        Except.ok (DecryptResult.failure "Неправильний формат файлу (файл занадто малий)")) ∧
    (∀ baseKey kekKey kek e, 104 ≤ blob.length → 12 ≤ jsLength password →
      wc.importKey "raw" (textEncode password) "PBKDF2" false ["deriveBits"] =
        Except.ok baseKey →
      wc.deriveBits (extractFields blob).salt PBKDF2_ITERATIONS "SHA-256" baseKey 256 =
        Except.ok kek →
      wc.importKey "raw" kek "AES-GCM" false ["decrypt"] = Except.ok kekKey →
      wc.decrypt (extractFields blob).ivKEK 128 kekKey (extractFields blob).encryptedDEK =
        Except.error e →
      (decryptFile wc blob password w).1 =
        Except.ok (DecryptResult.failure "Невірний пароль або файл був змінений")) ∧
    (∀ baseKey kekKey dekKey kek dek e, 104 ≤ blob.length → 12 ≤ jsLength password →
      wc.importKey "raw" (textEncode password) "PBKDF2" false ["deriveBits"] =
        Except.ok baseKey →
      wc.deriveBits (extractFields blob).salt PBKDF2_ITERATIONS "SHA-256" baseKey 256 =
        Except.ok kek →
      wc.importKey "raw" kek "AES-GCM" false ["decrypt"] = Except.ok kekKey →
      wc.decrypt (extractFields blob).ivKEK 128 kekKey (extractFields blob).encryptedDEK =
        Except.ok dek →
      dek.length = 32 →
      wc.importKey "raw" dek "AES-GCM" false ["decrypt"] = Except.ok dekKey →
      wc.decrypt (extractFields blob).ivData 128 dekKey (extractFields blob).ciphertext =
        Except.error e →
      e.name = "OperationError" →
      (decryptFile wc blob password w).1 =
        Except.ok (DecryptResult.failure "Невірний пароль або файл був змінений")) ∧
    "Неправильний формат файлу (файл занадто малий)" ≠
      "Невірний пароль або файл був змінений" := by
  refine ⟨fun h => ?_, ?_, ?_, by decide⟩
  · rw [decryptFile_small wc small password w h]
    rfl
  · intro baseKey kekKey kek e h hPw hBase hDerive hKek hUnwrap
    rw [decryptFile_unwrapFails wc blob password w baseKey kekKey kek e h hPw hBase hDerive hKek
      hUnwrap]
    rfl
  · intro baseKey kekKey dekKey kek dek e h hPw hBase hDerive hKek hUnwrap hLen hDek hOpen hName
    rw [decryptFile_openFails wc blob password w baseKey kekKey dekKey kek dek e h hPw hBase
      hDerive hKek hUnwrap hLen hDek hOpen hName]
    rfl

/-- C11 amended, at a blob of 103 bytes and at a blob of 104 zero bytes over the small
instance. -/
theorem C11_failure_messages_witness :
    (decryptFile toyCrypto (List.replicate 103 0) "Str0ngP@ssw0rd123" world0).1 =
      Except.ok (DecryptResult.failure "Неправильний формат файлу (файл занадто малий)") ∧
    (decryptFile toyCrypto (List.replicate 104 0) "Str0ngP@ssw0rd123" world0).1 =
      Except.ok (DecryptResult.failure "Невірний пароль або файл був змінений") :=
  ⟨(C11_failure_messages toyCrypto (List.replicate 103 0) (List.replicate 104 0)
      "Str0ngP@ssw0rd123" world0).1 (by decide),
    (C11_failure_messages toyCrypto (List.replicate 103 0) (List.replicate 104 0)
      "Str0ngP@ssw0rd123" world0).2.1 _ _ _ toyOperationError (by decide) (by decide) rfl rfl
      rfl rfl⟩

/-- C12 (indistinguishable authentication failures): for blobs of at least 104 bytes and
passwords of length at least 12 whose key derivation returns, the object returned when the
opening of the wrapped DEK fails (key import throws, AEAD opening throws, or wrong size)
and the object returned when the opening of the payload throws an OperationError are the
same: the failure with the message Невірний пароль або файл був змінений. -/
theorem C12_auth_failures_indistinguishable (wc : WebCrypto)
    (blobA blobB : List Byte) (passwordA passwordB : String) (wA wB : World)
    (baseKeyA baseKeyB kekKeyB dekKeyB : CryptoKey) (kekA kekB dekB : List Byte) (e : JsError)
    (hA : 104 ≤ blobA.length) (hPwA : 12 ≤ jsLength passwordA)
    (hBaseA : wc.importKey "raw" (textEncode passwordA) "PBKDF2" false ["deriveBits"] =
      Except.ok baseKeyA)
    (hDeriveA : wc.deriveBits (extractFields blobA).salt PBKDF2_ITERATIONS "SHA-256" baseKeyA
      256 = Except.ok kekA)
    (hUnwrapA : UnwrapThrows wc (extractFields blobA).encryptedDEK kekA
      (extractFields blobA).ivKEK)
    (hB : 104 ≤ blobB.length) (hPwB : 12 ≤ jsLength passwordB)
    (hBaseB : wc.importKey "raw" (textEncode passwordB) "PBKDF2" false ["deriveBits"] =
      Except.ok baseKeyB)
    (hDeriveB : wc.deriveBits (extractFields blobB).salt PBKDF2_ITERATIONS "SHA-256" baseKeyB
      256 = Except.ok kekB)
    (hKekB : wc.importKey "raw" kekB "AES-GCM" false ["decrypt"] = Except.ok kekKeyB)
    (hUnwrapB : wc.decrypt (extractFields blobB).ivKEK 128 kekKeyB
      (extractFields blobB).encryptedDEK = Except.ok dekB)
    (hLenB : dekB.length = 32)
    (hDekB : wc.importKey "raw" dekB "AES-GCM" false ["decrypt"] = Except.ok dekKeyB)
    (hOpenB : wc.decrypt (extractFields blobB).ivData 128 dekKeyB
      (extractFields blobB).ciphertext = Except.error e)
    (hName : e.name = "OperationError") :
    (decryptFile wc blobA passwordA wA).1 =
      Except.ok (DecryptResult.failure "Невірний пароль або файл був змінений") ∧
    (decryptFile wc blobB passwordB wB).1 =
      Except.ok (DecryptResult.failure "Невірний пароль або файл був змінений") ∧
    (decryptFile wc blobA passwordA wA).1 = (decryptFile wc blobB passwordB wB).1 := by
  obtain ⟨eA, dekEvents, -, hRun⟩ := unwrapThrows_run wc _ _ _ hUnwrapA
  have h1 := decryptFile_unwrapThrows wc blobA passwordA wA baseKeyA kekA eA dekEvents hA hPwA
    hBaseA hDeriveA hRun
  have h2 := decryptFile_openFails wc blobB passwordB wB baseKeyB kekKeyB dekKeyB kekB dekB e
    hB hPwB hBaseB hDeriveB hKekB hUnwrapB hLenB hDekB hOpenB hName
  rw [h1, h2]
  exact ⟨rfl, rfl, rfl⟩

/-- C12 over the small instance: a blob of 104 zero bytes, whose wrapped DEK does not open,
and a blob with the wrapped DEK of the scenario but a forged payload. -/
theorem C12_auth_failures_indistinguishable_witness :
    (decryptFile toyCrypto (List.replicate 104 0) "Str0ngP@ssw0rd123" world0).1 =
      Except.ok (DecryptResult.failure "Невірний пароль або файл був змінений") ∧
    (decryptFile toyCrypto forgedPayloadBlob "Str0ngP@ssw0rd123" world0).1 =
      Except.ok (DecryptResult.failure "Невірний пароль або файл був змінений") ∧
    (decryptFile toyCrypto (List.replicate 104 0) "Str0ngP@ssw0rd123" world0).1 =
      (decryptFile toyCrypto forgedPayloadBlob "Str0ngP@ssw0rd123" world0).1 := by
  have hf : extractFields forgedPayloadBlob =
      { salt := saltOf world0, ivKEK := ivKEKOf world0,
        encryptedDEK := dekOf world0 ++ toyTag (ivKEKOf world0) toyKek (dekOf world0),
        ivData := ivDataOf world0, ciphertext := List.replicate 16 0 } :=
    extractFields_eq _ _ _ _ _ (by simp [saltOf]) (by simp [ivKEKOf])
      (by simp [dekOf, toyTag_length]) (by simp [ivDataOf])
  refine C12_auth_failures_indistinguishable toyCrypto (List.replicate 104 0) forgedPayloadBlob
    "Str0ngP@ssw0rd123" "Str0ngP@ssw0rd123" world0 world0 _ _ (aesKey toyKek "decrypt")
    (aesKey (dekOf world0) "decrypt") _ toyKek (dekOf world0)
    toyOperationError (by decide) (by decide) rfl rfl ?_ (by decide) (by decide) rfl ?_ rfl
    ?_ (by decide) rfl ?_ rfl
  · exact Or.inr ⟨_, rfl, Or.inl ⟨toyOperationError, rfl⟩⟩
  · rw [hf]
    rfl
  · rw [hf]
    exact toyCrypto_contract.openSeal _ _ _ _ rfl
  · rw [hf]
    rfl

/-- C13 as stated fails: when the key derivation throws an error whose message is key
derivation failed, `encryptFile` reports exactly that message; and when the key import
throws a DataError whose message is Invalid key data, `decryptFile` reports exactly that
message. -/
theorem C13_raw_message_counterexample :
    failingKdfCrypto.deriveBits (saltOf world0) PBKDF2_ITERATIONS "SHA-256"
        (pbkdf2Key (textEncode "Str0ngP@ssw0rd123")) 256 =
      Except.error ⟨"OperationError", "key derivation failed"⟩ ∧
    (encryptFile failingKdfCrypto helloWorld "Str0ngP@ssw0rd123" world0).1 =
      Except.ok (EncryptResult.failure "key derivation failed") ∧
    failingImportCrypto.importKey "raw" (textEncode "Str0ngP@ssw0rd123") "PBKDF2" false
        ["deriveBits"] = Except.error ⟨"DataError", "Invalid key data"⟩ ∧
    (decryptFile failingImportCrypto (List.replicate 104 0) "Str0ngP@ssw0rd123" world0).1 =
      Except.ok (DecryptResult.failure "Invalid key data") :=
  ⟨rfl, rfl, rfl, rfl⟩

/-- C13 (error normalisation), amended: `encryptFile` and `decryptFile` always return an
object instead of throwing.  `encryptFile` reports a failed key import, key derivation or
sealing by the message of the thrown error, unchanged.  `decryptFile` reports the
authentication message when the opening of the wrapped DEK fails, and for an error thrown
by the key import, the key derivation or the opening of the payload it reports the
authentication message if the error is an OperationError or its message contains Невірний
пароль, and otherwise the message of the thrown error, unchanged. -/
theorem C13_error_surface (wc : WebCrypto) (fileData blob : List Byte) (password : String)
    (w : World) (hBlob : 104 ≤ blob.length) (hPw : 12 ≤ jsLength password) :
    (∃ r, (encryptFile wc fileData password w).1 = Except.ok r) ∧
    (∃ r, (decryptFile wc blob password w).1 = Except.ok r) ∧
    (∀ e, wc.importKey "raw" (textEncode password) "PBKDF2" false ["deriveBits"] =
        Except.error e →
      (encryptFile wc fileData password w).1 = Except.ok (EncryptResult.failure e.message) ∧
      (decryptFile wc blob password w).1 =
        Except.ok (DecryptResult.failure (surfacedMessage e))) ∧
    (∀ baseKey e, wc.importKey "raw" (textEncode password) "PBKDF2" false ["deriveBits"] =
        Except.ok baseKey →
      wc.deriveBits (saltOf w) PBKDF2_ITERATIONS "SHA-256" baseKey 256 = Except.error e →
      (encryptFile wc fileData password w).1 = Except.ok (EncryptResult.failure e.message)) ∧
    (∀ baseKey kek kekKey e,
      wc.importKey "raw" (textEncode password) "PBKDF2" false ["deriveBits"] =
        Except.ok baseKey →
      wc.deriveBits (saltOf w) PBKDF2_ITERATIONS "SHA-256" baseKey 256 = Except.ok kek →
      wc.importKey "raw" kek "AES-GCM" false ["encrypt"] = Except.ok kekKey →
      wc.encrypt (ivKEKOf w) 128 kekKey (dekOf w) = Except.error e →
      (encryptFile wc fileData password w).1 = Except.ok (EncryptResult.failure e.message)) ∧
    (∀ baseKey e, wc.importKey "raw" (textEncode password) "PBKDF2" false ["deriveBits"] =
        Except.ok baseKey →
      wc.deriveBits (extractFields blob).salt PBKDF2_ITERATIONS "SHA-256" baseKey 256 =
        Except.error e →
      (decryptFile wc blob password w).1 =
        Except.ok (DecryptResult.failure (surfacedMessage e))) ∧
    (∀ baseKey kek, wc.importKey "raw" (textEncode password) "PBKDF2" false ["deriveBits"] =
        Except.ok baseKey →
      wc.deriveBits (extractFields blob).salt PBKDF2_ITERATIONS "SHA-256" baseKey 256 =
        Except.ok kek →
      UnwrapThrows wc (extractFields blob).encryptedDEK kek (extractFields blob).ivKEK →
      (decryptFile wc blob password w).1 =
        Except.ok (DecryptResult.failure "Невірний пароль або файл був змінений")) ∧
    (∀ baseKey kek kekKey dek dekKey e,
      wc.importKey "raw" (textEncode password) "PBKDF2" false ["deriveBits"] =
        Except.ok baseKey →
      wc.deriveBits (extractFields blob).salt PBKDF2_ITERATIONS "SHA-256" baseKey 256 =
        Except.ok kek →
      wc.importKey "raw" kek "AES-GCM" false ["decrypt"] = Except.ok kekKey →
      wc.decrypt (extractFields blob).ivKEK 128 kekKey (extractFields blob).encryptedDEK =
        Except.ok dek →
      dek.length = 32 →
      wc.importKey "raw" dek "AES-GCM" false ["decrypt"] = Except.ok dekKey →
      wc.decrypt (extractFields blob).ivData 128 dekKey (extractFields blob).ciphertext =
        Except.error e →
      (decryptFile wc blob password w).1 =
        Except.ok (DecryptResult.failure (surfacedMessage e))) ∧
    (∀ e : JsError, surfacedMessage e =
      if e.name = "OperationError" ∨ includes e.message "Невірний пароль" = true then
        "Невірний пароль або файл був змінений"
      else e.message) := by
  refine ⟨encryptFile_returns wc fileData password w, decryptFile_returns wc blob password w,
    fun e h => ⟨encryptFile_baseImportFails wc fileData password w e hPw h,
      decryptFile_baseImportThrows wc blob password w e hBlob hPw h⟩,
    fun baseKey e h1 h2 => encryptFile_deriveFails wc fileData password w baseKey e hPw h1 h2,
    fun baseKey kek kekKey e h1 h2 h3 h4 =>
      encryptFile_wrapFails wc fileData password w baseKey kekKey kek e hPw h1 h2 h3 h4,
    fun baseKey e h1 h2 => decryptFile_deriveThrows wc blob password w baseKey e hBlob hPw h1 h2,
    fun baseKey kek h1 h2 h3 => ?_,
    fun baseKey kek kekKey dek dekKey e h1 h2 h3 h4 h5 h6 h7 =>
      decryptFile_payloadThrows wc blob password w baseKey kekKey dekKey kek dek e hBlob hPw h1
        h2 h3 h4 h5 h6 h7,
    fun e => ?_⟩
  · obtain ⟨e, dekEvents, -, hRun⟩ := unwrapThrows_run wc _ _ _ h3
    rw [decryptFile_unwrapThrows wc blob password w baseKey kek e dekEvents hBlob hPw h1 h2 hRun]
    rfl
  · simp only [surfacedMessage, Bool.or_eq_true, beq_iff_eq]
    rfl

/-- C13 amended, over the instance whose key import throws a DataError: both operations
return the failure with the raw message Invalid key data. -/
theorem C13_error_surface_witness :
    104 ≤ (List.replicate 104 0).length ∧ 12 ≤ jsLength "Str0ngP@ssw0rd123" ∧
    (encryptFile failingImportCrypto helloWorld "Str0ngP@ssw0rd123" world0).1 =
      Except.ok (EncryptResult.failure "Invalid key data") ∧
    (decryptFile failingImportCrypto (List.replicate 104 0) "Str0ngP@ssw0rd123" world0).1 =
      Except.ok (DecryptResult.failure "Invalid key data") :=
  ⟨by decide, by decide,
    (C13_error_surface failingImportCrypto helloWorld (List.replicate 104 0)
      "Str0ngP@ssw0rd123" world0 (by decide) (by decide)).2.2.1 _ rfl⟩

/-- C14 (non-determinism of output): over primitives that work, for the same plaintext and
password, two runs of `encryptFile` from two states of the random source succeed, and if
the drawn salt, ivKEK or ivData differ the two envelopes differ.  In each run the salt, the
two nonces and the DEK are the 16, 12, 12 and 32 bytes of the random stream that follow the
cursor, whatever the password and the plaintext are: they stand at bytes 0..16, 16..28 and
76..88 of the envelope and the payload is sealed under the drawn DEK; the run moves the
cursor by 72, so a later run draws later bytes. -/
theorem C14_output_follows_randomness (wc : WebCrypto) (hc : Contract wc)
    (fileData : List Byte) (password : String) (hPw : 12 ≤ jsLength password)
    (w1 w2 : World) :
    ∃ envelope1 envelope2 encryptedSize totalSize,
      (encryptFile wc fileData password w1).1 =
        Except.ok (EncryptResult.success envelope1 fileData.length encryptedSize totalSize 88) ∧
      (encryptFile wc fileData password w2).1 =
        Except.ok (EncryptResult.success envelope2 fileData.length encryptedSize totalSize 88) ∧
      ((saltOf w1 ≠ saltOf w2 ∨ ivKEKOf w1 ≠ ivKEKOf w2 ∨ ivDataOf w1 ≠ ivDataOf w2) →
        envelope1 ≠ envelope2) ∧
      envelope1.take 16 = (List.range 16).map (fun i => w1.entropy (w1.cursor + i)) ∧
      (envelope1.drop 16).take 12 =
        (List.range 12).map (fun i => w1.entropy (w1.cursor + 16 + i)) ∧
      (envelope1.drop 76).take 12 =
        (List.range 12).map (fun i => w1.entropy (w1.cursor + 28 + i)) ∧
      wc.encrypt (ivDataOf w1) 128
          (aesKey ((List.range 32).map (fun i => w1.entropy (w1.cursor + 40 + i))) "encrypt")
          fileData = Except.ok (envelope1.drop 88) ∧
      (encryptFile wc fileData password w1).2.cursor = w1.cursor + 72 ∧
      (encryptFile wc fileData password w1).2.entropy = w1.entropy := by
  obtain ⟨kek1, wrapped1, ciphertext1, hs1⟩ := sealed_exists wc hc fileData password w1
  obtain ⟨kek2, wrapped2, ciphertext2, hs2⟩ := sealed_exists wc hc fileData password w2
  have hEnc1 := encryptFile_sealed wc hc fileData password w1 kek1 wrapped1 ciphertext1 hPw hs1
  have hEnc2 := encryptFile_sealed wc hc fileData password w2 kek2 wrapped2 ciphertext2 hPw hs2
  have hSalt1 : (saltOf w1).length = 16 := by simp [saltOf]
  have hIvKEK1 : (ivKEKOf w1).length = 12 := by simp [ivKEKOf]
  have hIvData1 : (ivDataOf w1).length = 12 := by simp [ivDataOf]
  have hLen : ciphertext2.length = ciphertext1.length := by
    rw [hs1.ciphertextLength, hs2.ciphertextLength]
  have hf := extractFields_eq (saltOf w1) (ivKEKOf w1) wrapped1 (ivDataOf w1) ciphertext1
    hSalt1 hIvKEK1 hs1.wrappedLength hIvData1
  simp only [extractFields, slice, sliceFrom, SALT_SIZE, IV_SIZE, ENCRYPTED_DEK_SIZE,
    Nat.zero_add, Nat.reduceAdd, Nat.reduceSub, List.drop_zero, Nat.sub_zero,
    EnvelopeFields.mk.injEq] at hf
  refine ⟨saltOf w1 ++ ivKEKOf w1 ++ wrapped1 ++ ivDataOf w1 ++ ciphertext1,
    saltOf w2 ++ ivKEKOf w2 ++ wrapped2 ++ ivDataOf w2 ++ ciphertext2, ciphertext1.length,
    88 + ciphertext1.length, ?_, ?_, ?_, ?_, ?_, ?_, ?_, ?_, ?_⟩
  · rw [hEnc1]
  · rw [hEnc2, hLen]
  · intro hne hEq
    have h := envelope_fields_injective _ _ _ _ _ _ _ _ _ _ hSalt1 hIvKEK1 hs1.wrappedLength
      hIvData1 (by simp [saltOf]) (by simp [ivKEKOf]) hs2.wrappedLength (by simp [ivDataOf]) hEq
    rcases hne with h1 | h1 | h1
    · exact h1 h.1
    · exact h1 h.2.1
    · exact h1 h.2.2.2.1
  · rw [hf.1]
    simp [saltOf, drawn]
  · rw [hf.2.1]
    simp [ivKEKOf, drawn]
  · rw [hf.2.2.2.1]
    simp [ivDataOf, drawn]
  · rw [hf.2.2.2.2]
    exact hs1.payload
  · rw [hEnc1]
  · rw [hEnc1]

/-- C14 over the small instance: from the positions 0 and 100 of the same random stream the
two envelopes of the scenario of the specification differ. -/
theorem C14_output_follows_randomness_witness :
    12 ≤ jsLength "Str0ngP@ssw0rd123" ∧
    ∃ envelope1 envelope2 encryptedSize totalSize,
      (encryptFile toyCrypto helloWorld "Str0ngP@ssw0rd123" world0).1 =
        Except.ok (EncryptResult.success envelope1 13 encryptedSize totalSize 88) ∧
      (encryptFile toyCrypto helloWorld "Str0ngP@ssw0rd123" world100).1 =
        Except.ok (EncryptResult.success envelope2 13 encryptedSize totalSize 88) ∧
      envelope1 ≠ envelope2 := by
  obtain ⟨envelope1, envelope2, encryptedSize, totalSize, h1, h2, hne, -⟩ :=
    C14_output_follows_randomness toyCrypto toyCrypto_contract helloWorld "Str0ngP@ssw0rd123"
      (by decide) world0 world100
  exact ⟨by decide, envelope1, envelope2, encryptedSize, totalSize, h1, h2,
    hne (Or.inl (by decide))⟩

/-- C15 (key derivation): over primitives that work, for every password of length at least
12 and every salt, the result of `generateKEKFromPassword` is the outcome of the stretching
primitive on the UTF-8 bytes of the password, the salt, 600000 iterations, SHA-256 and
256 bits; it is a key of 32 bytes; it is the same in every state of the world. Both
`encryptFile` and `decryptFile` work with the key this function returns: the envelope
`encryptFile` returns holds the salt it drew and the DEK sealed under the key the function
returns for this salt; `decryptFile` on a blob of at least 104 bytes opens the wrapped DEK
of the blob under the key the function returns for the salt of the blob, its answer follows
from this opening, and a success of `decryptFile` is the outcome of this opening and of the
opening of the ciphertext under the DEK; so on the envelope `decryptFile` derives the key of
the encryption from the stored salt, opens the wrapped DEK under it and returns the
plaintext. -/
theorem C15_key_derivation (wc : WebCrypto) (hc : Contract wc) (fileData salt : List Byte)
    (password : String) (hPw : 12 ≤ jsLength password) (w w2 : World) :
    (generateKEKFromPassword wc password salt w).1 =
      wc.deriveBits salt 600000 "SHA-256"
        { algorithm := "PBKDF2", raw := textEncode password, extractable := false,
          usages := ["deriveBits"] } 256 ∧
    (∃ kek, (generateKEKFromPassword wc password salt w).1 = Except.ok kek ∧
      kek.length = 32) ∧
    (generateKEKFromPassword wc password salt w2).1 =
      (generateKEKFromPassword wc password salt w).1 ∧
    textEncode "Aé€😀" = [65, 195, 169, 226, 130, 172, 240, 159, 152, 128] ∧
    (∃ envelope kek wrapped encryptedSize totalSize headerSize,
      (encryptFile wc fileData password w).1 =
        Except.ok (EncryptResult.success envelope fileData.length encryptedSize totalSize
          headerSize) ∧
      (generateKEKFromPassword wc password (saltOf w) w).1 = Except.ok kek ∧
      wc.encrypt (ivKEKOf w) 128 (aesKey kek "encrypt") (dekOf w) = Except.ok wrapped ∧
      (extractFields envelope).salt = saltOf w ∧
      (extractFields envelope).ivKEK = ivKEKOf w ∧
      (extractFields envelope).encryptedDEK = wrapped ∧
      (generateKEKFromPassword wc password (extractFields envelope).salt w2).1 =
        (generateKEKFromPassword wc password (saltOf w) w).1 ∧
      wc.decrypt (extractFields envelope).ivKEK 128 (aesKey kek "decrypt")
        (extractFields envelope).encryptedDEK = Except.ok (dekOf w) ∧
      (decryptFile wc envelope password w2).1 =
        Except.ok (DecryptResult.success fileData fileData.length)) ∧
    (∀ blob, 104 ≤ blob.length →
      ∃ kek, (generateKEKFromPassword wc password (extractFields blob).salt w2).1 =
          Except.ok kek ∧
        (∀ e, wc.decrypt (extractFields blob).ivKEK 128 (aesKey kek "decrypt")
            (extractFields blob).encryptedDEK = Except.error e →
          (decryptFile wc blob password w2).1 =
            Except.ok (DecryptResult.failure wrongPasswordOrModifiedMessage)) ∧
        (∀ dek data, wc.decrypt (extractFields blob).ivKEK 128 (aesKey kek "decrypt")
            (extractFields blob).encryptedDEK = Except.ok dek → dek.length = 32 →
          wc.decrypt (extractFields blob).ivData 128 (aesKey dek "decrypt")
            (extractFields blob).ciphertext = Except.ok data →
          (decryptFile wc blob password w2).1 =
            Except.ok (DecryptResult.success data data.length))) ∧
    (∀ blob data size,
      (decryptFile wc blob password w2).1 = Except.ok (DecryptResult.success data size) →
      ∃ kek dek,
        (generateKEKFromPassword wc password (extractFields blob).salt w2).1 = Except.ok kek ∧
        wc.decrypt (extractFields blob).ivKEK 128 (aesKey kek "decrypt")
          (extractFields blob).encryptedDEK = Except.ok dek ∧
        wc.decrypt (extractFields blob).ivData 128 (aesKey dek "decrypt")
          (extractFields blob).ciphertext = Except.ok data) := by
  have hRes := fun (s : List Byte) (v : World) =>
    generateKEKFromPassword_result wc password s _ v hPw (hc.importPbkdf2 _)
  obtain ⟨kek, hDerive, hLen⟩ := hc.derive (textEncode password) salt
  obtain ⟨kek1, wrapped, ciphertext, hs⟩ := sealed_exists wc hc fileData password w
  have hSalt : (saltOf w).length = 16 := by simp [saltOf]
  have hIvKEK : (ivKEKOf w).length = 12 := by simp [ivKEKOf]
  have hIvData : (ivDataOf w).length = 12 := by simp [ivDataOf]
  have hf := extractFields_eq (saltOf w) (ivKEKOf w) wrapped (ivDataOf w) ciphertext
    hSalt hIvKEK hs.wrappedLength hIvData
  refine ⟨hRes salt w, ⟨kek, by rw [hRes salt w, hDerive], hLen⟩, by rw [hRes, hRes],
    by decide,
    ⟨saltOf w ++ ivKEKOf w ++ wrapped ++ ivDataOf w ++ ciphertext, kek1, wrapped,
      ciphertext.length, 88 + ciphertext.length, 88, ?_, by rw [hRes]; exact hs.derive,
      hs.wrap, by rw [hf], by rw [hf], by rw [hf], by rw [hf, hRes, hRes],
      by rw [hf]; exact hc.openSeal _ _ _ _ hs.wrap, ?_⟩,
    fun blob hBlob => ?_, fun blob data size hOk => ?_⟩
  · rw [encryptFile_sealed wc hc fileData password w kek1 wrapped ciphertext hPw hs]
  · exact decryptFile_fields_ok wc hc password w2 (saltOf w) (ivKEKOf w) wrapped (ivDataOf w)
      ciphertext kek1 (dekOf w) fileData hPw hSalt hIvKEK hs.wrappedLength hIvData
      (by rw [hs.ciphertextLength]; omega) hs.derive hs.kekLength
      (hc.openSeal _ _ _ _ hs.wrap) (by simp [dekOf]) (hc.openSeal _ _ _ _ hs.payload)
  · obtain ⟨kek2, hDerive2, -⟩ := hc.derive (textEncode password) (extractFields blob).salt
    obtain ⟨h1, -, -, h4⟩ := decryptFile_opens wc hc blob password w2 kek2 hBlob hPw hDerive2
    exact ⟨kek2, by rw [hRes]; exact hDerive2, h1, h4⟩
  · obtain ⟨-, kek2, dek, hDerive2, hUnwrap, -, hOpen, -⟩ :=
      decryptFile_success_opened wc hc blob password w2 data size hPw hOk
    exact ⟨kek2, dek, by rw [hRes]; exact hDerive2, hUnwrap, hOpen⟩

/-- C15 at the scenario of the specification, over the small instance: the key has 32
bytes, and `decryptFile` on the envelope returns the plaintext. -/
theorem C15_key_derivation_witness :
    12 ≤ jsLength "Str0ngP@ssw0rd123" ∧
    (∃ kek, (generateKEKFromPassword toyCrypto "Str0ngP@ssw0rd123" (saltOf world0) world0).1 =
      Except.ok kek ∧ kek.length = 32) ∧
    ∃ envelope encryptedSize totalSize headerSize,
      (encryptFile toyCrypto helloWorld "Str0ngP@ssw0rd123" world0).1 =
        Except.ok (EncryptResult.success envelope helloWorld.length encryptedSize totalSize
          headerSize) ∧
      (decryptFile toyCrypto envelope "Str0ngP@ssw0rd123" world100).1 =
        Except.ok (DecryptResult.success helloWorld helloWorld.length) := by
  obtain ⟨-, hKek, -, -, ⟨envelope, -, -, encryptedSize, totalSize, headerSize, hEnc, -, -, -,
      -, -, -, -, hDec⟩, -, -⟩ :=
    C15_key_derivation toyCrypto toyCrypto_contract helloWorld (saltOf world0)
      "Str0ngP@ssw0rd123" (by decide) world0 world100
  exact ⟨by decide, hKek, envelope, encryptedSize, totalSize, headerSize, hEnc, hDec⟩

/-- C16 as stated fails: the V1 envelope of a plaintext of 13 bytes, whose AES-CBC
ciphertext has 16 bytes, has 48 bytes, and V3 `decryptFile` rejects it at the format
check. -/
theorem C16_short_v1_blob_counterexample :
    cbcLength 13 = 16 ∧
    FileEncryptor.assembleEnvelope (saltOf world0) (List.replicate 16 1) (List.replicate 16 2) =
      Except.ok (saltOf world0 ++ List.replicate 16 1 ++ List.replicate 16 2) ∧
    (saltOf world0 ++ List.replicate 16 1 ++ List.replicate 16 2).length = 48 ∧
    (decryptFile toyCrypto (saltOf world0 ++ List.replicate 16 1 ++ List.replicate 16 2)
        "Str0ngP@ssw0rd123" world0).1 =
      Except.ok (DecryptResult.failure "Неправильний формат файлу (файл занадто малий)") :=
  ⟨rfl, rfl, rfl, rfl⟩

/-- C16 (cross-version blobs), amended: every V2 envelope (16 + 16 + 48 + 16 + CBC
ciphertext, at least 112 bytes) and every V1 envelope of a plaintext of at least 64 bytes
(16 + 16 + CBC ciphertext, at least 112 bytes) passes the format check of V3 `decryptFile`
and is sliced at the V3 offsets, so the fields are misparsed; a V1 envelope of a plaintext
shorter than 64 bytes has fewer than 104 bytes and is rejected at the format check.  Past
the format check, with a password of length at least 12 and primitives that work and
report a failed opening as an OperationError, `decryptFile` either succeeds or fails with
the authentication message. -/
theorem C16_cross_version_blobs (wc : WebCrypto) (password : String) (w : World) (n : Nat)
    (salt iv ivKEK encryptedDEK ivData ciphertext blob : List Byte)
    (hSalt : salt.length = 16) (hCt : ciphertext.length = cbcLength n) :
    (ivKEK.length = 16 → encryptedDEK.length = 48 → ivData.length = 16 →
      ∃ envelope,
        FileEncryptorV2.assembleEnvelope salt ivKEK encryptedDEK ivData ciphertext =
          Except.ok envelope ∧
        112 ≤ envelope.length ∧
        (∃ rest, (decryptFile wc envelope password w).2.trace =
          w.trace ++ formatOkEvent :: rest) ∧
        extractFields envelope =
          { salt := salt, ivKEK := ivKEK.take 12,
            encryptedDEK := ivKEK.drop 12 ++ encryptedDEK.take 44,
            ivData := encryptedDEK.drop 44 ++ ivData.take 8,
            ciphertext := ivData.drop 8 ++ ciphertext }) ∧
    (iv.length = 16 →
      ∃ envelope,
        FileEncryptor.assembleEnvelope salt iv ciphertext = Except.ok envelope ∧
        envelope.length = 32 + cbcLength n ∧
        (n < 64 → envelope.length < 104 ∧
          (decryptFile wc envelope password w).1 =
            Except.ok (DecryptResult.failure fileTooSmallMessage)) ∧
        (64 ≤ n → 112 ≤ envelope.length ∧
          (∃ rest, (decryptFile wc envelope password w).2.trace =
            w.trace ++ formatOkEvent :: rest) ∧
          extractFields envelope =
            { salt := salt, ivKEK := iv.take 12,
              encryptedDEK := iv.drop 12 ++ ciphertext.take 44,
              ivData := (ciphertext.drop 44).take 12,
              ciphertext := ciphertext.drop 56 })) ∧
    (104 ≤ blob.length → 12 ≤ jsLength password → Contract wc →
      (∀ nonce key c e, wc.decrypt nonce 128 key c = Except.error e →
        e.name = "OperationError") →
      (∃ data size, (decryptFile wc blob password w).1 =
        Except.ok (DecryptResult.success data size)) ∨
      (decryptFile wc blob password w).1 =
        Except.ok (DecryptResult.failure wrongPasswordOrModifiedMessage)) := by
  have hCbc : 16 ≤ cbcLength n := by
    simp only [cbcLength]
    omega
  refine ⟨fun hIvKEK hDEK hIvData => ?_, fun hIv => ?_, fun hBlob hPw hc hOp => ?_⟩
  · have hLen : 112 ≤ (salt ++ ivKEK ++ encryptedDEK ++ ivData ++ ciphertext).length := by
      simp [hSalt, hIvKEK, hDEK, hIvData, hCt]
      omega
    exact ⟨_, v2_assembleEnvelope_eq salt ivKEK encryptedDEK ivData ciphertext hSalt hIvKEK hDEK
      hIvData, hLen, decryptFile_passes_check wc _ password w (by omega),
      v2_misparse salt ivKEK encryptedDEK ivData ciphertext hSalt hIvKEK hDEK hIvData⟩
  · have hLen : (salt ++ iv ++ ciphertext).length = 32 + cbcLength n := by
      simp [hSalt, hIv, hCt]
      omega
    refine ⟨_, v1_assembleEnvelope_eq salt iv ciphertext hSalt hIv, hLen, fun hn => ?_,
      fun hn => ?_⟩
    · have hSmall : (salt ++ iv ++ ciphertext).length < 104 := by
        rw [hLen]
        simp only [cbcLength]
        omega
      exact ⟨hSmall, by rw [decryptFile_small wc _ password w hSmall]⟩
    · have hBig : 80 ≤ cbcLength n := by
        simp only [cbcLength]
        omega
      exact ⟨by rw [hLen]; omega,
        decryptFile_passes_check wc _ password w (by rw [hLen]; omega),
        v1_misparse salt iv ciphertext hSalt hIv (by rw [hCt]; omega)⟩
  · exact decryptFile_authOnly wc hc hOp blob password w hBlob hPw

/-- C16 amended, over the small instance: a V2 envelope of a 13-byte plaintext passes the
format check and then fails with the authentication message. -/
theorem C16_cross_version_blobs_witness :
    ∃ envelope,
      FileEncryptorV2.assembleEnvelope (saltOf world0) (List.replicate 16 1)
        (List.replicate 48 2) (List.replicate 16 3) (List.replicate 16 4) =
          Except.ok envelope ∧
      112 ≤ envelope.length ∧
      (decryptFile toyCrypto envelope "Str0ngP@ssw0rd123" world0).1 =
        Except.ok (DecryptResult.failure wrongPasswordOrModifiedMessage) := by
  obtain ⟨hV2, -, -⟩ := C16_cross_version_blobs toyCrypto "Str0ngP@ssw0rd123" world0 13
    (saltOf world0) (List.replicate 16 1) (List.replicate 16 1) (List.replicate 48 2)
    (List.replicate 16 3) (List.replicate 16 4) [] (by decide) (by decide)
  obtain ⟨envelope, hAsm, hLen, -, -⟩ := hV2 (by decide) (by decide) (by decide)
  refine ⟨envelope, hAsm, hLen, ?_⟩
  have hEq : envelope = saltOf world0 ++ List.replicate 16 1 ++ List.replicate 48 2 ++
      List.replicate 16 3 ++ List.replicate 16 4 := by
    have h2 : FileEncryptorV2.assembleEnvelope (saltOf world0) (List.replicate 16 1)
        (List.replicate 48 2) (List.replicate 16 3) (List.replicate 16 4) =
          Except.ok (saltOf world0 ++ List.replicate 16 1 ++ List.replicate 48 2 ++
            List.replicate 16 3 ++ List.replicate 16 4) :=
      v2_assembleEnvelope_eq _ _ _ _ _ (by decide) (by decide) (by decide) (by decide)
    exact Except.ok.inj (hAsm.symm.trans h2)
  rw [hEq]
  rfl

/-- C17 (advisory complexity check): for every password of length at least 12 the score is
the number of classes present among upper A-Z, lower a-z, digit 0-9 and the twenty special
characters; `validatePassword` writes the weak-password warning exactly when the score is
below 3, and returns true in both cases. -/
theorem C17_advisory_complexity (password : String) (w : World)
    (hPw : 12 ≤ jsLength password) :
    complexityScore password =
      (if hasUpper password then 1 else 0) + (if hasLower password then 1 else 0) +
        (if hasNumber password then 1 else 0) + (if hasSpecial password then 1 else 0) ∧
    (hasUpper password = true ↔
      ∃ c ∈ password.toList, 'A'.toNat ≤ c.toNat ∧ c.toNat ≤ 'Z'.toNat) ∧
    (hasLower password = true ↔
      ∃ c ∈ password.toList, 'a'.toNat ≤ c.toNat ∧ c.toNat ≤ 'z'.toNat) ∧
    (hasNumber password = true ↔
      ∃ c ∈ password.toList, '0'.toNat ≤ c.toNat ∧ c.toNat ≤ '9'.toNat) ∧
    (hasSpecial password = true ↔
      ∃ c ∈ password.toList, c ∈ "!@#$%^&*(),.?\x22:\x7b\x7d|<>".toList) ∧
    validatePassword password w =
      (Except.ok true,
        { w with trace := w.trace ++
          (if complexityScore password < 3 then [Event.consoleWarn weakPasswordWarning]
            else []) }) := by
  refine ⟨?_, ?_, ?_, ?_, ?_, validatePassword_ok password w hPw⟩
  · simp only [complexityScore]
    cases hasUpper password <;> cases hasLower password <;> cases hasNumber password <;>
      cases hasSpecial password <;> rfl
  · simp only [hasUpper, List.any_eq_true, decide_eq_true_eq]
    rfl
  · simp only [hasLower, List.any_eq_true, decide_eq_true_eq]
    rfl
  · simp only [hasNumber, List.any_eq_true, decide_eq_true_eq]
    rfl
  · simp only [hasSpecial, List.any_eq_true, decide_eq_true_eq]
    constructor
    · rintro ⟨c, hc, hIn⟩
      refine ⟨c, hc, ?_⟩
      have hMap : c.toNat ∈ ("!@#$%^&*(),.?\x22:\x7b\x7d|<>".toList.map Char.toNat) := hIn
      obtain ⟨d, hd, hEq⟩ := List.mem_map.mp hMap
      have : d = c := Char.ext (UInt32.ext (by simpa [Char.toNat, UInt32.toNat] using hEq))
      rw [← this]
      exact hd
    · rintro ⟨c, hc, hIn⟩
      exact ⟨c, hc, List.mem_map.mpr ⟨c, hIn, rfl⟩⟩

/-- C17 at a password of twelve lower-case letters, which has score 1: the warning is
written and the result is true. -/
theorem C17_advisory_complexity_witness :
    12 ≤ jsLength "aaaaaaaaaaaa" ∧ complexityScore "aaaaaaaaaaaa" = 1 ∧
    validatePassword "aaaaaaaaaaaa" world0 =
      (Except.ok true,
        { world0 with trace := world0.trace ++ [Event.consoleWarn weakPasswordWarning] }) :=
  ⟨by decide, by decide,
    (C17_advisory_complexity "aaaaaaaaaaaa" world0 (by decide)).2.2.2.2.2⟩

/-- C19 (password policy on decrypt): for every blob of at least 104 bytes and every
password shorter than 12, the empty one included, `decryptFile` returns the failure with
the length-policy message, which is not the authentication message, and the only calls it
makes are the format line and the `console.error` record: no key import, no key
derivation, no AEAD opening. -/
theorem C19_password_policy_on_decrypt (wc : WebCrypto) (blob : List Byte)
    (password : String) (w : World) (hBlob : 104 ≤ blob.length)
    (hPw : jsLength password < 12) :
    decryptFile wc blob password w =
      (Except.ok (DecryptResult.failure "Пароль повинен містити мінімум 12 символів"),
        { w with trace := w.trace ++
          [Event.consoleLog "[INFO] Формат файлу коректний, розшифровуємо...",
           Event.consoleError "[ERROR] Помилка розшифрування:"
             (JsError.mkError "Пароль повинен містити мінімум 12 символів")] }) ∧
    "Пароль повинен містити мінімум 12 символів" ≠ wrongPasswordOrModifiedMessage :=
  ⟨decryptFile_shortPassword wc blob password w hBlob hPw, by decide⟩

/-- C19 at a blob of 104 bytes with the empty password. -/
theorem C19_password_policy_on_decrypt_witness :
    104 ≤ (List.replicate 104 0).length ∧ jsLength "" < 12 ∧
    decryptFile toyCrypto (List.replicate 104 0) "" world0 =
      (Except.ok (DecryptResult.failure "Пароль повинен містити мінімум 12 символів"),
        { world0 with trace := world0.trace ++
          [Event.consoleLog "[INFO] Формат файлу коректний, розшифровуємо...",
           Event.consoleError "[ERROR] Помилка розшифрування:"
             (JsError.mkError "Пароль повинен містити мінімум 12 символів")] }) :=
  ⟨by decide, by decide,
    (C19_password_policy_on_decrypt toyCrypto (List.replicate 104 0) "" world0 (by decide)
      (by decide)).1⟩

/-- C18 (decrypt fails fast): for a blob of at least 104 bytes and a password of length at
least 12 whose key derivation returns, if the opening of the wrapped DEK fails, then
`decryptFile` returns the authentication failure after the format line, the key
derivation, the import of the KEK and at most one AEAD opening, the one of the wrapped DEK:
the payload is never opened and the success line is never written; and every other blob of
at least 104 bytes with the same first 76 bytes gives the same result and the same calls. -/
theorem C18_decrypt_fails_fast (wc : WebCrypto) (blob other : List Byte) (password : String)
    (w : World) (baseKey : CryptoKey) (kek : List Byte)
    (hBlob : 104 ≤ blob.length) (hOther : 104 ≤ other.length)
    (hPw : 12 ≤ jsLength password)
    (hBase : wc.importKey "raw" (textEncode password) "PBKDF2" false ["deriveBits"] =
      Except.ok baseKey)
    (hDerive : wc.deriveBits (extractFields blob).salt PBKDF2_ITERATIONS "SHA-256" baseKey 256 =
      Except.ok kek)
    (hFail : UnwrapThrows wc (extractFields blob).encryptedDEK kek (extractFields blob).ivKEK)
    (hAgree : blob.take 76 = other.take 76) :
    (∃ dekEvents,
      (dekEvents = [Event.importKey "AES-GCM" ["decrypt"]] ∨
        dekEvents = [Event.importKey "AES-GCM" ["decrypt"], Event.decrypt 128]) ∧
      decryptFile wc blob password w =
        (Except.ok (DecryptResult.failure wrongPasswordOrModifiedMessage),
          { w with trace := w.trace ++ [formatOkEvent] ++ kekEvents password ++ dekEvents ++
            [decryptErrorEvent (JsError.mkError wrongPasswordOrDamagedMessage)] }) ∧
      ([formatOkEvent] ++ kekEvents password ++ dekEvents ++
        [decryptErrorEvent (JsError.mkError wrongPasswordOrDamagedMessage)]).count
          (Event.decrypt 128) ≤ 1) ∧
    decryptFile wc other password w = decryptFile wc blob password w := by
  obtain ⟨e, dekEvents, hShape, hRun⟩ := unwrapThrows_run wc _ _ _ hFail
  obtain ⟨hS, hI, hD⟩ := head_fields_agree blob other hAgree
  have h1 := decryptFile_unwrapThrows wc blob password w baseKey kek e dekEvents hBlob hPw hBase
    hDerive hRun
  have h2 := decryptFile_unwrapThrows wc other password w baseKey kek e dekEvents hOther hPw
    hBase (by rw [hS]; exact hDerive) (by rw [hI, hD]; exact hRun)
  refine ⟨⟨dekEvents, hShape, h1, ?_⟩, by rw [h1, h2]⟩
  simp only [List.count_append, kekEvents_no_decrypt]
  rcases hShape with h | h <;> rw [h] <;> decide

/-- C18 over the small instance: two blobs of 104 and 120 bytes with the same 76 zero bytes
in front, whose wrapped DEK does not open, give the same result. -/
theorem C18_decrypt_fails_fast_witness :
    decryptFile toyCrypto (List.replicate 76 0 ++ List.replicate 44 9) "Str0ngP@ssw0rd123"
        world0 =
      decryptFile toyCrypto (List.replicate 104 0) "Str0ngP@ssw0rd123" world0 ∧
    (decryptFile toyCrypto (List.replicate 104 0) "Str0ngP@ssw0rd123" world0).1 =
      Except.ok (DecryptResult.failure wrongPasswordOrModifiedMessage) := by
  have h := C18_decrypt_fails_fast toyCrypto (List.replicate 104 0)
    (List.replicate 76 0 ++ List.replicate 44 9) "Str0ngP@ssw0rd123" world0 _ _ (by decide)
    (by simp) (by decide) rfl rfl
    (Or.inr ⟨_, rfl, Or.inl ⟨toyOperationError, rfl⟩⟩)
    (by rw [take_front _ _ 76 (by simp), List.take_replicate]; rfl)
  obtain ⟨⟨dekEvents, -, hRun, -⟩, hSame⟩ := h
  exact ⟨hSame, by rw [hRun]⟩

/-- C20 (the DEK size check): for every blob of at least 104 bytes the wrapped DEK that
`decryptFile` passes to `decryptDEK` has exactly 48 bytes, so when an opening removes the
16-byte tag an opened DEK has exactly 32 bytes, `decryptDEK` returns it, and the wrong-size
branch is not taken; called directly on any input whose key import and opening return,
`decryptDEK` throws the wrong-size error exactly when the opened text has not 32 bytes and
returns the opened text exactly when it has. -/
theorem C20_dek_size_check (wc : WebCrypto) (blob encryptedDEK kek iv opened : List Byte)
    (kekKey : CryptoKey) (w : World)
    (hImport : wc.importKey "raw" kek "AES-GCM" false ["decrypt"] = Except.ok kekKey) :
    (104 ≤ blob.length → (extractFields blob).encryptedDEK.length = 48) ∧
    (104 ≤ blob.length → OpenRemovesTag wc →
      ∀ dek, wc.decrypt (extractFields blob).ivKEK 128 kekKey (extractFields blob).encryptedDEK =
          Except.ok dek →
        dek.length = 32 ∧
        (decryptDEK wc (extractFields blob).encryptedDEK kek (extractFields blob).ivKEK w).1 =
          Except.ok dek) ∧
    (wc.decrypt iv 128 kekKey encryptedDEK = Except.ok opened →
      ((decryptDEK wc encryptedDEK kek iv w).1 =
          Except.error (JsError.mkError
            ("DEK має неправильний розмір: " ++ toString opened.length ++
              " (очікувалось 32)")) ↔
        opened.length ≠ 32) ∧
      ((decryptDEK wc encryptedDEK kek iv w).1 = Except.ok opened ↔ opened.length = 32)) := by
  have h48 : 104 ≤ blob.length → (extractFields blob).encryptedDEK.length = 48 := by
    intro h
    simp [extractFields, slice, SALT_SIZE, IV_SIZE, ENCRYPTED_DEK_SIZE]
    omega
  refine ⟨h48, fun hBlob hTag dek hOpen => ?_, fun hOpen => ?_⟩
  · have hLen : dek.length = 32 := by
      have := hTag _ _ _ _ hOpen
      rw [h48 hBlob] at this
      simp only [AUTH_TAG_SIZE] at this
      omega
    exact ⟨hLen, by rw [decryptDEK_returns wc _ kek _ dek kekKey w hImport hOpen hLen]⟩
  · by_cases hLen : opened.length = 32
    · rw [decryptDEK_returns wc _ kek _ opened kekKey w hImport hOpen hLen]
      refine ⟨⟨fun h => ?_, fun h => absurd hLen h⟩, ⟨fun _ => hLen, fun _ => rfl⟩⟩
      cases h
    · rw [decryptDEK_wrongSize wc _ kek _ opened kekKey w hImport hOpen hLen,
        dekWrongSizeMessage_eq]
      refine ⟨⟨fun _ => hLen, fun _ => rfl⟩, ⟨fun h => ?_, fun h => absurd h hLen⟩⟩
      cases h

/-- C20 over the small instance, whose opening removes the tag: inside a blob of 104 bytes
the wrapped DEK has 48 bytes and opens to the 32 bytes of the DEK; called directly on a
sealed text of 4 + 16 bytes, `decryptDEK` throws the wrong-size error naming 4 and 32. -/
theorem C20_dek_size_check_witness :
    (extractFields forgedPayloadBlob).encryptedDEK.length = 48 ∧
    (decryptDEK toyCrypto (extractFields forgedPayloadBlob).encryptedDEK toyKek
        (extractFields forgedPayloadBlob).ivKEK world0).1 = Except.ok (dekOf world0) ∧
    (decryptDEK toyCrypto ([1, 2, 3, 4] ++ toyTag (ivKEKOf world0) toyKek [1, 2, 3, 4]) toyKek
        (ivKEKOf world0) world0).1 =
      Except.error (JsError.mkError "DEK має неправильний розмір: 4 (очікувалось 32)") := by
  have hf : extractFields forgedPayloadBlob =
      { salt := saltOf world0, ivKEK := ivKEKOf world0,
        encryptedDEK := dekOf world0 ++ toyTag (ivKEKOf world0) toyKek (dekOf world0),
        ivData := ivDataOf world0, ciphertext := List.replicate 16 0 } :=
    extractFields_eq _ _ _ _ _ (by simp [saltOf]) (by simp [ivKEKOf])
      (by simp [dekOf, toyTag_length]) (by simp [ivDataOf])
  have hLen : 104 ≤ forgedPayloadBlob.length := by
    simp [forgedPayloadBlob, saltOf, ivKEKOf, ivDataOf, dekOf, toyTag_length]
  have hUnwrap : toyCrypto.decrypt (extractFields forgedPayloadBlob).ivKEK 128
      (aesKey toyKek "decrypt") (extractFields forgedPayloadBlob).encryptedDEK =
        Except.ok (dekOf world0) := by
    rw [hf]
    exact toyCrypto_contract.openSeal _ _ _ _ rfl
  have hOpen : toyCrypto.decrypt (ivKEKOf world0) 128 (aesKey toyKek "decrypt")
      ([1, 2, 3, 4] ++ toyTag (ivKEKOf world0) toyKek [1, 2, 3, 4]) = Except.ok [1, 2, 3, 4] :=
    toyCrypto_contract.openSeal _ _ _ _ rfl
  have hAll := C20_dek_size_check toyCrypto forgedPayloadBlob
    ([1, 2, 3, 4] ++ toyTag (ivKEKOf world0) toyKek [1, 2, 3, 4]) toyKek (ivKEKOf world0)
    [1, 2, 3, 4] (aesKey toyKek "decrypt") world0 rfl
  exact ⟨hAll.1 hLen, (hAll.2.1 hLen toyCrypto_removesTag _ hUnwrap).2,
    (hAll.2.2 hOpen).1.mpr (by decide)⟩

/-- C21 (download file name round trip): for every file name, the decrypt handler applied to
the name the encrypt handler produced, the name followed by .encrypted, gives back the
name; for every name that does not end in .encrypted it gives the name followed by
.decrypted; and on a name that ends in .encrypted it removes exactly the 10 code units of
that suffix. -/
theorem C21_file_name_round_trip (name : App.JsString) :
    App.decryptedFileName (App.encryptedFileName name) = name ∧
    (¬ (App.utf16 ".encrypted" <:+ name) →
      App.decryptedFileName name = name ++ App.utf16 ".decrypted") ∧
    (App.utf16 ".encrypted" <:+ name →
      App.decryptedFileName name ++ App.utf16 ".encrypted" = name ∧
      (App.decryptedFileName name).length + 10 = name.length) ∧
    (App.utf16 ".encrypted").length = 10 := by
  refine ⟨decryptedFileName_strip name, fun h => ?_, fun h => ?_, encrypted_suffix_length⟩
  · simp [App.decryptedFileName, App.endsWith, h]
  · obtain ⟨stem, hStem⟩ := h
    rw [← hStem, decryptedFileName_strip stem]
    exact ⟨rfl, by rw [List.length_append, encrypted_suffix_length]⟩

/-- C21 at the names report.pdf, report.pdf.encrypted and notes.txt. -/
theorem C21_file_name_round_trip_witness :
    App.decryptedFileName (App.utf16 "report.pdf.encrypted") = App.utf16 "report.pdf" ∧
    App.decryptedFileName (App.utf16 "notes.txt") = App.utf16 "notes.txt.decrypted" := by
  have h1 := (C21_file_name_round_trip (App.utf16 "report.pdf")).1
  have h2 := (C21_file_name_round_trip (App.utf16 "notes.txt")).2.1 (by decide)
  exact ⟨h1, h2⟩

end FileEncryptorV3
